import Mathlib

/-!
# eventter message broker

A shallow embedding of the routing engine (`mq/match.go`: `messageMatches`,
`routingKeyMatches`), of the replicated cluster state (`mq/cluster_state_store.go`,
`mq/cluster_state_do_consumer_groups.go`) and of the AMQP 0-9-1 `basic.nack` handler
(`mq/server_amqp_v0_basic_nack.go`), with the properties proved about them.

Modelling conventions.

* A Go `string` is a sequence of bytes. It is modelled by `GoString = List Char`, one
  `Char` per byte; the code only compares bytes for equality, searches for the byte
  `'.'` and slices, so any injective naming of bytes by characters gives the same
  behaviour. `s[:i]` is `s.take i`, `s[i+1:]` is `s.drop (i + 1)`.
* `strings.IndexByte` returns `-1` when the byte is absent; the model returns
  `Option Nat` with `none` for `-1`.
* Pointers that the code dereferences without a nil test (`message`, `topic`,
  `consumerGroup`, each binding, the struct of a headers clause) are modelled by the
  value they point to. Pointers and maps that the code tests against nil
  (`message.Headers`, `message.Headers.Fields`) are `Option`s.
* A Go `map[string]*Value` is modelled by an association list read with
  `List.lookup`; `range` over it visits every entry. The protobuf `Value` type and
  `reflect.DeepEqual` on it are parameters `V` and `deepEqual`.
* `time.Time` is modelled by the integer instant it denotes; `t.Before(u)` is `t < u`.
* A Go `panic` is modelled by the result `none`.
-/

namespace Eventter

/-! ## Strings -/

/-- Go `string`: a sequence of bytes, one `Char` per byte. -/
abbrev GoString := List Char

/-- Go `strings.IndexByte(s, c)`: index of the first `c` in `s`, `none` for `-1`. -/
def indexByte : GoString → Char → Option Nat
  | [], _ => none
  | b :: s, c => if b = c then some 0 else (indexByte s c).map (· + 1)

/-- Go `strings.HasSuffix(s, string(c))`: the last byte of `s` is `c`. -/
def endsWithByte (s : GoString) (c : Char) : Prop := s.getLast? = some c

instance (s : GoString) (c : Char) : Decidable (endsWithByte s c) :=
  inferInstanceAs (Decidable (s.getLast? = some c))

/-! ## Data model (the fields read by the routing engine) -/

/-- Go `time.Time`, as the instant it denotes. -/
abbrev Time := Int

/-- Go `t.Before(u)`. -/
def Time.Before (t u : Time) : Bool := decide (t < u)

/-- The values of `ClusterTopic.Type` (`client.TopicType_*`); `other` is any string that is
none of the four constants. -/
inductive TopicType where
  | DIRECT
  | FANOUT
  | TOPIC
  | HEADERS
  | other (name : GoString)
  deriving DecidableEq, Repr

/-- Protobuf `types.Struct`: `Fields` is a map that may be nil (`none`). -/
structure Struct (V : Type) where
  Fields : Option (List (GoString × V))

/-- Go `client.Message`: routing key and optional header struct (`none` is a nil pointer). -/
structure Message (V : Type) where
  RoutingKey : GoString
  Headers : Option (Struct V)

/-- The oneof `ClusterConsumerGroup_Binding.By`; `none` is a nil interface (fanout). -/
inductive BindingBy (V : Type) where
  | none
  | RoutingKey (RoutingKey : GoString)
  | HeadersAll (HeadersAll : Struct V)
  | HeadersAny (HeadersAny : Struct V)

/-- Go `ClusterConsumerGroup_Binding`. -/
structure ClusterConsumerGroup_Binding (V : Type) where
  TopicName : GoString
  By : BindingBy V

/-- Go `ClusterConsumerGroup_OffsetCommit`. -/
structure ClusterConsumerGroup_OffsetCommit where
  SegmentID : Nat
  Offset : Int
  deriving DecidableEq, Repr

/-- Go `ClusterTopic` (the fields the routing engine and the segment coordinator read);
`Type_` is the Go field `Type`, `Shards` is a `uint32`. -/
structure ClusterTopic where
  Name : GoString
  Type_ : TopicType
  Shards : Nat := 0

/-- Go `ClusterConsumerGroup`. -/
structure ClusterConsumerGroup (V : Type) where
  Name : GoString
  Bindings : List (ClusterConsumerGroup_Binding V)
  Size_ : Nat
  OffsetCommits : List ClusterConsumerGroup_OffsetCommit
  CreatedAt : Time

/-! ## `routingKeyMatches` -/

/-- Go constant `patternSeparator = '.'`. -/
def patternSeparator : Char := '.'

/-- Go constant `patternWildcard = "*"`. -/
def patternWildcard : GoString := ['*']

/-- Go constant `patternZeroOrMore = "#"`. -/
def patternZeroOrMore : GoString := ['#']

/-- Lexicographic descent on triples of naturals, for the termination proof below. -/
theorem lex3 {a b c a' b' c' : Nat}
    (h : a < a' ∨ (a = a' ∧ (b < b' ∨ (b = b' ∧ c < c')))) :
    Prod.Lex (fun x y : Nat => x < y) (Prod.Lex (fun x y : Nat => x < y) (fun x y : Nat => x < y))
      (a, b, c) (a', b', c') := by
  rcases h with h | ⟨rfl, h | ⟨rfl, h⟩⟩
  · exact Prod.Lex.left _ _ h
  · exact Prod.Lex.right _ (Prod.Lex.left _ _ h)
  · exact Prod.Lex.right _ (Prod.Lex.right _ h)

mutual
/-- Go `routingKeyMatches(pattern, routingKey)`. The reassignment
`routingKey = routingKey[j+1:]` is written out as `routingKey.drop (j + 1)`. -/
def routingKeyMatches (pattern routingKey : GoString) : Bool :=
  if pattern = [] then
    decide (routingKey = [])
  else
    match indexByte pattern patternSeparator with
    | none =>
      if pattern = patternWildcard then
        decide (routingKey ≠ []) && decide (indexByte routingKey patternSeparator = none)
      else if pattern = patternZeroOrMore then
        match indexByte routingKey patternSeparator with
        | none => true
        | some j =>
          if routingKey.drop (j + 1) = [] then -- trailing dot
            false
          else
            routingKeyMatches pattern (routingKey.drop (j + 1))
      else
        decide (routingKey = pattern)
    | some i =>
      -- part := pattern[:i], rest := pattern[i+1:]
      if pattern.take i = patternWildcard then
        match indexByte routingKey patternSeparator with
        | none =>
          if routingKey = [] then
            false
          else
            routingKeyMatches (pattern.drop (i + 1)) []
        | some j =>
          if routingKey.drop (j + 1) = [] then -- trailing dot
            false
          else
            routingKeyMatches (pattern.drop (i + 1)) (routingKey.drop (j + 1))
      else if pattern.take i = patternZeroOrMore then
        zeroOrMoreLoop (pattern.drop (i + 1)) routingKey
      else
        match indexByte routingKey patternSeparator with
        | none =>
          decide (routingKey = pattern.take i) && routingKeyMatches (pattern.drop (i + 1)) []
        | some j =>
          if routingKey.take j ≠ pattern.take i then
            false
          else if routingKey.drop (j + 1) = [] then -- trailing dot
            false
          else
            routingKeyMatches (pattern.drop (i + 1)) (routingKey.drop (j + 1))
termination_by (pattern.length, routingKey.length, 1)
decreasing_by
  all_goals simp_wf
  all_goals (try have hp := List.length_pos.2 ‹¬ pattern = []›)
  all_goals (try have hk := mt List.drop_eq_nil_iff.2 ‹¬ List.drop _ routingKey = []›)
  all_goals (apply lex3; omega)

/-- The `for` loop of the `#` branch of `routingKeyMatches` (part = `#`, followed by
`rest`): one call is one iteration, started with the current `routingKey`. -/
def zeroOrMoreLoop (rest routingKey : GoString) : Bool :=
  if routingKeyMatches rest routingKey then
    true
  else
    match indexByte routingKey patternSeparator with
    | none => false
    | some j =>
      if routingKey.drop (j + 1) = [] then -- trailing dot
        false
      else
        zeroOrMoreLoop rest (routingKey.drop (j + 1))
termination_by (rest.length + 1, routingKey.length, 0)
decreasing_by
  all_goals simp_wf
  all_goals (try have hk := mt List.drop_eq_nil_iff.2 ‹¬ List.drop _ routingKey = []›)
  all_goals (apply lex3; omega)
end

/-! ## `messageMatches` -/

section MessageMatches

variable {V : Type}

/-- The `DIRECT` loop over `consumerGroup.Bindings`. -/
def directLoop (topicName routingKey : GoString) :
    List (ClusterConsumerGroup_Binding V) → Bool
  | [] => false
  | binding :: bindings =>
    if binding.TopicName ≠ topicName then
      directLoop topicName routingKey bindings
    else
      match binding.By with
      | .RoutingKey k =>
        if k = routingKey then true else directLoop topicName routingKey bindings
      | _ => directLoop topicName routingKey bindings

/-- The `TOPIC` loop over `consumerGroup.Bindings`. -/
def topicLoop (topicName routingKey : GoString) :
    List (ClusterConsumerGroup_Binding V) → Bool
  | [] => false
  | binding :: bindings =>
    if binding.TopicName ≠ topicName then
      topicLoop topicName routingKey bindings
    else
      match binding.By with
      | .RoutingKey k =>
        if routingKeyMatches k routingKey then true
        else topicLoop topicName routingKey bindings
      | _ => topicLoop topicName routingKey bindings

/-- The inner loop of a `HeadersAll` binding: `false` as soon as an expected header is
missing or differs (`continue BINDING`), `true` when the map is exhausted. -/
def headersAllLoop (deepEqual : V → V → Bool) (got : List (GoString × V)) :
    List (GoString × V) → Bool
  | [] => true
  | (headerName, expectedHeaderValue) :: expected =>
    match got.lookup headerName with
    | none => false
    | some gotHeaderValue =>
      if !deepEqual expectedHeaderValue gotHeaderValue then false
      else headersAllLoop deepEqual got expected

/-- The inner loop of a `HeadersAny` binding: `true` as soon as an expected header is
present with an equal value, `false` when the map is exhausted. -/
def headersAnyLoop (deepEqual : V → V → Bool) (got : List (GoString × V)) :
    List (GoString × V) → Bool
  | [] => false
  | (headerName, expectedHeaderValue) :: expected =>
    match got.lookup headerName with
    | none => headersAnyLoop deepEqual got expected
    | some gotHeaderValue =>
      if deepEqual expectedHeaderValue gotHeaderValue then true
      else headersAnyLoop deepEqual got expected

/-- Go `range m.Fields` for a struct whose map may be nil: a nil map has no entries. -/
def Struct.entries (s : Struct V) : List (GoString × V) := s.Fields.getD []

/-- The `HEADERS` loop (label `BINDING`) over `consumerGroup.Bindings`; `got` is
`message.Headers.Fields`. A `HeadersAny` binding naming the topic returns from the
function whether or not it matched. -/
def headersLoop (deepEqual : V → V → Bool) (topicName : GoString)
    (got : List (GoString × V)) : List (ClusterConsumerGroup_Binding V) → Bool
  | [] => false
  | binding :: bindings =>
    if binding.TopicName ≠ topicName then
      headersLoop deepEqual topicName got bindings
    else
      match binding.By with
      | .HeadersAll s =>
        if headersAllLoop deepEqual got s.entries then true
        else headersLoop deepEqual topicName got bindings
      | .HeadersAny s => headersAnyLoop deepEqual got s.entries
      | _ => headersLoop deepEqual topicName got bindings

/-- Go `messageMatches(message, messageTime, topic, consumerGroup)`; `none` is the
panic on an unhandled topic type. -/
def messageMatches (deepEqual : V → V → Bool) (message : Message V) (messageTime : Time)
    (topic : ClusterTopic) (consumerGroup : ClusterConsumerGroup V) : Option Bool :=
  if messageTime.Before consumerGroup.CreatedAt then
    some false
  else
    match topic.Type_ with
    | .DIRECT => some (directLoop topic.Name message.RoutingKey consumerGroup.Bindings)
    | .FANOUT => some true
    | .TOPIC => some (topicLoop topic.Name message.RoutingKey consumerGroup.Bindings)
    | .HEADERS =>
      match message.Headers with
      | none => some false
      | some headers =>
        match headers.Fields with
        | none => some false
        | some fields => some (headersLoop deepEqual topic.Name fields consumerGroup.Bindings)
    | .other _ => none

end MessageMatches

/-! ## Notions used to state the properties -/

/-- A HeadersAll or HeadersAny binding matches the header map `got` in the sense of the
specification: every (respectively some) expected pair is present with an equal value.
Other clauses do not match. -/
def bindingMatchesHeaders {V : Type} (deepEqual : V → V → Bool) (got : List (GoString × V)) :
    BindingBy V → Prop
  | .HeadersAll s => ∀ p ∈ s.entries, ∃ g, got.lookup p.1 = some g ∧ deepEqual p.2 g = true
  | .HeadersAny s => ∃ p ∈ s.entries, ∃ g, got.lookup p.1 = some g ∧ deepEqual p.2 g = true
  | _ => False

/-- Go `strings.Join(segments, ".")`: the routing key made of the given segments. -/
def joinSegments : List GoString → GoString
  | [] => []
  | [s] => s
  | s :: t :: ts => s ++ patternSeparator :: joinSegments (t :: ts)

/-- Go `strings.Split(s, ".")`: the dot-separated segments of `s`. -/
def splitSegments : GoString → List GoString
  | [] => [[]]
  | c :: s =>
    if c = patternSeparator then [] :: splitSegments s
    else
      match splitSegments s with
      | [] => [[c]]
      | seg :: segs => (c :: seg) :: segs

/-- A literal pattern: none of its dot-separated segments is `*` or `#`, and it does not
end with the separator. -/
def isLiteralPattern (pattern : GoString) : Prop :=
  patternWildcard ∉ splitSegments pattern ∧ patternZeroOrMore ∉ splitSegments pattern ∧
    ¬ endsWithByte pattern patternSeparator

instance (pattern : GoString) : Decidable (isLiteralPattern pattern) :=
  inferInstanceAs (Decidable (_ ∧ _ ∧ _))

/-! ## Concrete inputs used to instantiate the theorems -/

/-- Structural equality on natural-number header values. -/
def natDeepEqual (a b : Nat) : Bool := decide (a = b)

/-- A consumer group created at instant 10 with the given bindings. -/
def groupWith (bindings : List (ClusterConsumerGroup_Binding Nat)) : ClusterConsumerGroup Nat :=
  { Name := "g".toList, Bindings := bindings, Size_ := 1, OffsetCommits := [], CreatedAt := 10 }

/-- A message with routing key `a.b` and headers `x = 1`. -/
def sampleMessage : Message Nat :=
  { RoutingKey := "a.b".toList, Headers := some { Fields := some [("x".toList, 1)] } }

/-- A topic named `t` of the given type. -/
def topicT (ty : TopicType) : ClusterTopic := { Name := "t".toList, Type_ := ty }

/-- A message with routing key `a.b` and the given header map. -/
def messageWithHeaders (fields : List (GoString × Nat)) : Message Nat :=
  { RoutingKey := "a.b".toList, Headers := some { Fields := some fields } }

/-- The binding HeadersAll `{x:1, y:2}` on topic `t`. -/
def headersAllXY : ClusterConsumerGroup_Binding Nat :=
  { TopicName := "t".toList,
    By := BindingBy.HeadersAll { Fields := some [("x".toList, 1), ("y".toList, 2)] } }

/-! ## Cluster state (`mq/cluster_state_store.go`, `mq/cluster_state_do_consumer_groups.go`)

Snapshots are values, so a snapshot captured before an operation is unaffected by it.
A slice rebuilt with `make` and `copy` is the corresponding list expression. Unsigned
64-bit arithmetic is written with an explicit `% 2 ^ 64`. The state store is modelled
without a concurrent writer: the compare-and-swap of `Do` and `NextSegmentID` succeeds
on the first iteration of their loops. Fields omitted in a Go struct literal have
their zero value, which is the default value of the field here. -/

/-- Go `t.IsZero()`: `t` is the zero instant. -/
def Time.IsZero (t : Time) : Bool := decide (t = 0)

/-- Go `ClusterNamespace`. -/
structure ClusterNamespace (V : Type) where
  Name : GoString := []
  Topics : List ClusterTopic := []
  ConsumerGroups : List (ClusterConsumerGroup V) := []

/-- Go `client.NamespaceName`: a namespace-qualified name. -/
structure NamespaceName where
  Namespace : GoString := []
  Name : GoString := []
  deriving DecidableEq, Repr

/-- Go `ClusterNode_State`. -/
inductive ClusterNode_State where
  | ALIVE
  | DEAD
  deriving DecidableEq, Repr

/-- Go `ClusterNode`. -/
structure ClusterNode where
  ID : Nat
  Address : GoString := []
  State : ClusterNode_State
  deriving DecidableEq, Repr

/-- Go `ClusterSegment_Nodes` (the field read by the sources). -/
structure ClusterSegment_Nodes where
  PrimaryNodeID : Nat := 0
  deriving DecidableEq, Repr

/-- Go `ClusterSegment` (the fields read by the sources); `FirstMessageID` and `Sha1` are
byte strings. -/
structure ClusterSegment where
  ID : Nat := 0
  Topic : NamespaceName := {}
  FirstMessageID : List Nat := []
  Nodes : ClusterSegment_Nodes := {}
  OpenedAt : Time := 0
  ClosedAt : Time := 0
  Size_ : Int := 0
  Sha1 : List Nat := []
  deriving DecidableEq, Repr

/-- Go `ClusterState` (the fields the sources touch): committed log index, segment-id
counter, namespaces, open and closed segments, nodes. -/
structure ClusterState (V : Type) where
  Index : Nat := 0
  CurrentSegmentID : Nat := 0
  Namespaces : List (ClusterNamespace V) := []
  OpenSegments : List ClusterSegment := []
  ClosedSegments : List ClusterSegment := []
  Nodes : List ClusterNode := []

/-- Go `ClusterCommandConsumerGroupCreate`. -/
structure ClusterCommandConsumerGroupCreate (V : Type) where
  Namespace : GoString
  ConsumerGroup : ClusterConsumerGroup V

/-- Go `ClusterCommandConsumerGroupDelete`. -/
structure ClusterCommandConsumerGroupDelete where
  Namespace : GoString
  Name : GoString

/-- Go `ClusterCommandConsumerGroupOffsetCommitsUpdate`. -/
structure ClusterCommandConsumerGroupOffsetCommitsUpdate where
  Namespace : GoString
  Name : GoString
  OffsetCommits : List ClusterConsumerGroup_OffsetCommit

/-- First element of a list satisfying `p`, with its index; `none` when there is none
(Go: a `nil` result with index `-1`). -/
def findFirst {α : Type} (p : α → Bool) : List α → Option (α × Nat)
  | [] => none
  | a :: l => if p a then some (a, 0) else (findFirst p l).map (fun r => (r.1, r.2 + 1))

/-- Modelled from the spec: `ClusterState.FindNamespace`, whose body is not among the
sources. By its uses (`namespace, namespaceIndex := s.FindNamespace(name)`, the result
tested against `nil`) and the data model (a namespace is identified by its name), it
returns the namespace called `name` and its index in `s.Namespaces`, scanning from the
front, or `(nil, -1)`, here `none`. -/
def ClusterState.FindNamespace {V : Type} (s : ClusterState V) (name : GoString) :
    Option (ClusterNamespace V × Nat) :=
  findFirst (fun n => decide (n.Name = name)) s.Namespaces

/-- Modelled from the spec: `ClusterNamespace.findConsumerGroup`, whose body is not among
the sources. By its uses (`consumerGroup, consumerGroupIndex := n.findConsumerGroup(name)`,
tested against `nil` and `-1`) it returns the consumer group called `name` and its index
in `n.ConsumerGroups`, scanning from the front, or `(nil, -1)`, here `none`. -/
def ClusterNamespace.findConsumerGroup {V : Type} (n : ClusterNamespace V) (name : GoString) :
    Option (ClusterConsumerGroup V × Nat) :=
  findFirst (fun g => decide (g.Name = name)) n.ConsumerGroups

/-- Modelled from the spec: `ClusterNamespace.isEmpty`, whose body is not among the
sources. A namespace is empty when it has no child: no topic and no consumer group. -/
def ClusterNamespace.isEmpty {V : Type} (n : ClusterNamespace V) : Bool :=
  n.Topics.isEmpty && n.ConsumerGroups.isEmpty

/-- The order used by `sort.Slice` in `doUpdateOffsetCommits`: by `SegmentID`. -/
def offsetCommitLE (a b : ClusterConsumerGroup_OffsetCommit) : Prop := a.SegmentID ≤ b.SegmentID

instance : DecidableRel offsetCommitLE := fun a b =>
  inferInstanceAs (Decidable (a.SegmentID ≤ b.SegmentID))

/-- Go `sort.Slice(commits, func(i, j) bool { return commits[i].SegmentID <
commits[j].SegmentID })`. The library sort is not stable; the model is insertion sort, and
the properties proved about it (sorted, a permutation of the input) are those that every
sort has. -/
def sortOffsetCommits (commits : List ClusterConsumerGroup_OffsetCommit) :
    List ClusterConsumerGroup_OffsetCommit :=
  commits.insertionSort offsetCommitLE

/-- The tail of `doCreateConsumerGroup`: the assignments to `nextConsumerGroup`. -/
def ClusterConsumerGroup.assignFrom {V : Type} (nextConsumerGroup : ClusterConsumerGroup V)
    (cmd : ClusterCommandConsumerGroupCreate V) : ClusterConsumerGroup V :=
  { nextConsumerGroup with
    Bindings := cmd.ConsumerGroup.Bindings
    Size_ := cmd.ConsumerGroup.Size_
    CreatedAt :=
      if nextConsumerGroup.CreatedAt.IsZero then cmd.ConsumerGroup.CreatedAt
      else nextConsumerGroup.CreatedAt }

/-- Go `&ClusterConsumerGroup{Name: name}`. -/
def ClusterConsumerGroup.named {V : Type} (name : GoString) : ClusterConsumerGroup V :=
  { Name := name, Bindings := [], Size_ := 0, OffsetCommits := [], CreatedAt := 0 }

/-- Go `ClusterState.doCreateConsumerGroup`. -/
def ClusterState.doCreateConsumerGroup {V : Type} (s : ClusterState V)
    (cmd : ClusterCommandConsumerGroupCreate V) : ClusterState V :=
  match s.FindNamespace cmd.Namespace with
  | none =>
    let nextConsumerGroup : ClusterConsumerGroup V :=
      ClusterConsumerGroup.named cmd.ConsumerGroup.Name
    let nextNamespace : ClusterNamespace V :=
      { Name := cmd.Namespace, ConsumerGroups := [nextConsumerGroup.assignFrom cmd] }
    { s with Namespaces := s.Namespaces ++ [nextNamespace] }
  | some (namespace_, namespaceIndex) =>
    match namespace_.findConsumerGroup cmd.ConsumerGroup.Name with
    | none =>
      let nextConsumerGroup : ClusterConsumerGroup V :=
        ClusterConsumerGroup.named cmd.ConsumerGroup.Name
      let nextNamespace : ClusterNamespace V :=
        { namespace_ with
          ConsumerGroups := namespace_.ConsumerGroups ++ [nextConsumerGroup.assignFrom cmd] }
      { s with
        Namespaces :=
          s.Namespaces.take namespaceIndex ++
            nextNamespace :: s.Namespaces.drop (namespaceIndex + 1) }
    | some (consumerGroup, consumerGroupIndex) =>
      let nextNamespace : ClusterNamespace V :=
        { namespace_ with
          ConsumerGroups :=
            namespace_.ConsumerGroups.take consumerGroupIndex ++
              consumerGroup.assignFrom cmd ::
                namespace_.ConsumerGroups.drop (consumerGroupIndex + 1) }
      { s with
        Namespaces :=
          s.Namespaces.take namespaceIndex ++
            nextNamespace :: s.Namespaces.drop (namespaceIndex + 1) }

/-- Go `ClusterState.doDeleteConsumerGroup`. -/
def ClusterState.doDeleteConsumerGroup {V : Type} (s : ClusterState V)
    (cmd : ClusterCommandConsumerGroupDelete) : ClusterState V :=
  match s.FindNamespace cmd.Namespace with
  | none => s
  | some (namespace_, namespaceIndex) =>
    match namespace_.findConsumerGroup cmd.Name with
    | none => s
    | some (_, consumerGroupIndex) =>
      let nextNamespace : ClusterNamespace V :=
        { namespace_ with
          ConsumerGroups :=
            namespace_.ConsumerGroups.take consumerGroupIndex ++
              namespace_.ConsumerGroups.drop (consumerGroupIndex + 1) }
      if nextNamespace.isEmpty then
        { s with
          Namespaces :=
            s.Namespaces.take namespaceIndex ++ s.Namespaces.drop (namespaceIndex + 1) }
      else
        { s with Namespaces := s.Namespaces.set namespaceIndex nextNamespace }

/-- Go `ClusterState.doUpdateOffsetCommits`. -/
def ClusterState.doUpdateOffsetCommits {V : Type} (s : ClusterState V)
    (cmd : ClusterCommandConsumerGroupOffsetCommitsUpdate) : ClusterState V :=
  match s.FindNamespace cmd.Namespace with
  | none => s
  | some (namespace_, namespaceIndex) =>
    match namespace_.findConsumerGroup cmd.Name with
    | none => s
    | some (consumerGroup, consumerGroupIndex) =>
      let nextConsumerGroup : ClusterConsumerGroup V :=
        { consumerGroup with OffsetCommits := sortOffsetCommits cmd.OffsetCommits }
      let nextNamespace : ClusterNamespace V :=
        { namespace_ with
          ConsumerGroups := namespace_.ConsumerGroups.set consumerGroupIndex nextConsumerGroup }
      { s with Namespaces := s.Namespaces.set namespaceIndex nextNamespace }

/-- Go `ClusterCommand` (its oneof `Command`). `other` stands for the nine kinds whose
transition functions are not among the sources (namespace, topic, segment and node
commands); `unhandled` for a command of no known kind. -/
inductive ClusterCommand (V Other : Type) where
  | CreateConsumerGroup (cmd : ClusterCommandConsumerGroupCreate V)
  | DeleteConsumerGroup (cmd : ClusterCommandConsumerGroupDelete)
  | UpdateConsumerGroupOffsetCommits (cmd : ClusterCommandConsumerGroupOffsetCommitsUpdate)
  | other (cmd : Other)
  | unhandled

/-- The command is one of the three consumer-group commands. -/
def ClusterCommand.isConsumerGroupCommand {V Other : Type} : ClusterCommand V Other → Bool
  | .CreateConsumerGroup _ => true
  | .DeleteConsumerGroup _ => true
  | .UpdateConsumerGroupOffsetCommits _ => true
  | _ => false

/-- Go `ClusterStateStore`: the pointer to the current snapshot. -/
structure ClusterStateStore (V : Type) where
  ptr : ClusterState V

/-- Go `NewClusterStateStore()`. -/
def NewClusterStateStore {V : Type} : ClusterStateStore V := { ptr := {} }

/-- Go `ClusterStateStore.Current`. -/
def ClusterStateStore.Current {V : Type} (s : ClusterStateStore V) : ClusterState V := s.ptr

/-- Go `ClusterStateStore.NextSegmentID`: the store afterwards and the id returned. -/
def ClusterStateStore.NextSegmentID {V : Type} (s : ClusterStateStore V) :
    ClusterStateStore V × Nat :=
  let state := s.ptr
  let next : ClusterState V :=
    { state with CurrentSegmentID := (state.CurrentSegmentID + 1) % 2 ^ 64 }
  ({ ptr := next }, next.CurrentSegmentID)

/-- Go `ClusterStateStore.Do(index, cmd)`; `cmd = none` is a nil command, the result `none`
is the panic on an unhandled command. `doOther` stands for the transition functions that
are not among the sources. The test `next == state` only decides whether the snapshot is
copied before `Index` is written. -/
def ClusterStateStore.Do {V Other : Type} (doOther : ClusterState V → Other → ClusterState V)
    (s : ClusterStateStore V) (index : Nat) (cmd : Option (ClusterCommand V Other)) :
    Option (ClusterStateStore V) :=
  let state := s.ptr
  let next : Option (ClusterState V) :=
    match cmd with
    | none => some state
    | some (.CreateConsumerGroup c) => some (state.doCreateConsumerGroup c)
    | some (.DeleteConsumerGroup c) => some (state.doDeleteConsumerGroup c)
    | some (.UpdateConsumerGroupOffsetCommits c) => some (state.doUpdateOffsetCommits c)
    | some (.other c) => some (doOther state c)
    | some .unhandled => none
  next.map fun next => { ptr := { next with Index := index } }

/-- A sequence of `Do(index, cmd)` calls, in order; `none` if one of them panics. -/
def ClusterStateStore.DoAll {V Other : Type} (doOther : ClusterState V → Other → ClusterState V) :
    ClusterStateStore V → List (Nat × Option (ClusterCommand V Other)) →
      Option (ClusterStateStore V)
  | s, [] => some s
  | s, (index, cmd) :: calls =>
    match s.Do doOther index cmd with
    | none => none
    | some s' => ClusterStateStore.DoAll doOther s' calls

/-- An operation on the store: a `NextSegmentID` call or a `Do(index, cmd)` call. -/
inductive StoreOp (V Other : Type) where
  | NextSegmentID
  | Do (index : Nat) (cmd : Option (ClusterCommand V Other))

/-- A sequence of store operations, in order: the store afterwards and the ids returned by
the `NextSegmentID` calls, in call order; `none` if a `Do` panics. -/
def ClusterStateStore.run {V Other : Type} (doOther : ClusterState V → Other → ClusterState V) :
    ClusterStateStore V → List (StoreOp V Other) → Option (ClusterStateStore V × List Nat)
  | s, [] => some (s, [])
  | s, .NextSegmentID :: ops =>
    match ClusterStateStore.run doOther s.NextSegmentID.1 ops with
    | none => none
    | some (s', ids) => some (s', s.NextSegmentID.2 :: ids)
  | s, .Do index cmd :: ops =>
    match s.Do doOther index cmd with
    | none => none
    | some s' => ClusterStateStore.run doOther s' ops

/-- The command is nil or one of the three consumer-group commands. -/
def isNilOrConsumerGroupCommand {V Other : Type} : Option (ClusterCommand V Other) → Bool
  | none => true
  | some c => c.isConsumerGroupCommand

/-- The operation is a `NextSegmentID` call or a `Do` with a nil or consumer-group command. -/
def StoreOp.isNextOrConsumerGroup {V Other : Type} : StoreOp V Other → Bool
  | .NextSegmentID => true
  | .Do _ cmd => isNilOrConsumerGroupCommand cmd

/-- Number of `NextSegmentID` calls in a sequence of store operations. -/
def StoreOp.countNext {V Other : Type} : List (StoreOp V Other) → Nat
  | [] => 0
  | .NextSegmentID :: ops => StoreOp.countNext ops + 1
  | .Do _ _ :: ops => StoreOp.countNext ops

/-- A store holding a snapshot whose segment-id counter is `n`. -/
def storeWithCounter (n : Nat) : ClusterStateStore Nat := { ptr := { CurrentSegmentID := n } }

/-- A transition for the commands outside the consumer-group family, used in examples. -/
def keepState (s : ClusterState Nat) (_ : Unit) : ClusterState Nat := s

/-- Invariant: every namespace in the state has at least one topic or consumer group. -/
def namespacesNonEmpty {V : Type} (s : ClusterState V) : Prop :=
  ∀ n ∈ s.Namespaces, n.isEmpty = false

/-- Invariant: every consumer group's OffsetCommits is sorted by segment id. -/
def offsetCommitsSorted {V : Type} (s : ClusterState V) : Prop :=
  ∀ n ∈ s.Namespaces, ∀ g ∈ n.ConsumerGroups, g.OffsetCommits.Sorted offsetCommitLE

/-- A create command for the group `name` in the namespace `namespaceName`, of size 3,
without bindings. -/
def createCommand (namespaceName name : GoString) : ClusterCommandConsumerGroupCreate Nat :=
  { Namespace := namespaceName,
    ConsumerGroup :=
      { Name := name, Bindings := [], Size_ := 3, OffsetCommits := [], CreatedAt := 10 } }

/-- The state holding the single namespace `n` with the single consumer group `g`. -/
def stateNG : ClusterState Nat :=
  ({} : ClusterState Nat).doCreateConsumerGroup (createCommand "n".toList "g".toList)

instance : IsTotal ClusterConsumerGroup_OffsetCommit offsetCommitLE :=
  ⟨fun a b => Nat.le_total a.SegmentID b.SegmentID⟩

instance : IsTrans ClusterConsumerGroup_OffsetCommit offsetCommitLE :=
  ⟨fun _ _ _ hab hbc => Nat.le_trans hab hbc⟩

/-- An offset-commits update command for the group `g` of namespace `n`. -/
def updateCommand (commits : List ClusterConsumerGroup_OffsetCommit) :
    ClusterCommandConsumerGroupOffsetCommitsUpdate :=
  { Namespace := "n".toList, Name := "g".toList, OffsetCommits := commits }

/-! ## AMQP 0-9-1 `basic.nack` (`mq/server_amqp_v0_basic_nack.go`)

The runtime calls `s.Nack` and `s.Ack` are effects outside the handler. Their outcome is
given by an oracle `runtime k call`: the error returned by the `k`-th call (counting from
0) made by the handler, `none` for success. The handler's outcome records the error it
returns, the channel afterwards and the calls it dispatched, in order. -/

/-- An entry of `serverAMQPv0Channel.inflight`. -/
structure serverAMQPv0ChannelInflight where
  deliveryTag : Nat := 0
  nodeID : Nat := 0
  subscriptionID : Nat := 0
  seqNo : Nat := 0
  deriving DecidableEq, Repr

/-- Go `serverAMQPv0Channel`. -/
structure serverAMQPv0Channel where
  id : Nat := 0
  state : Int := 0
  inflight : List serverAMQPv0ChannelInflight := []
  deriving DecidableEq, Repr

/-- Go `v0.BasicNack` (the fields the handler reads). -/
structure BasicNack where
  DeliveryTag : Nat := 0
  Multiple : Bool := false
  Requeue : Bool := false
  deriving DecidableEq, Repr

/-- A call dispatched to the consumer-group runtime: `s.Nack(ctx, &emq.NackRequest{...})` or
`s.Ack(ctx, &emq.AckRequest{...})`. -/
inductive RuntimeCall where
  | Nack (NodeID SubscriptionID SeqNo : Nat)
  | Ack (NodeID SubscriptionID SeqNo : Nat)
  deriving DecidableEq, Repr

/-- Go `v0.ChannelClose` (`FrameMeta.Channel`, `ReplyCode`, `ReplyText`). -/
structure ChannelClose where
  Channel : Nat
  ReplyCode : Nat
  ReplyText : GoString
  deriving DecidableEq, Repr

/-- Modelled from the spec: the reply-code constant `v0.PreconditionFailed`, whose
declaration is not among the sources; section 6 of the spec gives PreconditionFailed=406. -/
def PreconditionFailed : Nat := 406

/-- The non-nil errors the handler returns: a `*v0.ChannelClose`, or a runtime error wrapped
by `errors.Wrap(err, message)`. -/
inductive HandlerError (E : Type) where
  | channelClose (frame : ChannelClose)
  | wrap (cause : E) (message : GoString)

/-- Go `Server.makeChannelClose(ch, code, err)`; `text` is `err.Error()`. -/
def makeChannelClose (ch : serverAMQPv0Channel) (code : Nat) (text : GoString) : ChannelClose :=
  { Channel := ch.id, ReplyCode := code, ReplyText := text }

/-- Go `errors.Errorf("delivery tag %d doesn't exist", tag).Error()`. -/
def deliveryTagDoesntExist (tag : Nat) : GoString :=
  "delivery tag ".toList ++ (Nat.repr tag).toList ++ " doesn't exist".toList

/-- The runtime call the handler makes for an inflight entry: a nack when `frame.Requeue`,
an ack otherwise. -/
def runtimeCallFor (frame : BasicNack) (entry : serverAMQPv0ChannelInflight) : RuntimeCall :=
  if frame.Requeue then RuntimeCall.Nack entry.nodeID entry.subscriptionID entry.seqNo
  else RuntimeCall.Ack entry.nodeID entry.subscriptionID entry.seqNo

/-- The message with which a failed runtime call is wrapped. -/
def wrapMessage (frame : BasicNack) : GoString :=
  if frame.Requeue then "nack failed".toList else "ack failed".toList

/-- What one call of the handler does: the error returned (`none` is `nil`), the channel
afterwards and the runtime calls dispatched, in order. -/
structure NackOutcome (E : Type) where
  result : Option (HandlerError E)
  ch : serverAMQPv0Channel
  calls : List RuntimeCall

/-- The `for` loop of the `multiple` branch, started at index `i` on `ch.inflight[i:]`
(`n` is incremented together with `i`, so `n = i`): the calls dispatched and either the
error returned from inside the loop or the value of `i` when the loop ends. -/
def basicNackLoop {E : Type} (runtime : Nat → RuntimeCall → Option E) (frame : BasicNack) :
    Nat → List serverAMQPv0ChannelInflight → List RuntimeCall × Except (HandlerError E) Nat
  | i, [] => ([], .ok i)
  | i, entry :: rest =>
    if entry.deliveryTag ≤ frame.DeliveryTag then
      match runtime i (runtimeCallFor frame entry) with
      | some err => ([runtimeCallFor frame entry], .error (.wrap err (wrapMessage frame)))
      | none =>
        let r := basicNackLoop runtime frame (i + 1) rest
        (runtimeCallFor frame entry :: r.1, r.2)
    else ([], .ok i)

/-- Go `Server.handleAMQPv0BasicNack`. -/
def handleAMQPv0BasicNack {E : Type} (runtime : Nat → RuntimeCall → Option E)
    (ch : serverAMQPv0Channel) (frame : BasicNack) : NackOutcome E :=
  if frame.Multiple then
    match basicNackLoop runtime frame 0 ch.inflight with
    | (calls, .error err) => { result := some err, ch := ch, calls := calls }
    | (calls, .ok i) =>
      if i = 0 then
        { result := some (.channelClose (makeChannelClose ch PreconditionFailed
            (deliveryTagDoesntExist frame.DeliveryTag))),
          ch := ch, calls := calls }
      else
        { result := none, ch := { ch with inflight := ch.inflight.drop i }, calls := calls }
  else
    match findFirst (fun entry => decide (entry.deliveryTag = frame.DeliveryTag)) ch.inflight with
    | none =>
      { result := some (.channelClose (makeChannelClose ch PreconditionFailed
          (deliveryTagDoesntExist frame.DeliveryTag))),
        ch := ch, calls := [] }
    | some (entry, i) =>
      match runtime 0 (runtimeCallFor frame entry) with
      | some err =>
        { result := some (.wrap err (wrapMessage frame)), ch := ch,
          calls := [runtimeCallFor frame entry] }
      | none =>
        { result := none,
          ch := { ch with inflight := ch.inflight.take i ++ ch.inflight.drop (i + 1) },
          calls := [runtimeCallFor frame entry] }

/-- A runtime whose calls all succeed. -/
def runtimeOk : Nat → RuntimeCall → Option Unit := fun _ _ => none

/-- A channel with id 1 whose inflight entries have the given delivery tags (and the tag
as sequence number). -/
def channelWithTags (tags : List Nat) : serverAMQPv0Channel :=
  { id := 1, inflight := tags.map fun t => { deliveryTag := t, seqNo := t } }

/-! ## The leader guard of the leader-only operations

`CreateConsumerGroup`, `DeleteConsumerGroup`, `DeleteNamespace`, `ListTopics`,
`OpenSegment` and `SegmentRotate` all begin with the same block
(`if s.raftNode.State() != raft.Leader { ... }`), which is modelled once. The raft node
and the connection pool are outside the function: `RaftNode` holds what
`s.raftNode.State()` and `s.raftNode.Leader()` answer, `dial` the error of
`s.pool.Get(ctx, leader)`, `none` for success. -/

/-- What the server reads from `s.raftNode`: whether its state is `raft.Leader` and the
address `Leader()` returns (empty when no leader is known). -/
structure RaftNode where
  isLeader : Bool
  leader : GoString

/-- The errors returned by the guard: `errNotALeader`, `errNoLeaderElected`, and
`errors.Wrap(err, couldNotDialLeaderError)`. -/
inductive LeaderGuardError (E : Type) where
  | errNotALeader
  | errNoLeaderElected
  | couldNotDialLeader (cause : E)

/-- How the guard block ends: the node is leader and runs the operation itself
(`proceed`), the block returns an error (`fail`), or it forwards the request to `leader`,
`leaderOnly` being the value of `request.LeaderOnly` in the forwarded request. -/
inductive LeaderGuard (E : Type) where
  | proceed
  | fail (err : LeaderGuardError E)
  | forward (leader : GoString) (leaderOnly : Bool)

/-- The guard block at the head of every leader-only operation; `leaderOnly` is
`request.LeaderOnly` as received. -/
def leaderGuard {E : Type} (raftNode : RaftNode) (dial : GoString → Option E)
    (leaderOnly : Bool) : LeaderGuard E :=
  if !raftNode.isLeader then
    if leaderOnly then
      .fail .errNotALeader
    else if raftNode.leader = [] then
      .fail .errNoLeaderElected
    else
      match dial raftNode.leader with
      | some err => .fail (.couldNotDialLeader err)
      | none => .forward raftNode.leader true
  else
    .proceed

/-- Where a request ends: served by the node at `address` (which is leader), or failed
with an error; `outOfFuel` when the bound on the number of hops is used up. -/
inductive LeaderOnlyResult (E : Type) where
  | servedAt (address : GoString)
  | failed (err : LeaderGuardError E)
  | outOfFuel

/-- A leader-only request sent to the node at `address` of a cluster in which every node
runs the guard: the addresses the request is forwarded to, in order, and where it ends.
`cluster address` is the raft view of the node at `address`, `dial from to` the pool of
node `from`; `fuel` bounds the number of nodes visited. -/
def serveLeaderOnly {E : Type} (cluster : GoString → RaftNode)
    (dial : GoString → GoString → Option E) :
    Nat → GoString → Bool → List GoString × LeaderOnlyResult E
  | 0, _, _ => ([], .outOfFuel)
  | fuel + 1, address, leaderOnly =>
    match leaderGuard (cluster address) (dial address) leaderOnly with
    | .proceed => ([], .servedAt address)
    | .fail err => ([], .failed err)
    | .forward leader leaderOnly' =>
      let r := serveLeaderOnly cluster dial fuel leader leaderOnly'
      (leader :: r.1, r.2)

/-- A cluster of two followers `a` and `b`, each believing the other to be leader. -/
def twoFollowers (address : GoString) : RaftNode :=
  if address = "a".toList then { isLeader := false, leader := "b".toList }
  else { isLeader := false, leader := "a".toList }

/-- A connection pool whose dials all succeed. -/
def dialOk (_ _ : GoString) : Option Unit := none

/-! ## Primary-node selection in `CreateConsumerGroup` (`mq/server_create_consumer_group.go`)

The block after the barrier reads `state.FindOpenSegmentsFor(...)` and
`state.CountSegmentsPerNode()`, whose bodies are not among the sources; their results are
parameters: the list `openSegments` and the map `nodeSegmentCounts` (a Go map read at a
missing key gives 0, so the map is a total function). -/

/-- Go `math.MaxInt32`. -/
def MaxInt32 : Int := 2147483647

/-- The loop `for _, node := range state.Nodes` choosing the primary: the pair
`(primaryNodeID, primarySegmentCount)` after the nodes given, from the pair before. -/
def selectPrimaryLoop (nodeSegmentCounts : Nat → Int) :
    List ClusterNode → Nat × Int → Nat × Int
  | [], acc => acc
  | node :: nodes, (primaryNodeID, primarySegmentCount) =>
    if node.State = ClusterNode_State.ALIVE ∧ nodeSegmentCounts node.ID < primarySegmentCount then
      selectPrimaryLoop nodeSegmentCounts nodes (node.ID, nodeSegmentCounts node.ID)
    else
      selectPrimaryLoop nodeSegmentCounts nodes (primaryNodeID, primarySegmentCount)

/-- What the block does about the group's offset-commit segment: nothing, a call
`s.txSegmentOpen(state, primaryNodeID, ...)`, or the panic on more than one open segment. -/
inductive OffsetSegmentStep where
  | nothing
  | txSegmentOpen (primaryNodeID : Nat)
  | panic
  deriving DecidableEq, Repr

/-- The block of `CreateConsumerGroup` from `if len(openSegments) == 0` on. -/
def offsetSegmentStep (openSegments : List ClusterSegment) (nodeSegmentCounts : Nat → Int)
    (nodes : List ClusterNode) : OffsetSegmentStep :=
  if openSegments.length = 0 then
    let primaryNodeID := (selectPrimaryLoop nodeSegmentCounts nodes (0, MaxInt32)).1
    if primaryNodeID > 0 then .txSegmentOpen primaryNodeID else .nothing
  else if openSegments.length > 1 then
    .panic
  else
    .nothing

/-- Segment counts used in examples: no node has a segment. -/
def noSegments (_ : Nat) : Int := 0

/-! ## Opening a segment (`mq/server_open_segment.go`)

`Server.doOpenSegment` reads the snapshot `state` it is given and the server fields
`s.clusterState` (the store), `s.rng` and `s.raftNode`. The pseudo-random generator, the
protobuf encoder and the raft log are parameters: `intn n` is the value `s.rng.Intn(n)`
returns, `marshal cmd` and `apply cmd` are the errors of `proto.Marshal` and of
`s.raftNode.Apply(buf, 0).Error()` (`none` is a nil error). `len(openSegments)` is an
`int`; its conversion to `uint32` is written with an explicit `% 2 ^ 32`. -/

/-- Modelled from the spec: `ClusterState.GetTopic(namespace, name)`, whose body is not
among the sources. By its uses (`topic := state.GetTopic(...)`, the result tested against
`nil`) and the data model (a topic is identified by its namespace and its name), it
returns the topic called `name` of the namespace called `namespaceName`, or `nil`, here
`none`. -/
def ClusterState.GetTopic {V : Type} (s : ClusterState V) (namespaceName name : GoString) :
    Option ClusterTopic :=
  match s.FindNamespace namespaceName with
  | none => none
  | some (n, _) => (findFirst (fun t => decide (t.Name = name)) n.Topics).map Prod.fst

/-- Modelled from the spec: `ClusterState.FindOpenSegmentsFor(namespace, name)`, whose
body is not among the sources. It returns the open segments owned by the topic
`(namespaceName, name)`, in the order of `s.OpenSegments`. -/
def ClusterState.FindOpenSegmentsFor {V : Type} (s : ClusterState V)
    (namespaceName name : GoString) : List ClusterSegment :=
  s.OpenSegments.filter fun segment =>
    decide (segment.Topic.Namespace = namespaceName ∧ segment.Topic.Name = name)

/-- Go `OpenSegmentCommand`. -/
structure OpenSegmentCommand where
  ID : Nat
  Topic : NamespaceName
  FirstMessageID : List Nat
  PrimaryNodeID : Nat
  deriving DecidableEq, Repr

/-- Go `OpenSegmentResponse`. -/
structure OpenSegmentResponse where
  SegmentID : Nat
  PrimaryNodeID : Nat
  deriving DecidableEq, Repr

/-- What `doOpenSegment` returns: a response with a nil error; the not-found error for the
topic; an error of the encoder or of the raft log; `panic` is the run-time panic of an
index out of range. -/
inductive OpenSegmentResult (E : Type) where
  | ok (response : OpenSegmentResponse)
  | notFound (topicName : NamespaceName)
  | failed (err : E)
  | panic
  deriving DecidableEq, Repr

/-- The effects of one `doOpenSegment` call: what it returns, the store `s.clusterState`
afterwards, and the commands handed to `s.raftNode.Apply`, in order. -/
structure OpenSegmentOutcome (V E : Type) where
  result : OpenSegmentResult E
  clusterState : ClusterStateStore V
  applyCalls : List OpenSegmentCommand

/-- Go `Server.doOpenSegment(state, nodeID, topicName, firstMessageID)`. -/
def Server.doOpenSegment {V E : Type} (clusterState : ClusterStateStore V) (intn : Nat → Nat)
    (marshal apply : OpenSegmentCommand → Option E) (state : ClusterState V) (nodeID : Nat)
    (topicName : NamespaceName) (firstMessageID : List Nat) : OpenSegmentOutcome V E :=
  match state.GetTopic topicName.Namespace topicName.Name with
  | none => { result := .notFound topicName, clusterState := clusterState, applyCalls := [] }
  | some topic =>
    let openSegments := state.FindOpenSegmentsFor topicName.Namespace topicName.Name
    match openSegments.find? (fun segment => decide (segment.Nodes.PrimaryNodeID = nodeID)) with
    | some segment =>
      { result := .ok { SegmentID := segment.ID, PrimaryNodeID := nodeID },
        clusterState := clusterState, applyCalls := [] }
    | none =>
      if topic.Shards > 0 ∧ openSegments.length % 2 ^ 32 ≥ topic.Shards then
        match openSegments[intn openSegments.length]? with
        | none => { result := .panic, clusterState := clusterState, applyCalls := [] }
        | some segment =>
          { result := .ok { SegmentID := segment.ID,
                            PrimaryNodeID := segment.Nodes.PrimaryNodeID },
            clusterState := clusterState, applyCalls := [] }
      else
        let next := clusterState.NextSegmentID
        let cmd : OpenSegmentCommand :=
          { ID := next.2, Topic := topicName, FirstMessageID := firstMessageID,
            PrimaryNodeID := nodeID }
        match marshal cmd with
        | some err => { result := .failed err, clusterState := next.1, applyCalls := [] }
        | none =>
          match apply cmd with
          | some err => { result := .failed err, clusterState := next.1, applyCalls := [cmd] }
          | none =>
            { result := .ok { SegmentID := next.2, PrimaryNodeID := nodeID },
              clusterState := next.1, applyCalls := [cmd] }

/-- Modelled from the spec: the transition function of the open-segment command
(`state.doOpenSegment` in `ClusterStateStore.Do`), whose body is not among the sources.
Creation appends: the new open segment, with the command's id, owner, first message id
and primary node, is added at the end of `OpenSegments`. -/
def ClusterState.doOpenSegment {V : Type} (s : ClusterState V) (cmd : OpenSegmentCommand) :
    ClusterState V :=
  { s with
    OpenSegments := s.OpenSegments ++
      [{ ID := cmd.ID, Topic := cmd.Topic, FirstMessageID := cmd.FirstMessageID,
         Nodes := { PrimaryNodeID := cmd.PrimaryNodeID } }] }

/-- The primary nodes of the open segments of a topic, in order. -/
def ClusterState.openPrimaries {V : Type} (s : ClusterState V) (topicName : NamespaceName) :
    List Nat :=
  (s.FindOpenSegmentsFor topicName.Namespace topicName.Name).map
    fun segment => segment.Nodes.PrimaryNodeID

/-- The two bounds on the open segments of every topic: no two of them have the same
primary node, and a topic with a non-zero shard count has at most that many. -/
def segmentBounds {V : Type} (s : ClusterState V) : Prop :=
  ∀ topicName : NamespaceName,
    (s.openPrimaries topicName).Nodup ∧
    ∀ topic, s.GetTopic topicName.Namespace topicName.Name = some topic → topic.Shards ≠ 0 →
      (s.FindOpenSegmentsFor topicName.Namespace topicName.Name).length ≤ topic.Shards

/-- The name `n/t`. -/
def topicNT : NamespaceName := { Namespace := "n".toList, Name := "t".toList }

/-- An open segment of the topic `n/t`. -/
def segmentNT (id primary : Nat) : ClusterSegment :=
  { ID := id, Topic := topicNT, Nodes := { PrimaryNodeID := primary } }

/-- A state whose only topic is `n/t`, with the given shard count and open segments. -/
def stateNT (shards : Nat) (openSegments : List ClusterSegment) : ClusterState Nat :=
  { Namespaces := [{ Name := "n".toList,
                     Topics := [{ Name := "t".toList, Type_ := .DIRECT, Shards := shards }] }],
    OpenSegments := openSegments }

/-- An encoder and a raft log that never fail. -/
def noError (_ : OpenSegmentCommand) : Option Unit := none

/-- A generator that always returns `0`. -/
def intnZero (_ : Nat) : Nat := 0

/-! ## Rotating a segment (`mq/server_segment_rotate.go`)

`Server.SegmentRotate` on the leader, after the guard of lines 12-29 (`leaderGuard`).
The clock, the transaction lock and the raft log are parameters: `now` is the value of
`time.Now()`, `beginTransaction` and `barrier` are the errors of `s.beginTransaction()` and
of `s.raftNode.Barrier(...).Error()`, and `apply store cmd` is either the error of
`s.Apply(cmd)` or the store `s.clusterState` once the command has been applied. The open
step `s.txOpenSegment` is not among the sources and is a parameter; it receives the store
and the arguments of the call. -/

/-- Go `SegmentRotateRequest`. -/
structure SegmentRotateRequest where
  NodeID : Nat
  OldSegmentID : Nat
  OldSize : Int := 0
  OldSha1 : List Nat := []
  LeaderOnly : Bool := false
  deriving DecidableEq, Repr

/-- Go `CloseSegmentCommand`. -/
structure CloseSegmentCommand where
  ID : Nat
  DoneNodeID : Nat
  ClosedAt : Time
  Size_ : Int
  Sha1 : List Nat
  deriving DecidableEq, Repr

/-- Modelled from the spec: `ClusterState.GetOpenSegment(id)`, whose body is not among
the sources: the open segment with this id, or `nil`, here `none`. -/
def ClusterState.GetOpenSegment {V : Type} (s : ClusterState V) (id : Nat) :
    Option ClusterSegment :=
  s.OpenSegments.find? fun segment => decide (segment.ID = id)

/-- Modelled from the spec: `ClusterState.GetClosedSegment(id)`, whose body is not among
the sources: the closed segment with this id, or `nil`, here `none`. -/
def ClusterState.GetClosedSegment {V : Type} (s : ClusterState V) (id : Nat) :
    Option ClusterSegment :=
  s.ClosedSegments.find? fun segment => decide (segment.ID = id)

/-- Modelled from the spec: the transition function of the close-segment command
(`state.doCloseSegment` in `ClusterStateStore.Do`), whose body is not among the sources.
The open segment with the command's id leaves `OpenSegments` and is added at the end of
`ClosedSegments` with the command's close time, size and hash; without such a segment the
state is unchanged. -/
def ClusterState.doCloseSegment {V : Type} (s : ClusterState V) (cmd : CloseSegmentCommand) :
    ClusterState V :=
  match findFirst (fun segment => decide (segment.ID = cmd.ID)) s.OpenSegments with
  | none => s
  | some (segment, i) =>
    { s with
      OpenSegments := List.take i s.OpenSegments ++ List.drop (i + 1) s.OpenSegments
      ClosedSegments := s.ClosedSegments ++
        [{ segment with ClosedAt := cmd.ClosedAt, Size_ := cmd.Size_, Sha1 := cmd.Sha1 }] }

/-- What `SegmentRotate` returns: an error of the transaction lock, of `s.Apply` or of the
barrier; "segment not found"; "node is not primary for segment"; or what the open step
returned. -/
inductive SegmentRotateResult (V E : Type) where
  | failed (err : E)
  | segmentNotFound (segmentID : Nat)
  | notPrimary (nodeID segmentID : Nat)
  | opened (outcome : OpenSegmentOutcome V E)

/-- The effects of one `SegmentRotate` call: what it returns and the commands it handed to
`s.Apply`, in order. -/
structure SegmentRotateOutcome (V E : Type) where
  result : SegmentRotateResult V E
  applyCalls : List CloseSegmentCommand

/-- Go `Server.SegmentRotate(ctx, request)` on the leader. -/
def Server.SegmentRotate {V E : Type} (beginTransaction : Option E)
    (clusterState : ClusterStateStore V) (now : Time)
    (apply : ClusterStateStore V → CloseSegmentCommand → Except E (ClusterStateStore V))
    (barrier : Option E)
    (txOpenSegment : ClusterStateStore V → ClusterState V → Nat → NamespaceName →
      OpenSegmentOutcome V E)
    (request : SegmentRotateRequest) : SegmentRotateOutcome V E :=
  match beginTransaction with
  | some err => { result := .failed err, applyCalls := [] }
  | none =>
    let state := clusterState.Current
    match state.GetOpenSegment request.OldSegmentID with
    | none =>
      match state.GetClosedSegment request.OldSegmentID with
      | none => { result := .segmentNotFound request.OldSegmentID, applyCalls := [] }
      | some oldSegment =>
        { result := .opened (txOpenSegment clusterState state request.NodeID oldSegment.Topic),
          applyCalls := [] }
    | some oldSegment =>
      if oldSegment.Nodes.PrimaryNodeID ≠ request.NodeID then
        { result := .notPrimary request.NodeID request.OldSegmentID, applyCalls := [] }
      else
        let cmd : CloseSegmentCommand :=
          { ID := oldSegment.ID, DoneNodeID := request.NodeID, ClosedAt := now,
            Size_ := request.OldSize, Sha1 := request.OldSha1 }
        let cmd : CloseSegmentCommand :=
          if cmd.ClosedAt.Before oldSegment.OpenedAt then
            { cmd with ClosedAt := oldSegment.OpenedAt }
          else cmd
        match apply clusterState cmd with
        | .error err => { result := .failed err, applyCalls := [cmd] }
        | .ok applied =>
          match barrier with
          | some err => { result := .failed err, applyCalls := [cmd] }
          | none =>
            { result := .opened (txOpenSegment applied state request.NodeID oldSegment.Topic),
              applyCalls := [cmd] }

/-- A raft log that applies a close command to the store with `Do`, at the next index. -/
def applyClose (store : ClusterStateStore Nat) (cmd : CloseSegmentCommand) :
    Except Unit (ClusterStateStore Nat) :=
  match store.Do ClusterState.doCloseSegment (store.Current.Index + 1)
      (some (.other cmd) : Option (ClusterCommand Nat CloseSegmentCommand)) with
  | none => .error ()
  | some applied => .ok applied

/-- The open step taken to be `doOpenSegment` of `mq/server_open_segment.go`, run on the
state it is given. -/
def openStep (clusterState : ClusterStateStore Nat) (state : ClusterState Nat) (nodeID : Nat)
    (topicName : NamespaceName) : OpenSegmentOutcome Nat Unit :=
  Server.doOpenSegment clusterState intnZero noError noError state nodeID topicName []

/-- A store whose topic `n/t` has one open segment, with id 1, opened at time 10 on
node 1; the segment counter is 1. -/
def storeOneSegment : ClusterStateStore Nat :=
  { ptr := { stateNT 0 [{ segmentNT 1 1 with OpenedAt := 10 }] with CurrentSegmentID := 1 } }

/-! ## AMQP 1.0 sessions (`mq/server_amqp_v1.go`)

`Server.ServeAMQPv1` talks to a transport, reads a clock-driven ticker and waits on
channels. The transport is a parameter: `expect` is what `transport.Expect(&clientOpen)`
yields, `send k frame` is the error of the `k`-th call of `transport.Send` (counting from
0), `setReadDeadline` and `setWriteDeadline` are the errors of clearing the deadlines of
the connection. The `select` of the main loop is driven by a list of events, one per
iteration, in the order in which the channels become ready. A `time.Duration` is a number
of nanoseconds; the idle timeout is a `uint32` number of milliseconds, so none of the
products below leaves the `int64` range. `errors.Wrap(err, text)` of a nil error is nil. -/

/-- Go `time.Duration`, in nanoseconds. -/
abbrev Duration := Int

/-- Go `time.Millisecond`. -/
def Millisecond : Duration := 1000000

/-- Go `v1.Open` (the fields the server sets or reads); `IdleTimeOut` is in milliseconds,
`Properties` is the map of its string values. -/
structure v1.Open where
  ContainerID : GoString := []
  MaxFrameSize : Nat := 0
  IdleTimeOut : Nat := 0
  Properties : List (GoString × GoString) := []
  deriving DecidableEq, Repr

/-- Go `v1.Close` with its `Error.Condition`. -/
structure v1.Close where
  Condition : GoString
  deriving DecidableEq, Repr

/-- An argument of `transport.Send`: an `Open`, a `Close`, or `nil`, the empty frame. -/
inductive v1.Frame where
  | open (frame : v1.Open)
  | close (frame : v1.Close)
  | empty
  deriving DecidableEq, Repr

/-- Go `math.MaxUint32`. -/
def MaxUint32 : Nat := 4294967295

/-- An error made by `errors.Wrap(err, text)` with `err` not nil. -/
structure Wrapped (E : Type) where
  text : GoString
  cause : E
  deriving DecidableEq, Repr

/-- Go `errors.Wrap(err, text)`. -/
def wrapError {E : Type} (err : Option E) (text : GoString) : Option (Wrapped E) :=
  err.map fun cause => { text := text, cause := cause }

/-- One iteration of the `select` of the main loop: `s.closed` is closed, a frame has
arrived on `frames`, or the ticker has fired. -/
inductive v1.Event where
  | closed
  | frame
  | heartbeat
  deriving DecidableEq, Repr

/-- How a session stands: the function has returned an error (nil when `none`), it has
panicked, or it is blocked in `select` with no channel ready. -/
inductive ServeResult (E : Type) where
  | returned (err : Option (Wrapped E))
  | panic (text : GoString)
  | waiting
  deriving DecidableEq, Repr

/-- The effects of a `ServeAMQPv1` call: how it stands, the arguments of its
`transport.Send` calls in order, the transport's two timeouts, and the period of the
ticker made by `time.NewTicker` (`none` when the call did not get that far). -/
structure ServeAMQPv1Outcome (E : Type) where
  result : ServeResult E
  sendCalls : List v1.Frame
  receiveTimeout : Duration := 0
  sendTimeout : Duration := 0
  ticker : Option Duration := none
  deriving DecidableEq, Repr

/-- Go `Server.forceCloseAMQPv1(transport, reason)`, as the `k`-th send: the frame sent and
the error returned. -/
def forceCloseAMQPv1 {E : Type} (send : Nat → v1.Frame → Option E) (k : Nat)
    (reason : GoString) : v1.Frame × Option (Wrapped E) :=
  (.close { Condition := reason },
    wrapError (send k (.close { Condition := reason })) "force close failed".toList)

/-- The `for { select { ... } }` loop of `ServeAMQPv1`, after `k` sends: how the session
stands and the arguments of the `transport.Send` calls of the loop, in order. -/
def serveAMQPv1Loop {E : Type} (send : Nat → v1.Frame → Option E) :
    List v1.Event → Nat → ServeResult E × List v1.Frame
  | [], _ => (.waiting, [])
  | .closed :: _, k =>
    (.returned (forceCloseAMQPv1 send k "shutdown".toList).2,
      [(forceCloseAMQPv1 send k "shutdown".toList).1])
  | .frame :: _, _ => (.panic "wip".toList, [])
  | .heartbeat :: events, k =>
    match send k .empty with
    | some err => (.returned (wrapError (some err) "send heartbeat failed".toList), [.empty])
    | none =>
      ((serveAMQPv1Loop send events (k + 1)).1,
        .empty :: (serveAMQPv1Loop send events (k + 1)).2)

/-- Go `Transport.SetReceiveTimeout` and `Transport.SetSendTimeout`: the error returned.
The deadline of the connection is only touched when the timeout is zero; `setDeadline` is
the error of that step. -/
def setTimeoutError {E : Type} (setDeadline : Option E) (timeout : Duration) : Option E :=
  if timeout = 0 then setDeadline else none

/-- Go `Server.ServeAMQPv1(ctx, transport)`; `aboutName` and `aboutVersion` are the
constants `about.Name` and `about.Version`. -/
def Server.ServeAMQPv1 {E : Type} (aboutName aboutVersion : GoString)
    (expect : Except E v1.Open) (send : Nat → v1.Frame → Option E)
    (setReadDeadline setWriteDeadline : Option E) (events : List v1.Event) :
    ServeAMQPv1Outcome E :=
  match expect with
  | .error err =>
    { result := .returned (wrapError (some err) "expect open failed".toList), sendCalls := [] }
  | .ok clientOpen =>
    let serverOpen : v1.Open :=
      { ContainerID := aboutName, MaxFrameSize := MaxUint32, IdleTimeOut := 60000,
        Properties := [("product".toList, aboutName), ("version".toList, aboutVersion)] }
    if clientOpen.IdleTimeOut < 1000 then
      match send 0 (.open serverOpen) with
      | some err =>
        { result := .returned (wrapError (some err) "send open failed".toList),
          sendCalls := [.open serverOpen] }
      | none =>
        { result := .returned (wrapError
            (send 1 (.close { Condition := "client timeout too short".toList }))
            "close failed".toList),
          sendCalls := [.open serverOpen,
            .close { Condition := "client timeout too short".toList }] }
    else if clientOpen.IdleTimeOut > 3600 * 1000 then
      match send 0 (.open serverOpen) with
      | some err =>
        { result := .returned (wrapError (some err) "send open failed".toList),
          sendCalls := [.open serverOpen] }
      | none =>
        { result := .returned (wrapError
            (send 1 (.close { Condition := "client timeout too long".toList }))
            "close failed".toList),
          sendCalls := [.open serverOpen,
            .close { Condition := "client timeout too long".toList }] }
    else
      let serverOpen : v1.Open := { serverOpen with IdleTimeOut := clientOpen.IdleTimeOut }
      match send 0 (.open serverOpen) with
      | some err =>
        { result := .returned (wrapError (some err) "send open failed".toList),
          sendCalls := [.open serverOpen] }
      | none =>
        let heartbeat : Duration := (clientOpen.IdleTimeOut : Int) * Millisecond
        match setTimeoutError setReadDeadline (heartbeat * 2) with
        | some err =>
          { result := .returned (wrapError (some err) "set receive timeout failed".toList),
            sendCalls := [.open serverOpen], receiveTimeout := heartbeat * 2 }
        | none =>
          match setTimeoutError setWriteDeadline (heartbeat / 2) with
          | some err =>
            { result := .returned (wrapError (some err) "set send timeout failed".toList),
              sendCalls := [.open serverOpen], receiveTimeout := heartbeat * 2,
              sendTimeout := heartbeat / 2 }
          | none =>
            { result := (serveAMQPv1Loop send events 1).1,
              sendCalls := .open serverOpen :: (serveAMQPv1Loop send events 1).2,
              receiveTimeout := heartbeat * 2, sendTimeout := heartbeat / 2,
              ticker := some heartbeat }

/-- A transport whose sends never fail. -/
def sendOk (_ : Nat) (_ : v1.Frame) : Option Unit := none

/-- The `Open` the server sends, with the idle timeout `idle`. -/
def serverOpenWith (aboutName aboutVersion : GoString) (idle : Nat) : v1.Open :=
  { ContainerID := aboutName, MaxFrameSize := MaxUint32, IdleTimeOut := idle,
    Properties := [("product".toList, aboutName), ("version".toList, aboutVersion)] }

/-! ## The AMQP 0-9-1 session loop (`mq/server_amqp_v0.go`)

The main loop of `Server.ServeAMQPv0`. The `select` is driven by a list of events, one per
iteration, in the order in which the channels become ready. The table `channels` is a Go
map from channel id to channel: a list of pairs read with `List.lookup`, written by
putting the pair in front after removing the key, and deleted from by removing the key.
A channel is held by pointer, so what a handler does to it is seen in the table. The
transport and the three frame handlers are parameters: `send k frame` is the error of the
`k`-th call of `transport.Send` (counting from 0), an error being given by its `Error()`
text; a handler returns the channel afterwards and its error. -/

/-- Go `readyState`. -/
def readyState : Int := 1

/-- Go `closingState`. -/
def closingState : Int := 2

/-- Modelled from the spec: the reply-code constant `v0.ReplySuccess`, whose declaration is
not among the sources; section 6 of the spec gives ReplySuccess=200. -/
def ReplySuccess : Nat := 200

/-- Modelled from the spec: `v0.ConnectionForced`; section 6 gives ConnectionForced=320. -/
def ConnectionForced : Nat := 320

/-- Modelled from the spec: `v0.FrameError`; section 6 gives FrameError=501. -/
def FrameError : Nat := 501

/-- Modelled from the spec: `v0.SyntaxError`; section 6 gives SyntaxError=502. -/
def SyntaxError : Nat := 502

/-- Modelled from the spec: `v0.ChannelError`; section 6 gives ChannelError=504. -/
def ChannelError : Nat := 504

/-- Modelled from the spec: `v0.InternalError`; section 6 gives InternalError=541. -/
def InternalError : Nat := 541

/-- Go `v0.ConnectionClose` (`ReplyCode`, `ReplyText`). -/
structure ConnectionClose where
  ReplyCode : Nat
  ReplyText : GoString
  deriving DecidableEq, Repr

/-- A method frame, by the cases of the type switches of the loop; `other` is any other
method, with its content. -/
inductive v0.Method (P : Type) where
  | ConnectionClose (frame : ConnectionClose)
  | ChannelOpen
  | ChannelClose
  | ChannelCloseOk
  | other (content : P)

/-- A frame received from the client, with the channel id of its `FrameMeta`; `unhandled` is
a frame of any other type. -/
inductive v0.Frame (P : Type) where
  | method (channel : Nat) (method : v0.Method P)
  | contentHeader (channel : Nat) (content : P)
  | contentBody (channel : Nat) (content : P)
  | heartbeat (channel : Nat)
  | unhandled (typeName : GoString)

/-- A frame handed to `transport.Send`. -/
inductive v0.Sent where
  | ConnectionClose (frame : ConnectionClose)
  | ConnectionCloseOk
  | ChannelOpenOk (channel : Nat)
  | ChannelClose (frame : ChannelClose)
  | ChannelCloseOk (channel : Nat)
  | Heartbeat
  deriving DecidableEq, Repr

/-- The non-nil errors of a frame handler, by the cases the loop tells apart: a
`*v0.ConnectionClose`, a `*v0.ChannelClose`, or any other error, given by its text. -/
inductive ChannelHandlerError where
  | connectionClose (frame : ConnectionClose)
  | channelClose (frame : ChannelClose)
  | other (text : GoString)
  deriving DecidableEq, Repr

/-- The non-nil errors `ServeAMQPv0` returns from its loop. -/
inductive SessionError where
  | send (text : GoString)
  | forceCloseFailed (text : GoString)
  | sendHeartbeatFailed (text : GoString)
  | receivedConnectionError (replyText : GoString) (replyCode : Nat)
  | receive (text : GoString)
  | virtualHost (text : GoString)
  | heartbeat (text : GoString)
  deriving DecidableEq, Repr

/-- One iteration of the `select`: `s.closeC` is closed, the ticker has fired, a frame has
arrived, or the receiving goroutine has reported an error (`malformed` when its cause is
`v0.ErrMalformedFrame`). -/
inductive v0.Event (P : Type) where
  | closeC
  | heartbeat
  | frame (frame : v0.Frame P)
  | errc (malformed : Bool) (text : GoString)

/-- The state of the loop: the channel table and the frames handed to `transport.Send` so
far, in order. -/
structure SessionLoop where
  channels : List (Nat × serverAMQPv0Channel) := []
  sendCalls : List v0.Sent := []
  deriving DecidableEq, Repr

/-- The outcome of an iteration: the loop goes on, or the function returns `err`. -/
inductive SessionStep where
  | next (loop : SessionLoop)
  | done (err : Option SessionError) (loop : SessionLoop)
  deriving DecidableEq, Repr

/-- Go `delete(channels, id)`. -/
def channelsDelete (channels : List (Nat × serverAMQPv0Channel)) (id : Nat) :
    List (Nat × serverAMQPv0Channel) :=
  channels.filter fun entry => decide (entry.1 ≠ id)

/-- Go `channels[id] = ch`. -/
def channelsSet (channels : List (Nat × serverAMQPv0Channel)) (id : Nat)
    (ch : serverAMQPv0Channel) : List (Nat × serverAMQPv0Channel) :=
  (id, ch) :: channelsDelete channels id

/-- The loop state after `transport.Send(frame)`, and the error of that call. -/
def SessionLoop.send (send : Nat → v0.Sent → Option GoString) (loop : SessionLoop)
    (frame : v0.Sent) : SessionLoop × Option GoString :=
  ({ loop with sendCalls := loop.sendCalls ++ [frame] }, send loop.sendCalls.length frame)

/-- Go `return s.forceCloseAMQPv0(transport, replyCode, replyText)`. -/
def forceCloseAMQPv0 (send : Nat → v0.Sent → Option GoString) (loop : SessionLoop)
    (replyCode : Nat) (replyText : GoString) : SessionStep :=
  let sent := loop.send send (.ConnectionClose { ReplyCode := replyCode, ReplyText := replyText })
  .done (sent.2.map SessionError.forceCloseFailed) sent.1

/-- Go `return transport.Send(frame)`. -/
def returnSend (send : Nat → v0.Sent → Option GoString) (loop : SessionLoop)
    (frame : v0.Sent) : SessionStep :=
  let sent := loop.send send frame
  .done (sent.2.map SessionError.send) sent.1

/-- The handling of a handler's result, the same after each of the three handlers; `ch` is
the channel as the handler left it. -/
def afterHandler (send : Nat → v0.Sent → Option GoString) (loop : SessionLoop) (channel : Nat)
    (handled : serverAMQPv0Channel × Option ChannelHandlerError) : SessionStep :=
  let loop : SessionLoop := { loop with channels := channelsSet loop.channels channel handled.1 }
  match handled.2 with
  | none => .next loop
  | some (.connectionClose connClose) => returnSend send loop (.ConnectionClose connClose)
  | some (.channelClose chanClose) =>
    let loop : SessionLoop :=
      { loop with
        channels := channelsSet loop.channels channel { handled.1 with state := closingState } }
    match loop.send send (.ChannelClose chanClose) with
    | (loop, some err) => forceCloseAMQPv0 send loop InternalError err
    | (loop, none) => .next loop
  | some (.other text) => forceCloseAMQPv0 send loop InternalError text

/-- The case `frame := <-frames` of the loop. -/
def handleFrame {P : Type} (send : Nat → v0.Sent → Option GoString)
    (handleMethod : serverAMQPv0Channel → v0.Method P →
      serverAMQPv0Channel × Option ChannelHandlerError)
    (handleContentHeader handleContentBody :
      serverAMQPv0Channel → P → serverAMQPv0Channel × Option ChannelHandlerError)
    (loop : SessionLoop) : v0.Frame P → SessionStep
  | .method channel method =>
    if channel = 0 then
      match method with
      | .ConnectionClose frame =>
        if frame.ReplyCode ≠ 0 ∧ frame.ReplyCode ≠ ReplySuccess then
          .done (some (.receivedConnectionError frame.ReplyText frame.ReplyCode)) loop
        else returnSend send loop .ConnectionCloseOk
      | _ => forceCloseAMQPv0 send loop SyntaxError "non-close frame".toList
    else
      match method with
      | .ChannelOpen =>
        match loop.channels.lookup channel with
        | some _ => forceCloseAMQPv0 send loop ChannelError "channel already open".toList
        | none =>
          let loop : SessionLoop :=
            { loop with
              channels := channelsSet loop.channels channel { id := channel, state := readyState } }
          match loop.send send (.ChannelOpenOk channel) with
          | (loop, some err) => forceCloseAMQPv0 send loop InternalError err
          | (loop, none) => .next loop
      | .ChannelClose =>
        match loop.channels.lookup channel with
        | none =>
          forceCloseAMQPv0 send loop ChannelError
            "trying to close channel that isn't open".toList
        | some _ =>
          let loop : SessionLoop := { loop with channels := channelsDelete loop.channels channel }
          match loop.send send (.ChannelCloseOk channel) with
          | (loop, some err) => forceCloseAMQPv0 send loop InternalError err
          | (loop, none) => .next loop
      | .ChannelCloseOk =>
        match loop.channels.lookup channel with
        | none => forceCloseAMQPv0 send loop ChannelError "channel not open".toList
        | some ch =>
          if ch.state ≠ closingState then
            forceCloseAMQPv0 send loop SyntaxError "channel not closing".toList
          else .next { loop with channels := channelsDelete loop.channels channel }
      | method =>
        match loop.channels.lookup channel with
        | none => forceCloseAMQPv0 send loop ChannelError "channel not open".toList
        | some ch => afterHandler send loop channel (handleMethod ch method)
  | .contentHeader channel content =>
    if channel = 0 then
      forceCloseAMQPv0 send loop SyntaxError "content header frame on zero channel".toList
    else
      match loop.channels.lookup channel with
      | none => forceCloseAMQPv0 send loop ChannelError "channel not open".toList
      | some ch => afterHandler send loop channel (handleContentHeader ch content)
  | .contentBody channel content =>
    if channel = 0 then
      forceCloseAMQPv0 send loop SyntaxError "content body frame on zero channel".toList
    else
      match loop.channels.lookup channel with
      | none => forceCloseAMQPv0 send loop ChannelError "channel not open".toList
      | some ch => afterHandler send loop channel (handleContentBody ch content)
  | .heartbeat channel =>
    if channel ≠ 0 then
      forceCloseAMQPv0 send loop SyntaxError "heartbeat frame on non-zero channel".toList
    else .next loop
  | .unhandled typeName =>
    forceCloseAMQPv0 send loop SyntaxError ("unhandled frame of type ".toList ++ typeName)

/-- One iteration of the `for { select { ... } }` loop of `ServeAMQPv0`. -/
def sessionStep {P : Type} (send : Nat → v0.Sent → Option GoString)
    (handleMethod : serverAMQPv0Channel → v0.Method P →
      serverAMQPv0Channel × Option ChannelHandlerError)
    (handleContentHeader handleContentBody :
      serverAMQPv0Channel → P → serverAMQPv0Channel × Option ChannelHandlerError)
    (loop : SessionLoop) : v0.Event P → SessionStep
  | .closeC => forceCloseAMQPv0 send loop ConnectionForced "shutdown".toList
  | .heartbeat =>
    match loop.send send .Heartbeat with
    | (loop, some err) => .done (some (.sendHeartbeatFailed err)) loop
    | (loop, none) => .next loop
  | .frame frame =>
    handleFrame send handleMethod handleContentHeader handleContentBody loop frame
  | .errc malformed text =>
    if malformed then forceCloseAMQPv0 send loop FrameError "malformed frame".toList
    else .done (some (.receive text)) loop

/-- How the loop stands after the events: the function has returned an error (nil when
`none`), or it is blocked in `select` with no channel ready. -/
inductive SessionResult where
  | returned (err : Option SessionError)
  | waiting
  deriving DecidableEq, Repr

/-- The `for { select { ... } }` loop of `ServeAMQPv0`, from the state `loop`. The deferred
`ch.Close()` calls do nothing (`Close` returns nil). -/
def serveAMQPv0Loop {P : Type} (send : Nat → v0.Sent → Option GoString)
    (handleMethod : serverAMQPv0Channel → v0.Method P →
      serverAMQPv0Channel × Option ChannelHandlerError)
    (handleContentHeader handleContentBody :
      serverAMQPv0Channel → P → serverAMQPv0Channel × Option ChannelHandlerError) :
    List (v0.Event P) → SessionLoop → SessionResult × SessionLoop
  | [], loop => (.waiting, loop)
  | event :: events, loop =>
    match sessionStep send handleMethod handleContentHeader handleContentBody loop event with
    | .next loop =>
      serveAMQPv0Loop send handleMethod handleContentHeader handleContentBody events loop
    | .done err loop => (.returned err, loop)

/-- The event is a tick of the heartbeat ticker. -/
def v0.Event.isHeartbeat {P : Type} : v0.Event P → Bool
  | .heartbeat => true
  | _ => false

/-- Go `Server.ServeAMQPv0(ctx, transport)`: `virtualHost` and `heartbeat` are what
`amqp.VirtualHost(ctx)` and `amqp.Heartbeat(ctx)` yield; the handlers receive the namespace
first. Without a positive heartbeat there is no ticker, and no tick is ever received. -/
def Server.ServeAMQPv0 {P : Type} (virtualHost : Except GoString GoString)
    (heartbeat : Except GoString Duration) (send : Nat → v0.Sent → Option GoString)
    (handleMethod : GoString → serverAMQPv0Channel → v0.Method P →
      serverAMQPv0Channel × Option ChannelHandlerError)
    (handleContentHeader handleContentBody :
      GoString → serverAMQPv0Channel → P → serverAMQPv0Channel × Option ChannelHandlerError)
    (events : List (v0.Event P)) : SessionResult × SessionLoop :=
  match virtualHost with
  | .error err => (.returned (some (.virtualHost err)), {})
  | .ok namespace_ =>
    let namespace_ := if namespace_ = "/".toList then "default".toList else namespace_
    match heartbeat with
    | .error err => (.returned (some (.heartbeat err)), {})
    | .ok heartbeat =>
      serveAMQPv0Loop send (handleMethod namespace_) (handleContentHeader namespace_)
        (handleContentBody namespace_)
        (if heartbeat > 0 then events else events.filter fun event => !event.isHeartbeat) {}

/-- The loop state of a step's outcome. -/
def SessionStep.loop : SessionStep → SessionLoop
  | .next loop => loop
  | .done _ loop => loop

/-- The step ends the session. -/
def SessionStep.isDone : SessionStep → Bool
  | .next _ => false
  | .done _ _ => true

/-- A transport whose sends never fail. -/
def sendOkV0 (_ : Nat) (_ : v0.Sent) : Option GoString := none

/-- A method handler that does nothing. -/
def handleNothing (ch : serverAMQPv0Channel) (_ : v0.Method Unit) :
    serverAMQPv0Channel × Option ChannelHandlerError := (ch, none)

/-- A content handler that does nothing. -/
def handleNoContent (ch : serverAMQPv0Channel) (_ : Unit) :
    serverAMQPv0Channel × Option ChannelHandlerError := (ch, none)

/-- A runtime whose second call fails. -/
def runtimeSecondFails : Nat → RuntimeCall → Option Unit := fun k _ =>
  if k = 1 then some () else none

/-! ## The recursion of `routingKeyMatches`

The calls and loop iterations of `routingKeyMatches` as a graph. A point is the entry of
a call or the head of an iteration, after the first, of the `for` loop of the `#` branch;
its successors are the recursive calls made and the iteration gone on to directly from
it. The first iteration of the loop belongs to the call that enters it. -/

/-- A point of an execution of `routingKeyMatches`, with the values of `pattern` and
`routingKey` there. -/
inductive MatchPoint where
  | call (pattern routingKey : GoString)
  | iteration (pattern routingKey : GoString)
  deriving DecidableEq, Repr

/-- The pair (pattern length, routing-key length) at a point. -/
def MatchPoint.size : MatchPoint → Nat × Nat
  | .call pattern routingKey => (pattern.length, routingKey.length)
  | .iteration pattern routingKey => (pattern.length, routingKey.length)

/-- One iteration of the `for` loop: the call `routingKeyMatches(rest, routingKey)` and,
when the routing key has a separator not at its end, the next iteration. -/
def loopNext (pattern rest routingKey : GoString) : List MatchPoint :=
  .call rest routingKey ::
    match indexByte routingKey patternSeparator with
    | none => []
    | some j =>
      if routingKey.drop (j + 1) = [] then [] else [.iteration pattern (routingKey.drop (j + 1))]

/-- The recursive calls and the loop iteration that follow a point directly. -/
def MatchPoint.next : MatchPoint → List MatchPoint
  | .call pattern routingKey =>
    if pattern = [] then []
    else
      match indexByte pattern patternSeparator with
      | none =>
        if pattern = patternWildcard then []
        else if pattern = patternZeroOrMore then
          match indexByte routingKey patternSeparator with
          | none => []
          | some j =>
            if routingKey.drop (j + 1) = [] then []
            else [.call pattern (routingKey.drop (j + 1))]
        else []
      | some i =>
        if pattern.take i = patternWildcard then
          match indexByte routingKey patternSeparator with
          | none => if routingKey = [] then [] else [.call (pattern.drop (i + 1)) []]
          | some j =>
            if routingKey.drop (j + 1) = [] then []
            else [.call (pattern.drop (i + 1)) (routingKey.drop (j + 1))]
        else if pattern.take i = patternZeroOrMore then
          loopNext pattern (pattern.drop (i + 1)) routingKey
        else
          match indexByte routingKey patternSeparator with
          | none =>
            if routingKey = pattern.take i then [.call (pattern.drop (i + 1)) []] else []
          | some j =>
            if routingKey.take j ≠ pattern.take i then []
            else if routingKey.drop (j + 1) = [] then []
            else [.call (pattern.drop (i + 1)) (routingKey.drop (j + 1))]
  | .iteration pattern routingKey =>
    match indexByte pattern patternSeparator with
    | none => []
    | some i => loopNext pattern (pattern.drop (i + 1)) routingKey

/-- One iteration of the `for` loop, the results of the call and of the rest of the loop
being given by `result`. -/
def loopBody (result : MatchPoint → Bool) (pattern rest routingKey : GoString) : Bool :=
  if result (.call rest routingKey) then true
  else
    match indexByte routingKey patternSeparator with
    | none => false
    | some j =>
      if routingKey.drop (j + 1) = [] then false
      else result (.iteration pattern (routingKey.drop (j + 1)))

/-- The body of `routingKeyMatches` from a point on, the results of the recursive calls
and of the following iteration being given by `result`. -/
def MatchPoint.body (result : MatchPoint → Bool) : MatchPoint → Bool
  | .call pattern routingKey =>
    if pattern = [] then decide (routingKey = [])
    else
      match indexByte pattern patternSeparator with
      | none =>
        if pattern = patternWildcard then
          decide (routingKey ≠ []) && decide (indexByte routingKey patternSeparator = none)
        else if pattern = patternZeroOrMore then
          match indexByte routingKey patternSeparator with
          | none => true
          | some j =>
            if routingKey.drop (j + 1) = [] then false
            else result (.call pattern (routingKey.drop (j + 1)))
        else decide (routingKey = pattern)
      | some i =>
        if pattern.take i = patternWildcard then
          match indexByte routingKey patternSeparator with
          | none => if routingKey = [] then false else result (.call (pattern.drop (i + 1)) [])
          | some j =>
            if routingKey.drop (j + 1) = [] then false
            else result (.call (pattern.drop (i + 1)) (routingKey.drop (j + 1)))
        else if pattern.take i = patternZeroOrMore then
          loopBody result pattern (pattern.drop (i + 1)) routingKey
        else
          match indexByte routingKey patternSeparator with
          | none =>
            decide (routingKey = pattern.take i) && result (.call (pattern.drop (i + 1)) [])
          | some j =>
            if routingKey.take j ≠ pattern.take i then false
            else if routingKey.drop (j + 1) = [] then false
            else result (.call (pattern.drop (i + 1)) (routingKey.drop (j + 1)))
  | .iteration pattern routingKey =>
    match indexByte pattern patternSeparator with
    | none => false
    | some i => loopBody result pattern (pattern.drop (i + 1)) routingKey

/-- What the execution returns from a point on, by the functions of the embedding. -/
def MatchPoint.eval : MatchPoint → Bool
  | .call pattern routingKey => routingKeyMatches pattern routingKey
  | .iteration pattern routingKey =>
    match indexByte pattern patternSeparator with
    | none => false
    | some i => zeroOrMoreLoop (pattern.drop (i + 1)) routingKey

/-- The execution from a point on with a bound on the depth of calls and iterations:
`none` when the bound is reached. -/
def MatchPoint.run : Nat → MatchPoint → Option Bool
  | 0, _ => none
  | fuel + 1, point =>
    if point.next.all (fun following => (MatchPoint.run fuel following).isSome) then
      some (point.body fun following => (MatchPoint.run fuel following).getD false)
    else none

/-! ## AMQP 0-9-1 `exchange.delete` and `queue.declare`
(`mq/server_amqp_v0_exchange_delete.go`, `mq/server_amqp_v0_queue_declare.go`)

The two handlers call the server's own operations, the transport and library functions.
These are parameters: each operation and `transport.Send` is given by the error it returns
(`none` is nil), and the handler's outcome records, in order, the reads of the cluster
state and the calls it made. `state` is the snapshot `s.clusterState.Current()` returns.
The constants `defaultExchangeTopicName`, `defaultReplicationFactor`,
`defaultConsumerGroupSize` and `emq.ExchangeTypeDirect`, whose declarations are not among
the sources, are parameters too. -/

/-- Modelled from the spec: the reply-code constant `v0.NotFound`, whose declaration is not
among the sources; section 6 of the spec gives NotFound=404. -/
def NotFound : Nat := 404

/-- Modelled from the spec: `v0.NotImplemented`; section 6 gives NotImplemented=540. -/
def NotImplemented : Nat := 540

/-- Go `Server.makeConnectionClose(code, err)`; `text` is `err.Error()`. -/
def makeConnectionClose (code : Nat) (text : GoString) : ConnectionClose :=
  { ReplyCode := code, ReplyText := text }

/-- The non-nil errors a method handler returns: a `*v0.ConnectionClose`, a
`*v0.ChannelClose`, an error wrapped by `errors.Wrap(err, text)`, or the error of
`transport.Send` as it is. -/
inductive MethodError (E : Type) where
  | connectionClose (frame : ConnectionClose)
  | channelClose (frame : ChannelClose)
  | wrap (cause : E) (text : GoString)
  | send (cause : E)
  deriving DecidableEq, Repr

/-- Go `errors.Errorf("vhost %q not found", name).Error()`; `quote` is the `%q` verb. -/
def vhostNotFound (quote : GoString → GoString) (name : GoString) : GoString :=
  "vhost ".toList ++ quote name ++ " not found".toList

/-- Go `v0.ExchangeDelete` (the fields the handler reads). -/
structure ExchangeDelete where
  Exchange : GoString := []
  IfUnused : Bool := false
  NoWait : Bool := false
  deriving DecidableEq, Repr

/-- Go `emq.TopicDeleteRequest`. -/
structure TopicDeleteRequest where
  Namespace : GoString
  Name : GoString
  IfUnused : Bool
  deriving DecidableEq, Repr

/-- Go `v0.ExchangeDeleteOk` (`FrameMeta.Channel`). -/
structure ExchangeDeleteOk where
  Channel : Nat
  deriving DecidableEq, Repr

/-- What the `exchange.delete` handler does, in order. -/
inductive ExchangeDeleteEffect where
  | current
  | DeleteTopic (request : TopicDeleteRequest)
  | Send (frame : ExchangeDeleteOk)
  deriving DecidableEq, Repr

/-- The outcome of the `exchange.delete` handler: the error returned and what it did. -/
structure ExchangeDeleteOutcome (E : Type) where
  result : Option (MethodError E)
  effects : List ExchangeDeleteEffect
  deriving DecidableEq, Repr

/-- Go `Server.handleAMQPv0ExchangeDelete`. -/
def handleAMQPv0ExchangeDelete {V E : Type} (defaultExchangeTopicName : GoString)
    (quote : GoString → GoString) (DeleteTopic : TopicDeleteRequest → Option E)
    (Send : ExchangeDeleteOk → Option E) (state : ClusterState V) (namespaceName : GoString)
    (ch : serverAMQPv0Channel) (frame : ExchangeDelete) : ExchangeDeleteOutcome E :=
  if frame.Exchange = [] ∨ frame.Exchange = defaultExchangeTopicName then
    { result := some (.connectionClose
        (makeConnectionClose SyntaxError "trying to delete default exchange".toList)),
      effects := [] }
  else
    match state.FindNamespace namespaceName with
    | none =>
      { result := some (.channelClose
          (makeChannelClose ch NotFound (vhostNotFound quote namespaceName))),
        effects := [.current] }
    | some _ =>
      let request : TopicDeleteRequest :=
        { Namespace := namespaceName, Name := frame.Exchange, IfUnused := frame.IfUnused }
      match DeleteTopic request with
      | some err =>
        { result := some (.wrap err "delete failed".toList),
          effects := [.current, .DeleteTopic request] }
      | none =>
        if frame.NoWait then
          { result := none, effects := [.current, .DeleteTopic request] }
        else
          { result := (Send { Channel := ch.id }).map MethodError.send,
            effects := [.current, .DeleteTopic request, .Send { Channel := ch.id }] }

/-- Go `v0.QueueDeclare` (the fields the handler reads); `Arguments` is a `*types.Struct`. -/
structure QueueDeclare (A : Type) where
  Queue : GoString := []
  Passive : Bool := false
  Durable : Bool := false
  Exclusive : Bool := false
  AutoDelete : Bool := false
  NoWait : Bool := false
  Arguments : A

/-- Go `emq.Topic` (the fields the handler sets). -/
structure emq.Topic where
  Namespace : GoString
  Name : GoString
  DefaultExchangeType : GoString
  Shards : Nat
  ReplicationFactor : Nat
  Retention : Int
  deriving DecidableEq, Repr

/-- Go `emq.ConsumerGroup_Binding`. -/
structure emq.ConsumerGroup_Binding (V : Type) where
  TopicName : GoString
  ExchangeType : GoString
  By : BindingBy V

/-- Go `emq.ConsumerGroup` (the fields the handler sets). -/
structure emq.ConsumerGroup (V : Type) where
  Namespace : GoString
  Name : GoString
  Size_ : Nat
  Bindings : List (emq.ConsumerGroup_Binding V)

/-- Go `v0.QueueDeclareOk` (`FrameMeta.Channel`, `Queue`). -/
structure QueueDeclareOk where
  Channel : Nat
  Queue : GoString
  deriving DecidableEq, Repr

/-- What the `queue.declare` handler does, in order. -/
inductive QueueDeclareEffect (V : Type) where
  | current
  | CreateTopic (topic : emq.Topic)
  | CreateConsumerGroup (consumerGroup : emq.ConsumerGroup V)
  | ConsumerGroupWait (namespaceName name : GoString)
  | Send (frame : QueueDeclareOk)

/-- The outcome of the `queue.declare` handler: the error returned and what it did. -/
structure QueueDeclareOutcome (V E : Type) where
  result : Option (MethodError E)
  effects : List (QueueDeclareEffect V)

/-- The constants, library functions, server operations and transport the `queue.declare`
handler uses: `structvalueUint32` is `structvalue.Uint32`, `generateUUID` is
`uuid.GenerateUUID()`, `errorText` is `err.Error()`, `quote` is the `%q` verb. -/
structure QueueDeclareEnv (V A E : Type) where
  defaultExchangeTopicName : GoString
  defaultReplicationFactor : Nat
  defaultConsumerGroupSize : Nat
  ExchangeTypeDirect : GoString
  quote : GoString → GoString
  errorText : E → GoString
  structvalueUint32 : A → GoString → Nat → Except E Nat
  generateUUID : Except E GoString
  convertClusterBinding : ClusterConsumerGroup_Binding V → emq.ConsumerGroup_Binding V
  CreateTopic : emq.Topic → Option E
  CreateConsumerGroup : emq.ConsumerGroup V → Option E
  ConsumerGroupWait : GoString → GoString → Option E
  Send : QueueDeclareOk → Option E

/-- Modelled from the spec: `ClusterNamespace.FindTopic(name)`, whose body is not among the
sources. By its use (`defaultTopic, _ := namespace.FindTopic(...)`, tested against `nil`)
it returns the topic called `name` and its index in `n.Topics`, or `(nil, -1)`, here
`none`. -/
def ClusterNamespace.FindTopic {V : Type} (n : ClusterNamespace V) (name : GoString) :
    Option (ClusterTopic × Nat) :=
  findFirst (fun t => decide (t.Name = name)) n.Topics

/-- The end of the `queue.declare` handler: `if frame.NoWait { return nil }`, then
`return transport.Send(&v0.QueueDeclareOk{...})`. -/
def queueDeclareReply {V A E : Type} (env : QueueDeclareEnv V A E) (ch : serverAMQPv0Channel)
    (frame : QueueDeclare A) (queue : GoString) (effects : List (QueueDeclareEffect V)) :
    QueueDeclareOutcome V E :=
  if frame.NoWait then { result := none, effects := effects }
  else
    { result := (env.Send { Channel := ch.id, Queue := queue }).map MethodError.send,
      effects := effects ++ [.Send { Channel := ch.id, Queue := queue }] }

/-- Go `Server.handleAMQPv0QueueDeclare`; `namespace.FindConsumerGroup` is
`findConsumerGroup`. -/
def handleAMQPv0QueueDeclare {V A E : Type} (env : QueueDeclareEnv V A E)
    (state : ClusterState V) (namespaceName : GoString) (ch : serverAMQPv0Channel)
    (frame : QueueDeclare A) : QueueDeclareOutcome V E :=
  if !frame.Durable then
    { result := some (.connectionClose
        (makeConnectionClose NotImplemented "non-durable queues not implemented".toList)),
      effects := [] }
  else if frame.Exclusive then
    { result := some (.connectionClose
        (makeConnectionClose NotImplemented "exclusive queues not implemented".toList)),
      effects := [] }
  else if frame.AutoDelete then
    { result := some (.connectionClose
        (makeConnectionClose NotImplemented "auto-delete queues not implemented".toList)),
      effects := [] }
  else
    match state.FindNamespace namespaceName with
    | none =>
      { result := some (.channelClose
          (makeChannelClose ch NotFound (vhostNotFound env.quote namespaceName))),
        effects := [.current] }
    | some (namespace_, _) =>
      let defaultTopic : emq.Topic :=
        { Namespace := namespaceName, Name := env.defaultExchangeTopicName,
          DefaultExchangeType := env.ExchangeTypeDirect, Shards := 1,
          ReplicationFactor := env.defaultReplicationFactor, Retention := 1 }
      let created : List (QueueDeclareEffect V) × Option E :=
        match namespace_.FindTopic env.defaultExchangeTopicName with
        | none => ([.current, .CreateTopic defaultTopic], env.CreateTopic defaultTopic)
        | some _ => ([.current], none)
      match created.2 with
      | some err =>
        { result := some (.wrap err "create default exchange failed".toList),
          effects := created.1 }
      | none =>
        match env.structvalueUint32 frame.Arguments "size".toList
            env.defaultConsumerGroupSize with
        | .error err =>
          { result := some (.connectionClose (makeConnectionClose SyntaxError
              ("size field failed: ".toList ++ env.errorText err))),
            effects := created.1 }
        | .ok size =>
          let named : Except E GoString :=
            if frame.Queue = [] then
              match env.generateUUID with
              | .error err => .error err
              | .ok generated => .ok ("amq-".toList ++ generated)
            else .ok frame.Queue
          match named with
          | .error err =>
            { result := some (.wrap err "generate queue name failed".toList),
              effects := created.1 }
          | .ok queue =>
            let cg := namespace_.findConsumerGroup queue
            let request : emq.ConsumerGroup V :=
              { Namespace := namespaceName, Name := queue, Size_ := size,
                Bindings :=
                  match cg with
                  | some (found, _) => found.Bindings.map env.convertClusterBinding
                  | none =>
                    [{ TopicName := env.defaultExchangeTopicName,
                       ExchangeType := env.ExchangeTypeDirect, By := .RoutingKey queue }] }
            if frame.Passive then
              match cg with
              | none =>
                { result := some (.channelClose (makeChannelClose ch NotFound
                    ("queue ".toList ++ env.quote queue ++ " not found".toList))),
                  effects := created.1 }
              | some _ => queueDeclareReply env ch frame queue created.1
            else
              match env.CreateConsumerGroup request with
              | some err =>
                { result := some (.wrap err "create failed".toList),
                  effects := created.1 ++ [.CreateConsumerGroup request] }
              | none =>
                match env.ConsumerGroupWait namespaceName queue with
                | some err =>
                  { result := some (.wrap err "wait failed".toList),
                    effects := created.1 ++
                      [.CreateConsumerGroup request, .ConsumerGroupWait namespaceName queue] }
                | none =>
                  queueDeclareReply env ch frame queue
                    (created.1 ++
                      [.CreateConsumerGroup request, .ConsumerGroupWait namespaceName queue])

/-- An environment in which every operation succeeds. -/
def queueDeclareEnvOk : QueueDeclareEnv Nat Unit Unit :=
  { defaultExchangeTopicName := "amq.default".toList, defaultReplicationFactor := 3,
    defaultConsumerGroupSize := 1024, ExchangeTypeDirect := "direct".toList,
    quote := fun name => name, errorText := fun _ => [],
    structvalueUint32 := fun _ _ default => .ok default,
    generateUUID := .ok "0000".toList,
    convertClusterBinding := fun binding =>
      { TopicName := binding.TopicName, ExchangeType := "direct".toList, By := binding.By },
    CreateTopic := fun _ => none, CreateConsumerGroup := fun _ => none,
    ConsumerGroupWait := fun _ _ => none, Send := fun _ => none }

/-- An operation that never fails. -/
def deleteTopicOk (_ : TopicDeleteRequest) : Option Unit := none

/-- A transport whose sends never fail. -/
def sendDeleteOk (_ : ExchangeDeleteOk) : Option Unit := none

/-! ## Receiving an AMQP 1.0 frame (`mq/amqp/v1/transport.go`)

`Transport.Receive` reads from the connection into the buffer `t.data`. The connection is
a parameter: `stream` holds the bytes that arrive before the connection ends, so
`io.ReadFull` fails exactly when fewer bytes are left than asked for, and
`setReadDeadline` is the error of `t.conn.SetReadDeadline`. A byte is a number below 256.
`t.data` is only ever made by `make([]byte, n)`, so its capacity is its length, and a slice
expression beyond it panics. The unsigned 32-bit subtractions are written with an explicit
`% 2 ^ 32`. The descriptor constants, `unmarshalUlong` and the frames' `UnmarshalBuffer`
are generated code that is not among the sources; they are parameters: `descriptor kind`
is the constant of a frame kind (`OpenDescriptor`, ...), `unmarshalUlong b buf` yields the
value read and the rest of the buffer, `unmarshalBuffer kind buf` the frame's content and
the rest of the buffer. -/

/-- Go `v1.FrameMeta`. -/
structure v1.FrameMeta where
  Size : Nat := 0
  DataOffset : Nat := 0
  Type_ : Nat := 0
  Channel : Nat := 0
  Payload : List Nat := []
  deriving DecidableEq, Repr

/-- Go `v1.Transport` (the fields `Receive` uses). -/
structure v1.Transport where
  data : List Nat
  frameMax : Nat
  receiveTimeout : Duration := 0
  deriving DecidableEq, Repr

/-- The frame types `Receive` can return, in the order of the cases of its `switch`. -/
inductive v1.FrameKind where
  | Open | Begin | Attach | Flow | Transfer | Disposition | Detach | End | Close
  | SASLMechanisms | SASLInit | SASLChallenge | SASLResponse | SASLOutcome
  deriving DecidableEq, Repr

/-- The cases of `switch descriptor`, in order. -/
def v1.FrameKind.all : List v1.FrameKind :=
  [.Open, .Begin, .Attach, .Flow, .Transfer, .Disposition, .Detach, .End, .Close,
   .SASLMechanisms, .SASLInit, .SASLChallenge, .SASLResponse, .SASLOutcome]

/-- Go `binary.BigEndian.Uint32(b)`. -/
def bigEndianUint32 (b : List Nat) : Nat :=
  b.getD 0 0 % 256 * 2 ^ 24 + b.getD 1 0 % 256 * 2 ^ 16 + b.getD 2 0 % 256 * 2 ^ 8 +
    b.getD 3 0 % 256

/-- Go `binary.BigEndian.Uint16(b)`. -/
def bigEndianUint16 (b : List Nat) : Nat :=
  b.getD 0 0 % 256 * 2 ^ 8 + b.getD 1 0 % 256

/-- Lines 101-105 of `Receive`: the frame header decoded from `t.data[:8]`. -/
def decodeFrameMeta (data : List Nat) : v1.FrameMeta :=
  { Size := bigEndianUint32 (data.take 4),
    DataOffset := data.getD 4 0 % 256,
    Type_ := data.getD 5 0 % 256,
    Channel := bigEndianUint16 ((data.drop 6).take 2) }

/-- Go `a - b` on `uint32` operands. -/
def sub32 (a b : Nat) : Nat := (a + 2 ^ 32 - b) % 2 ^ 32

/-- The errors of reading past the end: `io.EOF` and `io.ErrUnexpectedEOF`. -/
inductive ReadError where
  | EOF
  | ErrUnexpectedEOF
  deriving DecidableEq, Repr

/-- Go `io.ReadFull(t.rw, buf)` with `len(buf) = n`: the bytes read and the bytes left. -/
def readFull (stream : List Nat) (n : Nat) : Except ReadError (List Nat × List Nat) :=
  if n ≤ stream.length then .ok (stream.take n, stream.drop n)
  else if stream = [] then .error .EOF
  else .error .ErrUnexpectedEOF

/-- The non-nil errors of `Receive`: an error wrapped by `errors.Wrap(err, text)`, its cause
being an error of the connection or the decoders, or the end of the input; and the two
error values of the package. -/
inductive ReceiveError (E : Type) where
  | wrap (text : GoString) (cause : E)
  | wrapRead (text : GoString) (cause : ReadError)
  | ErrFrameTooBig
  | ErrMalformedFrame
  deriving DecidableEq, Repr

/-- What `Receive` returns: a frame of some kind with its meta and its content, an error, or
the run-time panic of a slice expression out of range. -/
inductive ReceiveResult (F E : Type) where
  | frame (kind : v1.FrameKind) (frameMeta : v1.FrameMeta) (content : F)
  | error (err : ReceiveError E)
  | panic
  deriving DecidableEq, Repr

/-- The effects of a `Receive` call: what it returns, the transport and the input
afterwards, and the slice handed to `bytes.NewBuffer` when the call gets there. -/
structure ReceiveOutcome (F E : Type) where
  result : ReceiveResult F E
  transport : v1.Transport
  stream : List Nat
  buffer : Option (List Nat) := none
  deriving DecidableEq, Repr

/-- Lines 127-188 of `Receive`: the descriptor and the frame read from `buf`. -/
def receiveBody {F E : Type} (descriptor : v1.FrameKind → Nat)
    (unmarshalUlong : Nat → List Nat → Except E (Nat × List Nat))
    (unmarshalBuffer : v1.FrameKind → List Nat → Except E (F × List Nat))
    (frameMeta : v1.FrameMeta) : List Nat → ReceiveResult F E
  | [] => .error (.wrapRead "read descriptor failed".toList .EOF)
  | b :: buf =>
    if b ≠ 0 then .error .ErrMalformedFrame
    else
      match buf with
      | [] => .error (.wrapRead "read descriptor failed".toList .EOF)
      | b :: buf =>
        match unmarshalUlong b buf with
        | .error err => .error (.wrap "read descriptor failed".toList err)
        | .ok (code, buf) =>
          match v1.FrameKind.all.find? (fun kind => decide (descriptor kind = code)) with
          | none => .error .ErrMalformedFrame
          | some kind =>
            match unmarshalBuffer kind buf with
            | .error err => .error (.wrap "unmarshal failed".toList err)
            | .ok (content, buf) => .frame kind { frameMeta with Payload := buf } content

/-- Lines 113-115 of `Receive`: the buffer is replaced by a new one of `dataSize` bytes
when it is shorter than that. -/
def v1.Transport.grow (t : v1.Transport) (dataSize : Nat) : v1.Transport :=
  if t.data.length % 2 ^ 32 < dataSize then { t with data := List.replicate dataSize 0 }
  else t

/-- Lines 107-191 of `Receive`: what follows the decoding of the header into `frameMeta`. -/
def receiveFrame {F E : Type} (descriptor : v1.FrameKind → Nat)
    (unmarshalUlong : Nat → List Nat → Except E (Nat × List Nat))
    (unmarshalBuffer : v1.FrameKind → List Nat → Except E (F × List Nat))
    (t : v1.Transport) (frameMeta : v1.FrameMeta) (stream : List Nat) : ReceiveOutcome F E :=
  if frameMeta.Size > t.frameMax then
    { result := .error .ErrFrameTooBig, transport := t, stream := stream }
  else
    let dataSize := sub32 frameMeta.Size 8
    let t : v1.Transport := t.grow dataSize
    if t.data.length < dataSize then { result := .panic, transport := t, stream := stream }
    else
      match readFull stream dataSize with
      | .error err =>
        { result := .error (.wrapRead "read frame content failed".toList err),
          transport := { t with data := stream ++ t.data.drop stream.length }, stream := [] }
      | .ok (content, stream) =>
        let t : v1.Transport := { t with data := content ++ t.data.drop dataSize }
        if frameMeta.Type_ = 0 ∨ frameMeta.Type_ = 1 then
          let bodySize := sub32 dataSize (sub32 (4 * frameMeta.DataOffset % 2 ^ 32) 8)
          if t.data.length < bodySize then
            { result := .panic, transport := t, stream := stream }
          else
            { result := receiveBody descriptor unmarshalUlong unmarshalBuffer frameMeta
                (t.data.take bodySize),
              transport := t, stream := stream, buffer := some (t.data.take bodySize) }
        else
          { result := .error .ErrMalformedFrame, transport := t, stream := stream }

/-- Go `Transport.Receive()`. -/
def v1.Transport.Receive {F E : Type} (descriptor : v1.FrameKind → Nat)
    (unmarshalUlong : Nat → List Nat → Except E (Nat × List Nat))
    (unmarshalBuffer : v1.FrameKind → List Nat → Except E (F × List Nat))
    (setReadDeadline : Option E) (t : v1.Transport) (stream : List Nat) :
    ReceiveOutcome F E :=
  match (if t.receiveTimeout ≠ 0 then setReadDeadline else none) with
  | some err =>
    { result := .error (.wrap "set read deadline failed".toList err), transport := t,
      stream := stream }
  | none =>
    if t.data.length < 8 then { result := .panic, transport := t, stream := stream }
    else
      match readFull stream 8 with
      | .error err =>
        { result := .error (.wrapRead "read frame header failed".toList err),
          transport := { t with data := stream ++ t.data.drop stream.length }, stream := [] }
      | .ok (header, stream) =>
        let t : v1.Transport := { t with data := header ++ t.data.drop 8 }
        receiveFrame descriptor unmarshalUlong unmarshalBuffer t (decodeFrameMeta t.data) stream

/-- Descriptor constants for the examples: the codes 16 to 24 and 64 to 68, in the order of
the frame kinds. -/
def sampleDescriptor : v1.FrameKind → Nat
  | .Open => 16 | .Begin => 17 | .Attach => 18 | .Flow => 19 | .Transfer => 20
  | .Disposition => 21 | .Detach => 22 | .End => 23 | .Close => 24
  | .SASLMechanisms => 64 | .SASLInit => 65 | .SASLChallenge => 66 | .SASLResponse => 67
  | .SASLOutcome => 68

/-- A decoder for the examples: the value is the byte after the constructor. -/
def sampleUnmarshalUlong (_ : Nat) : List Nat → Except Unit (Nat × List Nat)
  | [] => .error ()
  | value :: buf => .ok (value, buf)

/-- A frame decoder for the examples: the content is all of the buffer. -/
def sampleUnmarshalBuffer (_ : v1.FrameKind) (buf : List Nat) :
    Except Unit (List Nat × List Nat) := .ok (buf, [])

/-- A transport whose buffer of 16 bytes holds the byte 7 everywhere, left from earlier
frames, with the frame maximum 512. -/
def staleTransport : v1.Transport := { data := List.replicate 16 7, frameMax := 512 }

/-! ## Loop characterisations -/

theorem directLoop_iff {V : Type} (topicName routingKey : GoString)
    (bindings : List (ClusterConsumerGroup_Binding V)) :
    directLoop topicName routingKey bindings = true ↔
      ∃ binding ∈ bindings, binding.TopicName = topicName ∧
        binding.By = BindingBy.RoutingKey routingKey := by
  induction bindings with
  | nil => simp [directLoop]
  | cons b bs ih =>
    rw [directLoop]
    by_cases hn : b.TopicName = topicName
    · cases hby : b.By with
      | RoutingKey k =>
        by_cases hk : k = routingKey
        · simp [hn, hby, hk]
        · simp [hn, hby, hk, ih]
      | none => simp [hn, hby, ih]
      | HeadersAll s => simp [hn, hby, ih]
      | HeadersAny s => simp [hn, hby, ih]
    · simp [hn, ih]

theorem topicLoop_iff {V : Type} (topicName routingKey : GoString)
    (bindings : List (ClusterConsumerGroup_Binding V)) :
    topicLoop topicName routingKey bindings = true ↔
      ∃ binding ∈ bindings, binding.TopicName = topicName ∧
        ∃ k, binding.By = BindingBy.RoutingKey k ∧ routingKeyMatches k routingKey = true := by
  induction bindings with
  | nil => simp [topicLoop]
  | cons b bs ih =>
    rw [topicLoop]
    by_cases hn : b.TopicName = topicName
    · cases hby : b.By with
      | RoutingKey k =>
        by_cases hk : routingKeyMatches k routingKey = true
        · simp [hn, hby, hk]
        · simp [hn, hby, hk, ih]
      | none => simp [hn, hby, ih]
      | HeadersAll s => simp [hn, hby, ih]
      | HeadersAny s => simp [hn, hby, ih]
    · simp [hn, ih]

/-! ## `messageMatches` by topic type -/

/-- C1: for a DIRECT topic and a message not older than the consumer group,
`messageMatches` returns true if and only if some binding of the group names the topic
and carries a RoutingKey clause equal to the message's routing key; otherwise it
returns false. -/
theorem C1_direct_matches_iff {V : Type} (deepEqual : V → V → Bool) (message : Message V)
    (messageTime : Time) (topic : ClusterTopic) (consumerGroup : ClusterConsumerGroup V)
    (hType : topic.Type_ = TopicType.DIRECT)
    (hTime : consumerGroup.CreatedAt ≤ messageTime) :
    (messageMatches deepEqual message messageTime topic consumerGroup = some true ↔
      ∃ binding ∈ consumerGroup.Bindings, binding.TopicName = topic.Name ∧
        binding.By = BindingBy.RoutingKey message.RoutingKey) ∧
    (messageMatches deepEqual message messageTime topic consumerGroup = some true ∨
      messageMatches deepEqual message messageTime topic consumerGroup = some false) := by
  have hb : Time.Before messageTime consumerGroup.CreatedAt = false := by
    simp [Time.Before, hTime]
  simp only [messageMatches, hb, hType, Option.some.injEq, Bool.false_eq_true, if_false]
  refine ⟨directLoop_iff _ _ _, ?_⟩
  cases directLoop topic.Name message.RoutingKey consumerGroup.Bindings <;> simp

/-- C1 instance: routing key `a.b` bound on topic `t`, message at instant 10. -/
theorem C1_direct_matches_iff_witness :
    (topicT TopicType.DIRECT).Type_ = TopicType.DIRECT ∧
    (groupWith [⟨"t".toList, BindingBy.RoutingKey "a.b".toList⟩]).CreatedAt ≤ (10 : Time) ∧
    messageMatches natDeepEqual sampleMessage 10 (topicT TopicType.DIRECT)
      (groupWith [⟨"t".toList, BindingBy.RoutingKey "a.b".toList⟩]) = some true :=
  ⟨rfl, by decide,
    (C1_direct_matches_iff natDeepEqual sampleMessage 10 (topicT TopicType.DIRECT)
      (groupWith [⟨"t".toList, BindingBy.RoutingKey "a.b".toList⟩]) rfl (by decide)).1.2
      ⟨_, List.mem_singleton.2 rfl, rfl, rfl⟩⟩

/-- C2: for a TOPIC topic and a message not older than the consumer group,
`messageMatches` returns true if and only if some binding of the group names the topic
and carries a RoutingKey clause `k` with `routingKeyMatches k routingKey`; otherwise it
returns false. -/
theorem C2_topic_matches_iff {V : Type} (deepEqual : V → V → Bool) (message : Message V)
    (messageTime : Time) (topic : ClusterTopic) (consumerGroup : ClusterConsumerGroup V)
    (hType : topic.Type_ = TopicType.TOPIC)
    (hTime : consumerGroup.CreatedAt ≤ messageTime) :
    (messageMatches deepEqual message messageTime topic consumerGroup = some true ↔
      ∃ binding ∈ consumerGroup.Bindings, binding.TopicName = topic.Name ∧
        ∃ k, binding.By = BindingBy.RoutingKey k ∧
          routingKeyMatches k message.RoutingKey = true) ∧
    (messageMatches deepEqual message messageTime topic consumerGroup = some true ∨
      messageMatches deepEqual message messageTime topic consumerGroup = some false) := by
  have hb : Time.Before messageTime consumerGroup.CreatedAt = false := by
    simp [Time.Before, hTime]
  simp only [messageMatches, hb, hType, Option.some.injEq, Bool.false_eq_true, if_false]
  refine ⟨topicLoop_iff _ _ _, ?_⟩
  cases topicLoop topic.Name message.RoutingKey consumerGroup.Bindings <;> simp

/-- C2 instance: pattern `a.*` bound on topic `t`, message with key `a.b`. -/
theorem C2_topic_matches_iff_witness :
    (topicT TopicType.TOPIC).Type_ = TopicType.TOPIC ∧
    (groupWith [⟨"t".toList, BindingBy.RoutingKey "a.*".toList⟩]).CreatedAt ≤ (11 : Time) ∧
    messageMatches natDeepEqual sampleMessage 11 (topicT TopicType.TOPIC)
      (groupWith [⟨"t".toList, BindingBy.RoutingKey "a.*".toList⟩]) = some true :=
  ⟨rfl, by decide,
    (C2_topic_matches_iff natDeepEqual sampleMessage 11 (topicT TopicType.TOPIC)
      (groupWith [⟨"t".toList, BindingBy.RoutingKey "a.*".toList⟩]) rfl (by decide)).1.2
      ⟨_, List.mem_singleton.2 rfl, rfl, _, rfl, by
        show routingKeyMatches "a.*".toList "a.b".toList = true
        repeat
          (rw [routingKeyMatches];
           simp [indexByte, patternSeparator, patternWildcard, patternZeroOrMore])⟩⟩

/-- C3 (as stated, refuted): for a FANOUT topic `t` and a group whose only binding names
another topic `u`, `messageMatches` returns true although no binding names `t`. -/
theorem C3_counterexample :
    ¬ (messageMatches natDeepEqual sampleMessage 10 (topicT TopicType.FANOUT)
          (groupWith [⟨"u".toList, BindingBy.none⟩]) = some true ↔
        ∃ binding ∈ (groupWith [⟨"u".toList, BindingBy.none⟩]).Bindings,
          binding.TopicName = (topicT TopicType.FANOUT).Name) := by
  intro h
  have hm : messageMatches natDeepEqual sampleMessage 10 (topicT TopicType.FANOUT)
      (groupWith [⟨"u".toList, BindingBy.none⟩]) = some true := by decide
  obtain ⟨b, hb, hn⟩ := h.1 hm
  simp only [groupWith, List.mem_singleton] at hb
  subst hb
  revert hn
  decide

/-- C3 (amended): for a FANOUT topic and a message not older than the consumer group,
`messageMatches` returns true whatever the group's bindings are. -/
theorem C3_fanout_always_matches {V : Type} (deepEqual : V → V → Bool) (message : Message V)
    (messageTime : Time) (topic : ClusterTopic) (consumerGroup : ClusterConsumerGroup V)
    (hType : topic.Type_ = TopicType.FANOUT)
    (hTime : consumerGroup.CreatedAt ≤ messageTime) :
    messageMatches deepEqual message messageTime topic consumerGroup = some true := by
  have hb : Time.Before messageTime consumerGroup.CreatedAt = false := by
    simp [Time.Before, hTime]
  simp [messageMatches, hb, hType]

/-- C3 instance: a FANOUT topic and a group without bindings. -/
theorem C3_fanout_always_matches_witness :
    (topicT TopicType.FANOUT).Type_ = TopicType.FANOUT ∧
    (groupWith []).CreatedAt ≤ (12 : Time) ∧
    messageMatches natDeepEqual sampleMessage 12 (topicT TopicType.FANOUT) (groupWith []) =
      some true :=
  ⟨rfl, by decide,
    C3_fanout_always_matches natDeepEqual sampleMessage 12 (topicT TopicType.FANOUT)
      (groupWith []) rfl (by decide)⟩

/-- C4 (failing input): headers `x = 1`, topic `t` of type HEADERS, bindings
`[HeadersAny {y = 2}, HeadersAll {x = 1}]` on `t`. The HeadersAll binding matches, yet
`messageMatches` returns false, because the HeadersAny binding that does not match ends
the scan; with the two bindings swapped it returns true. -/
theorem C4_headers_any_stops_scan :
    messageMatches natDeepEqual sampleMessage 10 (topicT TopicType.HEADERS)
      (groupWith [⟨"t".toList, BindingBy.HeadersAny ⟨some [("y".toList, 2)]⟩⟩,
                  ⟨"t".toList, BindingBy.HeadersAll ⟨some [("x".toList, 1)]⟩⟩]) = some false ∧
    bindingMatchesHeaders natDeepEqual [("x".toList, 1)]
      (BindingBy.HeadersAll ⟨some [("x".toList, 1)]⟩) ∧
    messageMatches natDeepEqual sampleMessage 10 (topicT TopicType.HEADERS)
      (groupWith [⟨"t".toList, BindingBy.HeadersAll ⟨some [("x".toList, 1)]⟩⟩,
                  ⟨"t".toList, BindingBy.HeadersAny ⟨some [("y".toList, 2)]⟩⟩]) = some true := by
  refine ⟨by decide, ?_, by decide⟩
  intro p hp
  simp only [Struct.entries, Option.getD_some, List.mem_singleton] at hp
  subst hp
  exact ⟨1, by decide, by decide⟩

/-- C5: whatever the topic type, bindings, routing key and headers are, a message whose
time is strictly earlier than the group's creation time is rejected:
`messageMatches` returns false. -/
theorem C5_older_message_rejected {V : Type} (deepEqual : V → V → Bool) (message : Message V)
    (messageTime : Time) (topic : ClusterTopic) (consumerGroup : ClusterConsumerGroup V)
    (hTime : messageTime < consumerGroup.CreatedAt) :
    messageMatches deepEqual message messageTime topic consumerGroup = some false := by
  simp [messageMatches, Time.Before, hTime]

/-- C5 instance: a FANOUT topic, a group created at instant 10, a message at instant 9. -/
theorem C5_older_message_rejected_witness :
    (9 : Time) < (groupWith [⟨"t".toList, BindingBy.none⟩]).CreatedAt ∧
    messageMatches natDeepEqual sampleMessage 9 (topicT TopicType.FANOUT)
      (groupWith [⟨"t".toList, BindingBy.none⟩]) = some false :=
  ⟨by decide,
    C5_older_message_rejected natDeepEqual sampleMessage 9 (topicT TopicType.FANOUT)
      (groupWith [⟨"t".toList, BindingBy.none⟩]) (by decide)⟩

/-! ## Routing scenarios -/

/-- C7: `routingKeyMatches` agrees with the first seven rows of the routing-scenario
table: `a.b.c` matches `a.b.c`; `a.*.c` matches `a.b.c` and not `a.c`; `a.#` matches
`a.b.c.d`; `a.#.d` matches `a.d`; `#` matches the empty key and `a.b`. -/
theorem C7_routing_scenarios :
    routingKeyMatches "a.b.c".toList "a.b.c".toList = true ∧
    routingKeyMatches "a.*.c".toList "a.b.c".toList = true ∧
    routingKeyMatches "a.*.c".toList "a.c".toList = false ∧
    routingKeyMatches "a.#".toList "a.b.c.d".toList = true ∧
    routingKeyMatches "a.#.d".toList "a.d".toList = true ∧
    routingKeyMatches "#".toList "".toList = true ∧
    routingKeyMatches "#".toList "a.b".toList = true := by
  refine ⟨?_, ?_, ?_, ?_, ?_, ?_, ?_⟩ <;>
  repeat (first
    | (rw [routingKeyMatches];
       simp [indexByte, patternSeparator, patternWildcard, patternZeroOrMore])
    | (rw [zeroOrMoreLoop];
       simp [indexByte, patternSeparator, patternWildcard, patternZeroOrMore]))

/-- C8 (as stated, refuted): the claim says `routingKeyMatches("a.", "a")` is false; the
code returns true, because after the literal segment `a` the rest of the pattern is
empty and the empty pattern matches the exhausted key. -/
theorem C8_counterexample : ¬ (routingKeyMatches "a.".toList "a".toList = false) := by
  rw [routingKeyMatches]
  simp [indexByte, patternSeparator, patternWildcard, patternZeroOrMore]
  rw [routingKeyMatches]
  simp

/-- C8 (amended): the pattern `a.` matches the routing key `a`; it is the routing key
`a.` (trailing dot in the key) that does not match the pattern `a`. -/
theorem C8_trailing_dot_pattern_matches :
    routingKeyMatches "a.".toList "a".toList = true ∧
    routingKeyMatches "a".toList "a.".toList = false := by
  refine ⟨?_, ?_⟩ <;>
  repeat
    (rw [routingKeyMatches];
     simp [indexByte, patternSeparator, patternWildcard, patternZeroOrMore])

/-- C10 (failing input): the pattern `*.b` matches the routing key `.b`, whose first
dot-separated segment is empty: the `*` branch tests the key for emptiness only when it
contains no separator. -/
theorem C10_wildcard_accepts_empty_segment :
    routingKeyMatches ("*.".toList ++ "b".toList) ".b".toList = true ∧
    ".b".toList.head? = some patternSeparator := by
  refine ⟨?_, by decide⟩
  repeat
    (rw [routingKeyMatches];
     simp [indexByte, patternSeparator, patternWildcard, patternZeroOrMore])

/-! ## Trailing separators and the `#` pattern -/

theorem indexByte_lt {s : GoString} {c : Char} {j : Nat} (h : indexByte s c = some j) :
    j < s.length := by
  induction s generalizing j with
  | nil => simp [indexByte] at h
  | cons b s ih =>
    simp only [indexByte] at h
    split at h
    · cases h; simp
    · cases hs : indexByte s c with
      | none => simp [hs] at h
      | some k =>
        simp only [hs, Option.map_some', Option.some.injEq] at h
        subst h
        have := ih hs
        simp only [List.length_cons]; omega

theorem indexByte_getElem? {s : GoString} {c : Char} {j : Nat} (h : indexByte s c = some j) :
    s[j]? = some c := by
  induction s generalizing j with
  | nil => simp [indexByte] at h
  | cons b s ih =>
    simp only [indexByte] at h
    split at h
    · cases h; simp_all
    · cases hs : indexByte s c with
      | none => simp [hs] at h
      | some k =>
        simp only [hs, Option.map_some', Option.some.injEq] at h
        subst h
        simpa using ih hs

theorem indexByte_none_not_mem {s : GoString} {c : Char} (h : indexByte s c = none) :
    c ∉ s := by
  induction s with
  | nil => simp
  | cons b s ih =>
    simp only [indexByte] at h
    split at h
    · cases h
    · rename_i hbc
      simp only [Option.map_eq_none'] at h
      simp only [List.mem_cons, not_or]
      exact ⟨fun e => hbc e.symm, ih h⟩

theorem endsWithByte_indexByte_ne_none {s : GoString} {c : Char} (h : endsWithByte s c) :
    indexByte s c ≠ none := by
  intro hn
  obtain ⟨ys, rfl⟩ := List.getLast?_eq_some_iff.1 h
  exact indexByte_none_not_mem hn (by simp)

theorem endsWithByte_drop {s : GoString} {c : Char} {n : Nat} (h : s.drop n ≠ []) :
    endsWithByte (s.drop n) c ↔ endsWithByte s c := by
  unfold endsWithByte
  rw [List.getLast?_drop]
  have : ¬ s.length ≤ n := fun hle => h (List.drop_eq_nil_iff.2 hle)
  simp [this]

theorem endsWithByte_of_drop_nil {s : GoString} {c : Char} {j : Nat}
    (hj : indexByte s c = some j) (h : s.drop (j + 1) = []) : endsWithByte s c := by
  unfold endsWithByte
  have hlt := indexByte_lt hj
  have hle := List.drop_eq_nil_iff.1 h
  have hlen : s.length - 1 = j := by omega
  rw [List.getLast?_eq_getElem?, hlen]
  exact indexByte_getElem? hj

theorem not_endsWithByte_nil (c : Char) : ¬ endsWithByte [] c := by
  simp [endsWithByte]

theorem trailing_dot_aux : ∀ pattern routingKey : GoString,
    endsWithByte routingKey patternSeparator → routingKeyMatches pattern routingKey = false := by
  apply routingKeyMatches.induct
    (fun pattern routingKey =>
      endsWithByte routingKey patternSeparator → routingKeyMatches pattern routingKey = false)
    (fun rest routingKey =>
      endsWithByte routingKey patternSeparator → zeroOrMoreLoop rest routingKey = false)
  all_goals intros
  all_goals have hne := endsWithByte_indexByte_ne_none ‹endsWithByte _ patternSeparator›
  all_goals (first | rw [routingKeyMatches] | rw [zeroOrMoreLoop])
  all_goals simp_all [endsWithByte_drop]
  all_goals rintro rfl
  · exact hne rfl
  · exact hne ‹indexByte _ _ = none›

theorem zeroOrMore_aux : ∀ pattern routingKey : GoString, pattern = patternZeroOrMore →
    (routingKeyMatches pattern routingKey = true ↔ ¬ endsWithByte routingKey patternSeparator) := by
  apply routingKeyMatches.induct
    (fun pattern routingKey => pattern = patternZeroOrMore →
      (routingKeyMatches pattern routingKey = true ↔
        ¬ endsWithByte routingKey patternSeparator))
    (fun _ _ => True)
  all_goals intros
  all_goals (try trivial)
  all_goals (try (rename_i hp; subst hp))
  all_goals first
    | exact absurd ‹indexByte patternZeroOrMore patternSeparator = some _›
        (by simp [indexByte, patternZeroOrMore, patternSeparator])
    | skip
  all_goals rw [routingKeyMatches]
  · simp_all
    exact fun h => endsWithByte_indexByte_ne_none h (by assumption)
  · have he := endsWithByte_of_drop_nil ‹indexByte _ patternSeparator = some _› ‹_ = []›
    simp_all
  · simp_all [endsWithByte_drop]

/-- C6: for every pattern and every routing key that ends with the separator `.`,
`routingKeyMatches pattern routingKey` is false: a trailing dot is never treated as a
zero-length final segment. -/
theorem C6_trailing_dot_key_never_matches (pattern routingKey : GoString)
    (h : endsWithByte routingKey '.') : routingKeyMatches pattern routingKey = false :=
  trailing_dot_aux pattern routingKey h

/-- C6 instance: the key `a.` does not match the pattern `a`. -/
theorem C6_trailing_dot_key_never_matches_witness :
    endsWithByte "a.".toList '.' ∧ routingKeyMatches "a".toList "a.".toList = false :=
  ⟨by decide, C6_trailing_dot_key_never_matches "a".toList "a.".toList (by decide)⟩

theorem joinSegments_getLast? (segments : List GoString) (last : GoString) (h : last ≠ []) :
    (joinSegments (segments ++ [last])).getLast? = last.getLast? := by
  induction segments with
  | nil => simp [joinSegments]
  | cons s ss ih =>
    cases hss : ss ++ [last] with
    | nil => simp at hss
    | cons t ts =>
      rw [hss] at ih
      have hne : joinSegments (t :: ts) ≠ [] := by
        intro hnil
        rw [hnil] at ih
        exact h (List.getLast?_eq_none_iff.1 ih.symm)
      rw [List.cons_append, hss, joinSegments,
        List.getLast?_append_of_ne_nil _ (List.cons_ne_nil _ _)]
      obtain ⟨c, cs, hc⟩ := List.exists_cons_of_ne_nil hne
      rw [hc, List.getLast?_cons_cons, ← hc, ih]

/-- C9: the pattern `#` matches a routing key exactly when the key does not end with
`.`; so it matches the empty key and every key made of one or more dot-separated
segments (the last one non-empty). -/
theorem C9_zero_or_more_matches_iff (routingKey : GoString) :
    (routingKeyMatches "#".toList routingKey = true ↔ ¬ endsWithByte routingKey '.') ∧
    routingKeyMatches "#".toList [] = true ∧
    ∀ (segments : List GoString) (last : GoString), last ≠ [] → '.' ∉ last →
      routingKeyMatches "#".toList (joinSegments (segments ++ [last])) = true := by
  have h := zeroOrMore_aux "#".toList
  refine ⟨h routingKey rfl, (h [] rfl).2 (not_endsWithByte_nil _), ?_⟩
  intro segments last hne hdot
  refine (h _ rfl).2 (fun he => hdot ?_)
  unfold endsWithByte at he
  rw [joinSegments_getLast? segments last hne] at he
  obtain ⟨ys, rfl⟩ := List.getLast?_eq_some_iff.1 he
  simp [patternSeparator]

/-- C9 instance: `#` matches the key `a.b`, made of the segments `a` and `b`. -/
theorem C9_zero_or_more_matches_iff_witness :
    routingKeyMatches "#".toList "a.b".toList = true :=
  (C9_zero_or_more_matches_iff []).2.2 ["a".toList] "b".toList (by decide) (by decide)

/-! ## Literal patterns -/

theorem splitSegments_ne_nil (s : GoString) : splitSegments s ≠ [] := by
  cases s with
  | nil => simp [splitSegments]
  | cons c s =>
    simp only [splitSegments]
    split
    · simp
    · split <;> simp

theorem splitSegments_of_indexByte_none {s : GoString}
    (h : indexByte s patternSeparator = none) : splitSegments s = [s] := by
  induction s with
  | nil => rfl
  | cons c s ih =>
    simp only [indexByte] at h
    split at h
    · cases h
    · rename_i hc
      simp only [Option.map_eq_none'] at h
      simp [splitSegments, hc, ih h]

theorem splitSegments_of_indexByte_some {s : GoString} {i : Nat}
    (h : indexByte s patternSeparator = some i) :
    splitSegments s = s.take i :: splitSegments (s.drop (i + 1)) := by
  induction s generalizing i with
  | nil => simp [indexByte] at h
  | cons c s ih =>
    simp only [indexByte] at h
    split at h
    · rename_i hc
      cases h
      simp [splitSegments, hc]
    · rename_i hc
      cases hs : indexByte s patternSeparator with
      | none => simp [hs] at h
      | some k =>
        simp only [hs, Option.map_some', Option.some.injEq] at h
        subst h
        simp [splitSegments, hc, ih hs]

theorem indexByte_split {s : GoString} {c : Char} {j : Nat} (h : indexByte s c = some j) :
    s = s.take j ++ c :: s.drop (j + 1) := by
  have hlt := indexByte_lt h
  have hget := indexByte_getElem? h
  rw [List.getElem?_eq_getElem hlt] at hget
  have hc : s[j] = c := Option.some.inj hget
  conv_lhs => rw [← List.take_append_drop j s, List.drop_eq_getElem_cons hlt, hc]


theorem isLiteralPattern_of_indexByte_none {p : GoString} (hlit : isLiteralPattern p)
    (h : indexByte p patternSeparator = none) :
    p ≠ patternWildcard ∧ p ≠ patternZeroOrMore := by
  obtain ⟨hw, hz, _⟩ := hlit
  rw [splitSegments_of_indexByte_none h] at hw hz
  simp only [List.mem_singleton] at hw hz
  exact ⟨fun e => hw e.symm, fun e => hz e.symm⟩

theorem isLiteralPattern_of_indexByte_some {p : GoString} {i : Nat} (hlit : isLiteralPattern p)
    (h : indexByte p patternSeparator = some i) :
    p.take i ≠ patternWildcard ∧ p.take i ≠ patternZeroOrMore ∧
      isLiteralPattern (p.drop (i + 1)) ∧ p.drop (i + 1) ≠ [] := by
  obtain ⟨hw, hz, he⟩ := hlit
  rw [splitSegments_of_indexByte_some h] at hw hz
  simp only [List.mem_cons, not_or] at hw hz
  have hne : p.drop (i + 1) ≠ [] := fun hnil => he (endsWithByte_of_drop_nil h hnil)
  refine ⟨fun e => hw.1 e.symm, fun e => hz.1 e.symm, ⟨hw.2, hz.2, ?_⟩, hne⟩
  rw [endsWithByte_drop hne]
  exact he

theorem literal_aux : ∀ pattern routingKey : GoString, isLiteralPattern pattern →
    (routingKeyMatches pattern routingKey = true ↔ routingKey = pattern) := by
  apply routingKeyMatches.induct
    (fun pattern routingKey => isLiteralPattern pattern →
      (routingKeyMatches pattern routingKey = true ↔ routingKey = pattern))
    (fun _ _ => True)
  all_goals intros
  all_goals (try trivial)
  all_goals (try (have hn := isLiteralPattern_of_indexByte_none ‹isLiteralPattern _›
                    ‹indexByte _ patternSeparator = none›))
  all_goals (try (have hs := isLiteralPattern_of_indexByte_some ‹isLiteralPattern _›
                    ‹indexByte _ patternSeparator = some _›))
  all_goals (try (exfalso; simp_all; done))
  · rw [routingKeyMatches]; simp
  · rw [routingKeyMatches]; simp_all
  · rename_i pattern routingKey hp i hi hw hz hj ih hlit
    have hfalse : routingKeyMatches (List.drop (i + 1) pattern) [] = false := by
      cases hr : routingKeyMatches (List.drop (i + 1) pattern) [] with
      | false => rfl
      | true => exact absurd ((ih hs.2.2.1).1 hr).symm hs.2.2.2
    have hne : routingKey ≠ pattern := by
      rintro rfl
      rw [hi] at hj
      cases hj
    rw [routingKeyMatches]
    simp [hp, hi, hw, hz, hj, hfalse, hne]
  · rename_i pattern routingKey hp i hi hw hz j hj hne hlit
    have hkp : routingKey ≠ pattern := by
      rintro rfl
      rw [hi] at hj
      cases hj
      exact hne rfl
    rw [routingKeyMatches]
    simp [hp, hi, hw, hz, hj, hne, hkp]
  · rename_i pattern routingKey hp i hi hw hz j hj heq hnil hlit
    have hkp : routingKey ≠ pattern := by
      rintro rfl
      exact hlit.2.2 (endsWithByte_of_drop_nil hj hnil)
    rw [routingKeyMatches]
    simp [hp, hi, hw, hz, hj, hnil, hkp]
  · rename_i pattern routingKey hp i hi hw hz j hj heq hnil ih hlit
    have heq2 : List.take j routingKey = List.take i pattern := not_not.1 heq
    have hiff : List.drop (j + 1) routingKey = List.drop (i + 1) pattern ↔
        routingKey = pattern := by
      constructor
      · intro hd
        rw [indexByte_split hj, indexByte_split hi, heq2, hd]
      · rintro rfl
        rw [hi] at hj
        cases hj
        rfl
    rw [routingKeyMatches]
    simp [hp, hi, hw, hz, hj, hnil, heq2, ih hs.2.2.1, hiff]

/-- C11: literal patterns match byte-exact. For every pattern none of whose dot-separated
segments is `*` or `#` and which does not end with `.`, and for every routing key,
`routingKeyMatches pattern routingKey` is true if and only if the key equals the pattern;
in particular the empty pattern matches the empty routing key only. -/
theorem C11_literal_pattern_matches_iff (pattern routingKey : GoString)
    (h : isLiteralPattern pattern) :
    (routingKeyMatches pattern routingKey = true ↔ routingKey = pattern) ∧
    (routingKeyMatches [] routingKey = true ↔ routingKey = []) := by
  refine ⟨literal_aux pattern routingKey h, ?_⟩
  rw [routingKeyMatches]
  simp

/-- C11 instance: the literal pattern `a.b` matches the key `a.b`. -/
theorem C11_literal_pattern_matches_iff_witness :
    isLiteralPattern "a.b".toList ∧ routingKeyMatches "a.b".toList "a.b".toList = true :=
  ⟨by decide,
    (C11_literal_pattern_matches_iff "a.b".toList "a.b".toList (by decide)).1.2 rfl⟩

/-! ## HEADERS topics with HeadersAll bindings -/

theorem headersAllLoop_iff {V : Type} (deepEqual : V → V → Bool) (got expected : List (GoString × V)) :
    headersAllLoop deepEqual got expected = true ↔
      ∀ p ∈ expected, ∃ g, got.lookup p.1 = some g ∧ deepEqual p.2 g = true := by
  induction expected with
  | nil => simp [headersAllLoop]
  | cons p ps ih =>
    obtain ⟨name, value⟩ := p
    rw [headersAllLoop]
    rw [List.forall_mem_cons, ← ih]
    cases hl : got.lookup name with
    | none => simp
    | some g =>
      cases hd : deepEqual value g with
      | false => simp [hd]
      | true => simp [hd]

theorem headersLoop_all_iff {V : Type} (deepEqual : V → V → Bool) (topicName : GoString)
    (got : List (GoString × V)) (bindings : List (ClusterConsumerGroup_Binding V))
    (hAll : ∀ b ∈ bindings, b.TopicName = topicName → ∃ s, b.By = BindingBy.HeadersAll s) :
    headersLoop deepEqual topicName got bindings = true ↔
      ∃ b ∈ bindings, b.TopicName = topicName ∧ ∃ s, b.By = BindingBy.HeadersAll s ∧
        ∀ p ∈ s.entries, ∃ g, got.lookup p.1 = some g ∧ deepEqual p.2 g = true := by
  induction bindings with
  | nil =>
    rw [headersLoop]
    constructor
    · intro h
      cases h
    · rintro ⟨b, hb, _⟩
      cases hb
  | cons b bs ih =>
    have ih' := ih (fun b' hb' => hAll b' (List.mem_cons_of_mem _ hb'))
    rw [headersLoop]
    by_cases hn : b.TopicName = topicName
    · obtain ⟨s, hs⟩ := hAll b (List.mem_cons_self _ _) hn
      by_cases hm : headersAllLoop deepEqual got s.entries = true
      · have hm' := (headersAllLoop_iff deepEqual got s.entries).1 hm
        simp only [hn, hs, hm, ne_eq, not_true_eq_false, if_false, if_true, true_iff]
        exact ⟨b, List.mem_cons_self _ _, hn, s, hs, hm'⟩
      · have hm' := mt (headersAllLoop_iff deepEqual got s.entries).2 hm
        simp only [hn, hs, hm, ne_eq, not_true_eq_false, if_false, ih', List.mem_cons,
          Bool.false_eq_true]
        constructor
        · rintro ⟨b', hb', h⟩
          exact ⟨b', Or.inr hb', h⟩
        · rintro ⟨b', hb' | hb', hn', s', hs', h'⟩
          · subst hb'
            rw [hs] at hs'
            cases hs'
            exact absurd h' hm'
          · exact ⟨b', hb', hn', s', hs', h'⟩
    · simp only [hn, ne_eq, not_false_eq_true, if_true, ih', List.mem_cons]
      constructor
      · rintro ⟨b', hb', h⟩
        exact ⟨b', Or.inr hb', h⟩
      · rintro ⟨b', hb' | hb', hn', h'⟩
        · subst hb'
          exact absurd hn' hn
        · exact ⟨b', hb', hn', h'⟩

/-- C12: for a HEADERS topic and a consumer group all of whose bindings naming the topic
are HeadersAll bindings, a message that carries a header map and is not older than the
group matches if and only if for at least one such binding every expected (name, value)
pair occurs in the message headers with an equal value; otherwise the result is false. -/
theorem C12_headers_all_matches_iff {V : Type} (deepEqual : V → V → Bool) (message : Message V)
    (messageTime : Time) (topic : ClusterTopic) (consumerGroup : ClusterConsumerGroup V)
    (fields : List (GoString × V))
    (hType : topic.Type_ = TopicType.HEADERS)
    (hTime : consumerGroup.CreatedAt ≤ messageTime)
    (hHeaders : message.Headers = some ⟨some fields⟩)
    (hAll : ∀ b ∈ consumerGroup.Bindings, b.TopicName = topic.Name →
      ∃ s, b.By = BindingBy.HeadersAll s) :
    (messageMatches deepEqual message messageTime topic consumerGroup = some true ↔
      ∃ b ∈ consumerGroup.Bindings, b.TopicName = topic.Name ∧
        ∃ s, b.By = BindingBy.HeadersAll s ∧
          ∀ p ∈ s.entries, ∃ g, fields.lookup p.1 = some g ∧ deepEqual p.2 g = true) ∧
    (messageMatches deepEqual message messageTime topic consumerGroup = some true ∨
      messageMatches deepEqual message messageTime topic consumerGroup = some false) := by
  have hb : Time.Before messageTime consumerGroup.CreatedAt = false := by
    simp [Time.Before, hTime]
  simp only [messageMatches, hb, hType, hHeaders, Option.some.injEq, Bool.false_eq_true,
    if_false]
  refine ⟨headersLoop_all_iff deepEqual _ _ _ hAll, ?_⟩
  cases headersLoop deepEqual topic.Name fields consumerGroup.Bindings <;> simp

/-- C12 instance: headers `{x:1, y:2, z:3}` match the binding HeadersAll `{x:1, y:2}`
(extra headers do not matter), headers `{x:1}` do not. -/
theorem C12_headers_all_matches_iff_witness :
    messageMatches natDeepEqual (messageWithHeaders [("x".toList, 1), ("y".toList, 2), ("z".toList, 3)])
      10 (topicT TopicType.HEADERS) (groupWith [headersAllXY]) = some true ∧
    messageMatches natDeepEqual (messageWithHeaders [("x".toList, 1)])
      10 (topicT TopicType.HEADERS) (groupWith [headersAllXY]) = some false := by
  have hAll : ∀ b ∈ (groupWith [headersAllXY]).Bindings,
      b.TopicName = (topicT TopicType.HEADERS).Name →
        ∃ s, b.By = BindingBy.HeadersAll s := by
    intro b hb _
    simp only [groupWith, List.mem_singleton] at hb
    subst hb
    exact ⟨_, rfl⟩
  constructor
  · refine (C12_headers_all_matches_iff natDeepEqual
      (messageWithHeaders [("x".toList, 1), ("y".toList, 2), ("z".toList, 3)]) 10
      (topicT TopicType.HEADERS) (groupWith [headersAllXY]) _ rfl (by decide) rfl hAll).1.2
      ⟨headersAllXY, List.mem_singleton.2 rfl, rfl, _, rfl, ?_⟩
    intro p hp
    simp only [headersAllXY, Struct.entries, Option.getD_some, List.mem_cons,
      List.mem_singleton, List.not_mem_nil, or_false] at hp
    rcases hp with rfl | rfl
    · exact ⟨1, by decide, by decide⟩
    · exact ⟨2, by decide, by decide⟩
  · have h := C12_headers_all_matches_iff natDeepEqual (messageWithHeaders [("x".toList, 1)]) 10
      (topicT TopicType.HEADERS) (groupWith [headersAllXY]) _ rfl (by decide) rfl hAll
    rcases h.2 with ht | hf
    · obtain ⟨b, hb, _, s, hs, hp⟩ := h.1.1 ht
      simp only [groupWith, List.mem_singleton] at hb
      subst hb
      cases hs
      obtain ⟨g, hg, _⟩ := hp ("y".toList, 2) (by simp [Struct.entries])
      have hnone : List.lookup "y".toList [("x".toList, (1 : Nat))] = none := by decide
      rw [hnone] at hg
      cases hg
    · exact hf

/-! ## The state store: `Do` and `NextSegmentID` -/

theorem doCreateConsumerGroup_counter {V : Type} (s : ClusterState V)
    (cmd : ClusterCommandConsumerGroupCreate V) :
    (s.doCreateConsumerGroup cmd).CurrentSegmentID = s.CurrentSegmentID ∧
      (s.doCreateConsumerGroup cmd).Index = s.Index := by
  unfold ClusterState.doCreateConsumerGroup
  split
  · exact ⟨rfl, rfl⟩
  · split <;> exact ⟨rfl, rfl⟩

theorem doDeleteConsumerGroup_counter {V : Type} (s : ClusterState V)
    (cmd : ClusterCommandConsumerGroupDelete) :
    (s.doDeleteConsumerGroup cmd).CurrentSegmentID = s.CurrentSegmentID ∧
      (s.doDeleteConsumerGroup cmd).Index = s.Index := by
  unfold ClusterState.doDeleteConsumerGroup
  split
  · exact ⟨rfl, rfl⟩
  · split
    · exact ⟨rfl, rfl⟩
    · dsimp only
      split <;> exact ⟨rfl, rfl⟩

theorem doUpdateOffsetCommits_counter {V : Type} (s : ClusterState V)
    (cmd : ClusterCommandConsumerGroupOffsetCommitsUpdate) :
    (s.doUpdateOffsetCommits cmd).CurrentSegmentID = s.CurrentSegmentID ∧
      (s.doUpdateOffsetCommits cmd).Index = s.Index := by
  unfold ClusterState.doUpdateOffsetCommits
  split
  · exact ⟨rfl, rfl⟩
  · split <;> exact ⟨rfl, rfl⟩

theorem Do_index {V Other : Type} (doOther : ClusterState V → Other → ClusterState V)
    (s s' : ClusterStateStore V) (index : Nat) (cmd : Option (ClusterCommand V Other))
    (h : s.Do doOther index cmd = some s') : s'.ptr.Index = index := by
  unfold ClusterStateStore.Do at h
  simp only [Option.map_eq_some'] at h
  obtain ⟨next, _, rfl⟩ := h
  rfl

theorem Do_isSome {V Other : Type} (doOther : ClusterState V → Other → ClusterState V)
    (s : ClusterStateStore V) (index : Nat) (cmd : Option (ClusterCommand V Other))
    (h : cmd ≠ some ClusterCommand.unhandled) : ∃ s', s.Do doOther index cmd = some s' := by
  unfold ClusterStateStore.Do
  cases cmd with
  | none => exact ⟨_, rfl⟩
  | some c =>
    cases c with
    | unhandled => exact absurd rfl h
    | CreateConsumerGroup c => exact ⟨_, rfl⟩
    | DeleteConsumerGroup c => exact ⟨_, rfl⟩
    | UpdateConsumerGroupOffsetCommits c => exact ⟨_, rfl⟩
    | other c => exact ⟨_, rfl⟩

theorem isNilOrConsumerGroupCommand_ne_unhandled {V Other : Type}
    {cmd : Option (ClusterCommand V Other)} (h : isNilOrConsumerGroupCommand cmd = true) :
    cmd ≠ some ClusterCommand.unhandled := by
  rintro rfl
  simp [isNilOrConsumerGroupCommand, ClusterCommand.isConsumerGroupCommand] at h

theorem Do_counter {V Other : Type} (doOther : ClusterState V → Other → ClusterState V)
    (s s' : ClusterStateStore V) (index : Nat) (cmd : Option (ClusterCommand V Other))
    (hc : isNilOrConsumerGroupCommand cmd = true) (h : s.Do doOther index cmd = some s') :
    s'.ptr.CurrentSegmentID = s.ptr.CurrentSegmentID := by
  unfold ClusterStateStore.Do at h
  cases cmd with
  | none =>
    simp only [Option.map_some', Option.some.injEq] at h
    subst h
    rfl
  | some c =>
    cases c with
    | unhandled => simp at h
    | other c => simp [isNilOrConsumerGroupCommand, ClusterCommand.isConsumerGroupCommand] at hc
    | CreateConsumerGroup c =>
      simp only [Option.map_some', Option.some.injEq] at h
      subst h
      exact (doCreateConsumerGroup_counter s.ptr c).1
    | DeleteConsumerGroup c =>
      simp only [Option.map_some', Option.some.injEq] at h
      subst h
      exact (doDeleteConsumerGroup_counter s.ptr c).1
    | UpdateConsumerGroupOffsetCommits c =>
      simp only [Option.map_some', Option.some.injEq] at h
      subst h
      exact (doUpdateOffsetCommits_counter s.ptr c).1

/-- C13: after `Do(index, cmd)` with a nil or consumer-group command, `Do` returns and
`Current().Index` equals `index`; with a nil command nothing else changes. -/
theorem C13_do_sets_index {V Other : Type} (doOther : ClusterState V → Other → ClusterState V)
    (s : ClusterStateStore V) (index : Nat) (cmd : Option (ClusterCommand V Other))
    (h : isNilOrConsumerGroupCommand cmd = true) :
    ∃ s', s.Do doOther index cmd = some s' ∧ s'.Current.Index = index ∧
      (cmd = none → s'.Current = { s.Current with Index := index }) := by
  obtain ⟨s', hs'⟩ := Do_isSome doOther s index cmd (isNilOrConsumerGroupCommand_ne_unhandled h)
  refine ⟨s', hs', Do_index doOther s s' index cmd hs', ?_⟩
  rintro rfl
  simp only [ClusterStateStore.Do, Option.map_some', Option.some.injEq] at hs'
  subst hs'
  rfl

/-- C13 instance: deleting a group that does not exist from the fresh store, at index 7,
leaves a state that differs from the old one only by `Index = 7`. -/
theorem C13_do_sets_index_witness :
    ∃ s', (NewClusterStateStore : ClusterStateStore Nat).Do keepState 7
        (some (ClusterCommand.DeleteConsumerGroup ⟨"n".toList, "g".toList⟩)) = some s' ∧
      s'.Current.Index = 7 :=
  (C13_do_sets_index keepState NewClusterStateStore 7
    (some (ClusterCommand.DeleteConsumerGroup ⟨"n".toList, "g".toList⟩)) rfl).imp
    fun _ h => ⟨h.1, h.2.1⟩

theorem foldr_max_of_pairwise_le (l : List Nat) (x : Nat) (hs : l.Pairwise (· ≤ ·))
    (hl : l.getLast? = some x) : l.foldr max 0 = x := by
  induction l with
  | nil => simp at hl
  | cons a l ih =>
    cases l with
    | nil =>
      simp only [List.getLast?_singleton, Option.some.injEq] at hl
      subst hl
      simp
    | cons b l =>
      rw [List.getLast?_cons_cons] at hl
      have hx := ih (List.Pairwise.of_cons hs) hl
      have hmem : x ∈ b :: l := by
        obtain ⟨ys, hys⟩ := List.getLast?_eq_some_iff.1 hl
        rw [hys]
        simp
      have hax : a ≤ x := List.rel_of_pairwise_cons hs hmem
      rw [List.foldr_cons, hx]
      exact max_eq_right hax

theorem DoAll_last_index {V Other : Type} (doOther : ClusterState V → Other → ClusterState V)
    (calls : List (Nat × Option (ClusterCommand V Other))) :
    ∀ s : ClusterStateStore V, calls ≠ [] →
      (∀ c ∈ calls, c.2 ≠ some ClusterCommand.unhandled) →
      ∃ s', ClusterStateStore.DoAll doOther s calls = some s' ∧
        (calls.map Prod.fst).getLast? = some s'.Current.Index := by
  induction calls with
  | nil => intro s h; exact absurd rfl h
  | cons c rest ih =>
    intro s _ hok
    obtain ⟨index, cmd⟩ := c
    obtain ⟨s1, hs1⟩ := Do_isSome doOther s index cmd (hok (index, cmd) (List.mem_cons_self _ _))
    have hidx := Do_index doOther s s1 index cmd hs1
    cases rest with
    | nil =>
      refine ⟨s1, ?_, ?_⟩
      · simp [ClusterStateStore.DoAll, hs1]
      · simp [ClusterStateStore.Current, hidx]
    | cons c2 rest2 =>
      obtain ⟨s', hs', hlast⟩ := ih s1 (List.cons_ne_nil _ _)
        (fun c hc => hok c (List.mem_cons_of_mem _ hc))
      refine ⟨s', ?_, ?_⟩
      · simp only [ClusterStateStore.DoAll, hs1]
        exact hs'
      · rw [List.map_cons, List.map_cons, List.getLast?_cons_cons, ← List.map_cons]
        exact hlast

/-- C14 (as stated, refuted): on the fresh store, `Do(5, nil)` followed by `Do(3, nil)`
leaves `Index = 3`, not the maximum `5` of the indices applied. -/
theorem C14_counterexample :
    ¬ (∀ s', ClusterStateStore.DoAll keepState (NewClusterStateStore : ClusterStateStore Nat)
          [(5, none), (3, none)] = some s' →
        s'.Current.Index = ([(5, none), (3, none)].map
          (Prod.fst : Nat × Option (ClusterCommand Nat Unit) → Nat)).foldr max 0) := by
  intro h
  have h3 := h { ptr := { Index := 3 } } rfl
  revert h3
  decide

/-- C14 (amended): for every non-empty sequence of `Do(index, cmd)` calls none of which
carries an unhandled command, applied to any store (in particular a fresh one), all calls
return and `Current().Index` afterwards is the index of the last call; when the indices
are applied in non-decreasing order this is their maximum. -/
theorem C14_index_is_last_applied {V Other : Type}
    (doOther : ClusterState V → Other → ClusterState V) (s : ClusterStateStore V)
    (calls : List (Nat × Option (ClusterCommand V Other))) (hne : calls ≠ [])
    (hok : ∀ c ∈ calls, c.2 ≠ some ClusterCommand.unhandled) :
    ∃ s', ClusterStateStore.DoAll doOther s calls = some s' ∧
      (calls.map Prod.fst).getLast? = some s'.Current.Index ∧
      ((calls.map Prod.fst).Pairwise (· ≤ ·) →
        s'.Current.Index = (calls.map Prod.fst).foldr max 0) := by
  obtain ⟨s', hs', hlast⟩ := DoAll_last_index doOther calls s hne hok
  exact ⟨s', hs', hlast, fun hp => (foldr_max_of_pairwise_le _ _ hp hlast).symm⟩

/-- C14 instance: `Do(3, nil)` then `Do(5, nil)` on the fresh store leaves `Index = 5`. -/
theorem C14_index_is_last_applied_witness :
    ∃ s', ClusterStateStore.DoAll keepState (NewClusterStateStore : ClusterStateStore Nat)
        [(3, none), (5, none)] = some s' ∧ s'.Current.Index = 5 := by
  obtain ⟨s', hs', hlast, _⟩ := C14_index_is_last_applied keepState
    (NewClusterStateStore : ClusterStateStore Nat) [(3, none), (5, none)]
    (List.cons_ne_nil _ _) (by intro c hc; simp at hc; rcases hc with rfl | rfl <;> simp)
  refine ⟨s', hs', ?_⟩
  simp only [List.map_cons, List.map_nil, List.getLast?_cons_cons, List.getLast?_singleton,
    Option.some.injEq] at hlast
  exact hlast.symm

theorem range'_succ_pairwise_lt (a n : Nat) : (List.range' a n).Pairwise (· < ·) := by
  induction n generalizing a with
  | zero => simp
  | succ n ih =>
    rw [List.range'_succ, List.pairwise_cons]
    refine ⟨fun b hb => ?_, ih (a + 1)⟩
    rw [List.mem_range'_1] at hb
    omega

theorem run_ids {V Other : Type} (doOther : ClusterState V → Other → ClusterState V)
    (ops : List (StoreOp V Other)) :
    ∀ s : ClusterStateStore V, (∀ op ∈ ops, op.isNextOrConsumerGroup = true) →
      s.ptr.CurrentSegmentID + StoreOp.countNext ops < 2 ^ 64 →
      ∃ s' ids, ClusterStateStore.run doOther s ops = some (s', ids) ∧
        ids = List.range' (s.ptr.CurrentSegmentID + 1) (StoreOp.countNext ops) ∧
        s'.ptr.CurrentSegmentID = s.ptr.CurrentSegmentID + StoreOp.countNext ops := by
  induction ops with
  | nil =>
    intro s _ _
    exact ⟨s, [], rfl, by simp [StoreOp.countNext], by simp [StoreOp.countNext]⟩
  | cons op ops ih =>
    intro s hops hb
    have hrest : ∀ op' ∈ ops, op'.isNextOrConsumerGroup = true :=
      fun op' h => hops op' (List.mem_cons_of_mem _ h)
    cases op with
    | NextSegmentID =>
      simp only [StoreOp.countNext] at hb ⊢
      have hmod : (s.ptr.CurrentSegmentID + 1) % 2 ^ 64 = s.ptr.CurrentSegmentID + 1 :=
        Nat.mod_eq_of_lt (by omega)
      have hcur : s.NextSegmentID.1.ptr.CurrentSegmentID = s.ptr.CurrentSegmentID + 1 := by
        simp only [ClusterStateStore.NextSegmentID, hmod]
      have hid : s.NextSegmentID.2 = s.ptr.CurrentSegmentID + 1 := by
        simp only [ClusterStateStore.NextSegmentID, hmod]
      obtain ⟨s', ids, hrun, hids, hcnt⟩ := ih s.NextSegmentID.1 hrest (by rw [hcur]; omega)
      refine ⟨s', s.NextSegmentID.2 :: ids, ?_, ?_, ?_⟩
      · simp only [ClusterStateStore.run, hrun]
      · rw [hids, hid, hcur, List.range'_succ]
      · rw [hcnt, hcur]; omega
    | Do index cmd =>
      have hc : isNilOrConsumerGroupCommand cmd = true :=
        hops (StoreOp.Do index cmd) (List.mem_cons_self _ _)
      simp only [StoreOp.countNext] at hb ⊢
      obtain ⟨s1, hs1⟩ := Do_isSome doOther s index cmd
        (isNilOrConsumerGroupCommand_ne_unhandled hc)
      have hcur := Do_counter doOther s s1 index cmd hc hs1
      obtain ⟨s', ids, hrun, hids, hcnt⟩ := ih s1 hrest (by rw [hcur]; exact hb)
      refine ⟨s', ids, ?_, ?_, ?_⟩
      · simp only [ClusterStateStore.run, hs1]
        exact hrun
      · rw [hids, hcur]
      · rw [hcnt, hcur]

/-- C15 (as stated, refuted): the segment-id counter is an unsigned 64-bit integer. On a
store whose counter is `2 ^ 64 - 2`, two calls of `NextSegmentID` return `2 ^ 64 - 1` and
then `0`: the second id is not the previous counter plus one and is not greater than the
id returned before it. -/
theorem C15_counterexample :
    (ClusterStateStore.run keepState (storeWithCounter (2 ^ 64 - 2))
        [StoreOp.NextSegmentID, StoreOp.NextSegmentID]).map Prod.snd =
      some [2 ^ 64 - 1, 0] ∧
    (storeWithCounter (2 ^ 64 - 1)).NextSegmentID.2 ≠
      (storeWithCounter (2 ^ 64 - 1)).Current.CurrentSegmentID + 1 := by
  constructor
  · simp [ClusterStateStore.run, ClusterStateStore.NextSegmentID, storeWithCounter]
  · simp [ClusterStateStore.NextSegmentID, storeWithCounter, ClusterStateStore.Current]

/-- C15 (amended): as long as the unsigned 64-bit counter does not wrap (the counter plus
the number of `NextSegmentID` calls stays below `2 ^ 64`), for every interleaving of
`NextSegmentID` calls with `Do` calls carrying nil or consumer-group commands, all calls
return, the ids returned are the consecutive values after the initial counter (each is the
previous `CurrentSegmentID` plus one) and hence strictly increasing; and a single
`NextSegmentID` changes no field other than `CurrentSegmentID`. -/
theorem C15_next_segment_id_increasing {V Other : Type}
    (doOther : ClusterState V → Other → ClusterState V) (s : ClusterStateStore V)
    (ops : List (StoreOp V Other))
    (hops : ∀ op ∈ ops, op.isNextOrConsumerGroup = true)
    (hbound : s.Current.CurrentSegmentID + StoreOp.countNext ops < 2 ^ 64) :
    (∃ s' ids, ClusterStateStore.run doOther s ops = some (s', ids) ∧
      ids = List.range' (s.Current.CurrentSegmentID + 1) (StoreOp.countNext ops) ∧
      ids.Pairwise (· < ·) ∧
      s'.Current.CurrentSegmentID = s.Current.CurrentSegmentID + StoreOp.countNext ops) ∧
    (s.Current.CurrentSegmentID + 1 < 2 ^ 64 →
      s.NextSegmentID.2 = s.Current.CurrentSegmentID + 1 ∧
      s.NextSegmentID.1.Current =
        { s.Current with CurrentSegmentID := s.Current.CurrentSegmentID + 1 }) := by
  constructor
  · obtain ⟨s', ids, hrun, hids, hcnt⟩ := run_ids doOther ops s hops hbound
    refine ⟨s', ids, hrun, hids, ?_, hcnt⟩
    rw [hids]
    exact range'_succ_pairwise_lt _ _
  · intro h1
    have hmod : (s.ptr.CurrentSegmentID + 1) % 2 ^ 64 = s.ptr.CurrentSegmentID + 1 :=
      Nat.mod_eq_of_lt h1
    simp only [ClusterStateStore.NextSegmentID, ClusterStateStore.Current, hmod, and_self]

/-- C15 instance: on the fresh store, `NextSegmentID`, `Do(1, nil)`, `NextSegmentID`
return the ids 1 and 2. -/
theorem C15_next_segment_id_increasing_witness :
    ∃ s', ClusterStateStore.run keepState (NewClusterStateStore : ClusterStateStore Nat)
      [StoreOp.NextSegmentID, StoreOp.Do 1 none, StoreOp.NextSegmentID] = some (s', [1, 2]) := by
  obtain ⟨s', ids, hrun, hids, _, _⟩ := (C15_next_segment_id_increasing keepState
    (NewClusterStateStore : ClusterStateStore Nat)
    [StoreOp.NextSegmentID, StoreOp.Do 1 none, StoreOp.NextSegmentID]
    (by intro op hop; simp at hop; rcases hop with rfl | rfl | rfl <;> rfl)
    (by decide)).1
  refine ⟨s', ?_⟩
  rw [hrun, hids]
  rfl

/-! ## Consumer-group transitions -/

theorem findFirst_none_iff {α : Type} {p : α → Bool} {l : List α} :
    findFirst p l = none ↔ ∀ b ∈ l, p b = false := by
  induction l with
  | nil => simp [findFirst]
  | cons a l ih =>
    rw [findFirst]
    cases hp : p a with
    | true => simp [hp]
    | false => simp [hp, ih]

theorem findFirst_some {α : Type} {p : α → Bool} {l : List α} {a : α} {i : Nat}
    (h : findFirst p l = some (a, i)) :
    l = l.take i ++ a :: l.drop (i + 1) ∧ i < l.length ∧ p a = true ∧
      ∀ b ∈ l.take i, p b = false := by
  induction l generalizing i with
  | nil => simp [findFirst] at h
  | cons x l ih =>
    rw [findFirst] at h
    cases hp : p x with
    | true =>
      simp only [hp, if_true, Option.some.injEq, Prod.mk.injEq] at h
      obtain ⟨rfl, rfl⟩ := h
      simp [hp]
    | false =>
      simp only [hp, Bool.false_eq_true, if_false, Option.map_eq_some'] at h
      obtain ⟨⟨a', i'⟩, hf, heq⟩ := h
      simp only [Prod.mk.injEq] at heq
      obtain ⟨rfl, rfl⟩ := heq
      obtain ⟨h1, h2, h3, h4⟩ := ih hf
      refine ⟨?_, ?_, h3, ?_⟩
      · simp only [List.take_succ_cons, List.drop_succ_cons, List.cons_append]
        rw [← h1]
      · simp only [List.length_cons]; omega
      · intro b hb
        simp only [List.take_succ_cons, List.mem_cons] at hb
        rcases hb with rfl | hb
        · exact hp
        · exact h4 b hb

theorem findFirst_append_cons {α : Type} {p : α → Bool} (pre post : List α) (a : α)
    (hpre : ∀ b ∈ pre, p b = false) (ha : p a = true) :
    findFirst p (pre ++ a :: post) = some (a, pre.length) := by
  induction pre with
  | nil => simp [findFirst, ha]
  | cons x pre ih =>
    have hx : p x = false := hpre x (List.mem_cons_self _ _)
    have ih' := ih (fun b hb => hpre b (List.mem_cons_of_mem _ hb))
    simp [findFirst, hx, ih']

theorem findFirst_replace {α : Type} {p : α → Bool} {l : List α} {a a' : α} {i : Nat}
    (h : findFirst p l = some (a, i)) (ha' : p a' = true) :
    findFirst p (l.take i ++ a' :: l.drop (i + 1)) = some (a', i) := by
  obtain ⟨_, hlt, _, hpre⟩ := findFirst_some h
  have hlen : (l.take i).length = i := by
    rw [List.length_take]; omega
  have := findFirst_append_cons (l.take i) (l.drop (i + 1)) a' hpre ha'
  rw [hlen] at this
  exact this

theorem findFirst_mem {α : Type} {p : α → Bool} {l : List α} {a : α} {i : Nat}
    (h : findFirst p l = some (a, i)) : a ∈ l := by
  obtain ⟨h1, _⟩ := findFirst_some h
  rw [h1]
  simp

theorem assignFrom_fields {V : Type} (g : ClusterConsumerGroup V)
    (cmd : ClusterCommandConsumerGroupCreate V) :
    (g.assignFrom cmd).Name = g.Name ∧ (g.assignFrom cmd).Bindings = cmd.ConsumerGroup.Bindings ∧
      (g.assignFrom cmd).Size_ = cmd.ConsumerGroup.Size_ ∧
      (g.assignFrom cmd).OffsetCommits = g.OffsetCommits :=
  ⟨rfl, rfl, rfl, rfl⟩

/-- C16: in the state `doCreateConsumerGroup s c`, looking up namespace `c.Namespace` and
then consumer group `c.ConsumerGroup.Name` finds a group whose Bindings and Size are those
of the command. When the namespace did not exist, a namespace holding just the new group
is appended after the existing namespaces; when the namespace existed without the group,
the group is appended after the namespace's groups, the namespace keeping its position;
all other namespaces and groups are kept in their order. -/
theorem C16_create_consumer_group {V : Type} (s : ClusterState V)
    (c : ClusterCommandConsumerGroupCreate V) :
    (∃ n i g j, (s.doCreateConsumerGroup c).FindNamespace c.Namespace = some (n, i) ∧
      n.findConsumerGroup c.ConsumerGroup.Name = some (g, j) ∧
      g.Bindings = c.ConsumerGroup.Bindings ∧ g.Size_ = c.ConsumerGroup.Size_) ∧
    (s.FindNamespace c.Namespace = none →
      ∃ g, g.Name = c.ConsumerGroup.Name ∧
        (s.doCreateConsumerGroup c).Namespaces =
          s.Namespaces ++ [{ Name := c.Namespace, Topics := [], ConsumerGroups := [g] }]) ∧
    (∀ old i, s.FindNamespace c.Namespace = some (old, i) →
      old.findConsumerGroup c.ConsumerGroup.Name = none →
      ∃ g, g.Name = c.ConsumerGroup.Name ∧
        (s.doCreateConsumerGroup c).Namespaces =
          s.Namespaces.take i ++
            { old with ConsumerGroups := old.ConsumerGroups ++ [g] } ::
              s.Namespaces.drop (i + 1)) := by
  refine ⟨?_, ?_, ?_⟩
  · cases hn : s.FindNamespace c.Namespace with
    | none =>
      have hpre := findFirst_none_iff.1 hn
      have hs : (s.doCreateConsumerGroup c).Namespaces = s.Namespaces ++
          [{ Name := c.Namespace, Topics := [],
             ConsumerGroups :=
               [(ClusterConsumerGroup.named c.ConsumerGroup.Name).assignFrom c] }] := by
        simp only [ClusterState.doCreateConsumerGroup, hn]
      refine ⟨{ Name := c.Namespace, Topics := [],
                ConsumerGroups :=
                  [(ClusterConsumerGroup.named c.ConsumerGroup.Name).assignFrom c] },
        s.Namespaces.length,
        (ClusterConsumerGroup.named c.ConsumerGroup.Name).assignFrom c, 0, ?_, ?_, rfl, rfl⟩
      · rw [ClusterState.FindNamespace, hs]
        exact findFirst_append_cons _ [] _ hpre (by simp)
      · simp [ClusterNamespace.findConsumerGroup, findFirst, ClusterConsumerGroup.assignFrom,
          ClusterConsumerGroup.named]
    | some r =>
      obtain ⟨old, i⟩ := r
      have hold := (findFirst_some hn).2.2.1
      cases hg : old.findConsumerGroup c.ConsumerGroup.Name with
      | none =>
        have hpre := findFirst_none_iff.1 hg
        have hs : (s.doCreateConsumerGroup c).Namespaces = s.Namespaces.take i ++
            { old with ConsumerGroups := old.ConsumerGroups ++
                [(ClusterConsumerGroup.named c.ConsumerGroup.Name).assignFrom c] } ::
              s.Namespaces.drop (i + 1) := by
          simp only [ClusterState.doCreateConsumerGroup, hn, hg]
        refine ⟨{ old with ConsumerGroups := old.ConsumerGroups ++
                [(ClusterConsumerGroup.named c.ConsumerGroup.Name).assignFrom c] }, i,
          (ClusterConsumerGroup.named c.ConsumerGroup.Name).assignFrom c,
          old.ConsumerGroups.length, ?_, ?_, rfl, rfl⟩
        · rw [ClusterState.FindNamespace, hs]
          exact findFirst_replace hn hold
        · simp only [ClusterNamespace.findConsumerGroup]
          exact findFirst_append_cons _ [] _ hpre
            (by simp [ClusterConsumerGroup.assignFrom, ClusterConsumerGroup.named])
      | some r2 =>
        obtain ⟨cg, j⟩ := r2
        have hcg := (findFirst_some hg).2.2.1
        have hs : (s.doCreateConsumerGroup c).Namespaces = s.Namespaces.take i ++
            { old with ConsumerGroups := old.ConsumerGroups.take j ++
                cg.assignFrom c :: old.ConsumerGroups.drop (j + 1) } ::
              s.Namespaces.drop (i + 1) := by
          simp only [ClusterState.doCreateConsumerGroup, hn, hg]
        refine ⟨{ old with ConsumerGroups := old.ConsumerGroups.take j ++
                cg.assignFrom c :: old.ConsumerGroups.drop (j + 1) }, i,
          cg.assignFrom c, j, ?_, ?_, rfl, rfl⟩
        · rw [ClusterState.FindNamespace, hs]
          exact findFirst_replace hn hold
        · simp only [ClusterNamespace.findConsumerGroup]
          exact findFirst_replace hg hcg
  · intro hn
    exact ⟨(ClusterConsumerGroup.named c.ConsumerGroup.Name).assignFrom c, rfl, by
      simp only [ClusterState.doCreateConsumerGroup, hn]⟩
  · intro old i hn hg
    exact ⟨(ClusterConsumerGroup.named c.ConsumerGroup.Name).assignFrom c, rfl, by
      simp only [ClusterState.doCreateConsumerGroup, hn, hg]⟩

/-- C16 instance: on the empty state, creating `g` in `n` gives a state in which the
lookup of `n` and then `g` finds a group of the command's size 3. -/
theorem C16_create_consumer_group_witness :
    ∃ n i g j,
      (({} : ClusterState Nat).doCreateConsumerGroup
          (createCommand "n".toList "g".toList)).FindNamespace "n".toList = some (n, i) ∧
        n.findConsumerGroup "g".toList = some (g, j) ∧ g.Bindings = [] ∧ g.Size_ = 3 :=
  (C16_create_consumer_group ({} : ClusterState Nat) (createCommand "n".toList "g".toList)).1

theorem isEmpty_false_of_groups {V : Type} (n : ClusterNamespace V)
    (h : n.ConsumerGroups ≠ []) : n.isEmpty = false := by
  cases hg : n.ConsumerGroups with
  | nil => exact absurd hg h
  | cons g gs => simp [ClusterNamespace.isEmpty, hg]

theorem mem_take_cons_drop {α : Type} {l : List α} {i : Nat} {x a : α}
    (h : a ∈ l.take i ++ x :: l.drop (i + 1)) : a ∈ l ∨ a = x := by
  simp only [List.mem_append, List.mem_cons] at h
  rcases h with h | h | h
  · exact Or.inl (List.mem_of_mem_take h)
  · exact Or.inr h
  · exact Or.inl (List.mem_of_mem_drop h)

theorem mem_take_drop {α : Type} {l : List α} {i : Nat} {a : α}
    (h : a ∈ l.take i ++ l.drop (i + 1)) : a ∈ l := by
  simp only [List.mem_append] at h
  rcases h with h | h
  · exact List.mem_of_mem_take h
  · exact List.mem_of_mem_drop h

theorem doCreateConsumerGroup_mem {V : Type} (s : ClusterState V)
    (c : ClusterCommandConsumerGroupCreate V) (n : ClusterNamespace V)
    (hn : n ∈ (s.doCreateConsumerGroup c).Namespaces) :
    n ∈ s.Namespaces ∨
      (n.ConsumerGroups ≠ [] ∧ ∀ g ∈ n.ConsumerGroups,
        (∃ old ∈ s.Namespaces, g ∈ old.ConsumerGroups) ∨
        (∃ g0, g = g0.assignFrom c ∧
          (g0 = ClusterConsumerGroup.named c.ConsumerGroup.Name ∨
            ∃ old ∈ s.Namespaces, g0 ∈ old.ConsumerGroups))) := by
  unfold ClusterState.doCreateConsumerGroup at hn
  cases hf : s.FindNamespace c.Namespace with
  | none =>
    simp only [hf, List.mem_append, List.mem_singleton] at hn
    rcases hn with hn | rfl
    · exact Or.inl hn
    · refine Or.inr ⟨by simp, fun g hg => Or.inr ⟨_, ?_, Or.inl rfl⟩⟩
      simpa using hg
  | some r =>
    obtain ⟨old, i⟩ := r
    have hold : old ∈ s.Namespaces := findFirst_mem hf
    cases hg : old.findConsumerGroup c.ConsumerGroup.Name with
    | none =>
      simp only [hf, hg] at hn
      rcases mem_take_cons_drop hn with hn | rfl
      · exact Or.inl hn
      · refine Or.inr ⟨by simp, fun g hg' => ?_⟩
        simp only [List.mem_append, List.mem_singleton] at hg'
        rcases hg' with hg' | rfl
        · exact Or.inl ⟨old, hold, hg'⟩
        · exact Or.inr ⟨_, rfl, Or.inl rfl⟩
    | some r2 =>
      obtain ⟨cg, j⟩ := r2
      have hcg : cg ∈ old.ConsumerGroups := findFirst_mem hg
      simp only [hf, hg] at hn
      rcases mem_take_cons_drop hn with hn | rfl
      · exact Or.inl hn
      · refine Or.inr ⟨by simp, fun g hg' => ?_⟩
        rcases mem_take_cons_drop hg' with hg' | rfl
        · exact Or.inl ⟨old, hold, hg'⟩
        · exact Or.inr ⟨cg, rfl, Or.inr ⟨old, hold, hcg⟩⟩

theorem doDeleteConsumerGroup_mem {V : Type} (s : ClusterState V)
    (c : ClusterCommandConsumerGroupDelete) (n : ClusterNamespace V)
    (hn : n ∈ (s.doDeleteConsumerGroup c).Namespaces) :
    n ∈ s.Namespaces ∨
      (n.isEmpty = false ∧ ∃ old ∈ s.Namespaces, ∀ g ∈ n.ConsumerGroups, g ∈ old.ConsumerGroups) := by
  unfold ClusterState.doDeleteConsumerGroup at hn
  cases hf : s.FindNamespace c.Namespace with
  | none =>
    simp only [hf] at hn
    exact Or.inl hn
  | some r =>
    obtain ⟨old, i⟩ := r
    have hold : old ∈ s.Namespaces := findFirst_mem hf
    cases hg : old.findConsumerGroup c.Name with
    | none =>
      simp only [hf, hg] at hn
      exact Or.inl hn
    | some r2 =>
      obtain ⟨cg, j⟩ := r2
      simp only [hf, hg] at hn
      split at hn
      · exact Or.inl (mem_take_drop hn)
      · rename_i hne
        rcases List.mem_or_eq_of_mem_set hn with hn | rfl
        · exact Or.inl hn
        · exact Or.inr ⟨by simpa using hne, old, hold, fun g hg' => mem_take_drop hg'⟩

theorem doUpdateOffsetCommits_mem {V : Type} (s : ClusterState V)
    (c : ClusterCommandConsumerGroupOffsetCommitsUpdate) (n : ClusterNamespace V)
    (hn : n ∈ (s.doUpdateOffsetCommits c).Namespaces) :
    n ∈ s.Namespaces ∨
      (n.ConsumerGroups ≠ [] ∧ ∃ old ∈ s.Namespaces, ∀ g ∈ n.ConsumerGroups,
        g ∈ old.ConsumerGroups ∨ g.OffsetCommits = sortOffsetCommits c.OffsetCommits) := by
  unfold ClusterState.doUpdateOffsetCommits at hn
  cases hf : s.FindNamespace c.Namespace with
  | none =>
    simp only [hf] at hn
    exact Or.inl hn
  | some r =>
    obtain ⟨old, i⟩ := r
    have hold : old ∈ s.Namespaces := findFirst_mem hf
    cases hg : old.findConsumerGroup c.Name with
    | none =>
      simp only [hf, hg] at hn
      exact Or.inl hn
    | some r2 =>
      obtain ⟨cg, j⟩ := r2
      have hj := (findFirst_some hg).2.1
      simp only [hf, hg] at hn
      rcases List.mem_or_eq_of_mem_set hn with hn | rfl
      · exact Or.inl hn
      · refine Or.inr ⟨?_, old, hold, fun g hg' => ?_⟩
        · intro hnil
          have hlen := congrArg List.length hnil
          simp only [List.length_set, List.length_nil] at hlen
          simp only [ClusterNamespace.findConsumerGroup] at hj
          omega
        · rcases List.mem_or_eq_of_mem_set hg' with hg' | rfl
          · exact Or.inl hg'
          · exact Or.inr rfl

/-- C17: the invariant "every namespace has at least one topic or consumer group" is
preserved by `doCreateConsumerGroup`, `doDeleteConsumerGroup` and `doUpdateOffsetCommits`.
When `doDeleteConsumerGroup` removes the last remaining child of a namespace, the
namespace is removed from the list, the other namespaces keeping their order (and, namespace
names being unique, a lookup of the name finds nothing); otherwise the namespace stays in
place with its remaining groups in their original order. -/
theorem C17_namespaces_non_empty_preserved {V : Type} (s : ClusterState V)
    (hinv : namespacesNonEmpty s) :
    (∀ c, namespacesNonEmpty (s.doCreateConsumerGroup c)) ∧
    (∀ c, namespacesNonEmpty (s.doDeleteConsumerGroup c)) ∧
    (∀ c, namespacesNonEmpty (s.doUpdateOffsetCommits c)) ∧
    (∀ (c : ClusterCommandConsumerGroupDelete) old i g j,
      s.FindNamespace c.Namespace = some (old, i) →
      old.findConsumerGroup c.Name = some (g, j) →
      ((old.Topics = [] ∧ old.ConsumerGroups.length = 1) →
        (s.doDeleteConsumerGroup c).Namespaces = s.Namespaces.take i ++ s.Namespaces.drop (i + 1) ∧
        ((s.Namespaces.map (·.Name)).Nodup →
          (s.doDeleteConsumerGroup c).FindNamespace c.Namespace = none)) ∧
      (¬ (old.Topics = [] ∧ old.ConsumerGroups.length = 1) →
        (s.doDeleteConsumerGroup c).Namespaces =
          s.Namespaces.set i
            { old with
              ConsumerGroups := old.ConsumerGroups.take j ++ old.ConsumerGroups.drop (j + 1) })) := by
  refine ⟨?_, ?_, ?_, ?_⟩
  · intro c n hn
    rcases doCreateConsumerGroup_mem s c n hn with h | ⟨h, _⟩
    · exact hinv n h
    · exact isEmpty_false_of_groups n h
  · intro c n hn
    rcases doDeleteConsumerGroup_mem s c n hn with h | ⟨h, _⟩
    · exact hinv n h
    · exact h
  · intro c n hn
    rcases doUpdateOffsetCommits_mem s c n hn with h | ⟨h, _⟩
    · exact hinv n h
    · exact isEmpty_false_of_groups n h
  · intro c old i g j hf hg
    obtain ⟨hsplit, hi, hname, hpre⟩ := findFirst_some hf
    obtain ⟨_, hj, _, _⟩ := findFirst_some hg
    have hlen : (old.ConsumerGroups.take j ++ old.ConsumerGroups.drop (j + 1)).length =
        old.ConsumerGroups.length - 1 := by
      simp only [List.length_append, List.length_take, List.length_drop]
      omega
    have hempty : (old.Topics = [] ∧ old.ConsumerGroups.length = 1) ↔
        ({ old with ConsumerGroups :=
            old.ConsumerGroups.take j ++ old.ConsumerGroups.drop (j + 1) } :
          ClusterNamespace V).isEmpty = true := by
      simp only [ClusterNamespace.isEmpty, Bool.and_eq_true, List.isEmpty_iff]
      rw [← List.length_eq_zero (l := _ ++ _), hlen]
      constructor
      · rintro ⟨h1, h2⟩
        exact ⟨h1, by omega⟩
      · rintro ⟨h1, h2⟩
        exact ⟨h1, by omega⟩
    constructor
    · intro hlast
      have he := hempty.1 hlast
      have hs : (s.doDeleteConsumerGroup c).Namespaces =
          s.Namespaces.take i ++ s.Namespaces.drop (i + 1) := by
        simp only [ClusterState.doDeleteConsumerGroup, hf, hg, he, if_true]
      refine ⟨hs, fun hnodup => ?_⟩
      rw [ClusterState.FindNamespace, hs]
      refine findFirst_none_iff.2 (fun b hb => ?_)
      simp only [decide_eq_false_iff_not]
      intro hbn
      simp only [decide_eq_true_eq] at hname
      rw [hsplit, List.map_append, List.map_cons] at hnodup
      have hnd := List.nodup_middle.1 hnodup
      rw [List.nodup_cons] at hnd
      apply hnd.1
      rw [hname, ← hbn, ← List.map_append]
      exact List.mem_map_of_mem _ hb
    · intro hnot
      have he : ({ old with ConsumerGroups :=
            old.ConsumerGroups.take j ++ old.ConsumerGroups.drop (j + 1) } :
          ClusterNamespace V).isEmpty = false := by
        cases h : ({ old with ConsumerGroups :=
            old.ConsumerGroups.take j ++ old.ConsumerGroups.drop (j + 1) } :
          ClusterNamespace V).isEmpty with
        | false => rfl
        | true => exact absurd (hempty.2 h) hnot
      simp only [ClusterState.doDeleteConsumerGroup, hf, hg, he, Bool.false_eq_true, if_false]

/-- C17 instance: in the state whose only namespace `n` holds the only group `g`, deleting
`g` leaves no namespace. -/
theorem C17_namespaces_non_empty_preserved_witness :
    namespacesNonEmpty stateNG ∧
    (stateNG.doDeleteConsumerGroup ⟨"n".toList, "g".toList⟩).Namespaces = [] ∧
    namespacesNonEmpty (stateNG.doDeleteConsumerGroup ⟨"n".toList, "g".toList⟩) := by
  have hinv : namespacesNonEmpty stateNG := by
    intro n hn
    simp only [stateNG, ClusterState.doCreateConsumerGroup, ClusterState.FindNamespace, findFirst,
      List.nil_append, List.mem_singleton] at hn
    subst hn
    rfl
  have h := C17_namespaces_non_empty_preserved stateNG hinv
  refine ⟨hinv, ?_, h.2.1 _⟩
  have hd := (h.2.2.2 ⟨"n".toList, "g".toList⟩ _ 0 _ 0 rfl rfl).1 ⟨rfl, rfl⟩
  rw [hd.1]
  rfl

theorem sortOffsetCommits_spec (commits : List ClusterConsumerGroup_OffsetCommit) :
    (sortOffsetCommits commits).Perm commits ∧
      (sortOffsetCommits commits).Sorted offsetCommitLE :=
  ⟨List.perm_insertionSort _ _, List.sorted_insertionSort _ _⟩

/-- C18: after `doUpdateOffsetCommits` for an existing group, the group found under the
same names has OffsetCommits that are a permutation of the command's list in
non-decreasing SegmentID order; and the invariant "every consumer group's OffsetCommits
is sorted by segment id" is preserved by `doCreateConsumerGroup`, `doDeleteConsumerGroup`
and `doUpdateOffsetCommits`. -/
theorem C18_offset_commits_sorted {V : Type} (s : ClusterState V) :
    (∀ (c : ClusterCommandConsumerGroupOffsetCommitsUpdate) old i g j,
      s.FindNamespace c.Namespace = some (old, i) →
      old.findConsumerGroup c.Name = some (g, j) →
      ∃ n' g', (s.doUpdateOffsetCommits c).FindNamespace c.Namespace = some (n', i) ∧
        n'.findConsumerGroup c.Name = some (g', j) ∧
        g'.OffsetCommits.Perm c.OffsetCommits ∧ g'.OffsetCommits.Sorted offsetCommitLE) ∧
    (offsetCommitsSorted s →
      (∀ c, offsetCommitsSorted (s.doCreateConsumerGroup c)) ∧
      (∀ c, offsetCommitsSorted (s.doDeleteConsumerGroup c)) ∧
      (∀ c, offsetCommitsSorted (s.doUpdateOffsetCommits c))) := by
  constructor
  · intro c old i g j hf hg
    obtain ⟨_, hi, hname, _⟩ := findFirst_some hf
    obtain ⟨_, hj, hgname, _⟩ := findFirst_some hg
    have hs : (s.doUpdateOffsetCommits c).Namespaces = s.Namespaces.take i ++
        { old with ConsumerGroups := old.ConsumerGroups.take j ++
            { g with OffsetCommits := sortOffsetCommits c.OffsetCommits } ::
              old.ConsumerGroups.drop (j + 1) } :: s.Namespaces.drop (i + 1) := by
      simp only [ClusterState.doUpdateOffsetCommits, hf, hg]
      rw [List.set_eq_take_cons_drop _ hi, List.set_eq_take_cons_drop _ hj]
    refine ⟨{ old with ConsumerGroups := old.ConsumerGroups.take j ++
            { g with OffsetCommits := sortOffsetCommits c.OffsetCommits } ::
              old.ConsumerGroups.drop (j + 1) },
      { g with OffsetCommits := sortOffsetCommits c.OffsetCommits }, ?_, ?_,
      (sortOffsetCommits_spec c.OffsetCommits).1, (sortOffsetCommits_spec c.OffsetCommits).2⟩
    · rw [ClusterState.FindNamespace, hs]
      exact findFirst_replace hf hname
    · simp only [ClusterNamespace.findConsumerGroup]
      exact findFirst_replace hg hgname
  · intro hinv
    refine ⟨?_, ?_, ?_⟩
    · intro c n hn g hg
      rcases doCreateConsumerGroup_mem s c n hn with h | ⟨_, h⟩
      · exact hinv n h g hg
      · rcases h g hg with ⟨old, hold, hgo⟩ | ⟨g0, rfl, rfl | ⟨old, hold, hgo⟩⟩
        · exact hinv old hold g hgo
        · exact List.sorted_nil
        · exact hinv old hold g0 hgo
    · intro c n hn g hg
      rcases doDeleteConsumerGroup_mem s c n hn with h | ⟨_, old, hold, h⟩
      · exact hinv n h g hg
      · exact hinv old hold g (h g hg)
    · intro c n hn g hg
      rcases doUpdateOffsetCommits_mem s c n hn with h | ⟨_, old, hold, h⟩
      · exact hinv n h g hg
      · rcases h g hg with hgo | hgo
        · exact hinv old hold g hgo
        · rw [hgo]
          exact (sortOffsetCommits_spec c.OffsetCommits).2

/-- C18 instance: updating the group `g` of `stateNG` with the commits for segments
3, 1, 2 stores them in the order 1, 2, 3. -/
theorem C18_offset_commits_sorted_witness :
    ∃ n' g', (stateNG.doUpdateOffsetCommits (updateCommand [⟨3, 30⟩, ⟨1, 10⟩, ⟨2, 20⟩])).FindNamespace
        "n".toList = some (n', 0) ∧
      n'.findConsumerGroup "g".toList = some (g', 0) ∧
      g'.OffsetCommits.Perm [⟨3, 30⟩, ⟨1, 10⟩, ⟨2, 20⟩] ∧
      g'.OffsetCommits.Sorted offsetCommitLE :=
  (C18_offset_commits_sorted stateNG).1 (updateCommand [⟨3, 30⟩, ⟨1, 10⟩, ⟨2, 20⟩]) _ 0 _ 0 rfl rfl

/-! ## `basic.nack` -/

theorem basicNackLoop_ok {E : Type} (runtime : Nat → RuntimeCall → Option E) (frame : BasicNack)
    (hok : ∀ k c, runtime k c = none) (l : List serverAMQPv0ChannelInflight) :
    ∀ i, basicNackLoop runtime frame i l =
      ((l.takeWhile fun e => decide (e.deliveryTag ≤ frame.DeliveryTag)).map (runtimeCallFor frame),
        .ok (i + (l.takeWhile fun e => decide (e.deliveryTag ≤ frame.DeliveryTag)).length)) := by
  induction l with
  | nil => intro i; simp [basicNackLoop]
  | cons e rest ih =>
    intro i
    by_cases he : e.deliveryTag ≤ frame.DeliveryTag
    · simp only [basicNackLoop, he, if_true, hok, ih (i + 1), List.takeWhile_cons, decide_True,
        List.map_cons, List.length_cons]
      congr 2
      omega
    · simp [basicNackLoop, he, List.takeWhile_cons]

theorem takeWhile_eq_filter_of_sorted (t : Nat) (l : List serverAMQPv0ChannelInflight)
    (hs : l.Pairwise (fun a b => a.deliveryTag ≤ b.deliveryTag)) :
    (l.takeWhile fun e => decide (e.deliveryTag ≤ t)) =
        l.filter (fun e => decide (e.deliveryTag ≤ t)) ∧
      l.drop (l.takeWhile fun e => decide (e.deliveryTag ≤ t)).length =
        l.filter (fun e => decide (t < e.deliveryTag)) := by
  induction l with
  | nil => simp
  | cons e rest ih =>
    rw [List.pairwise_cons] at hs
    obtain ⟨ih1, ih2⟩ := ih hs.2
    by_cases he : e.deliveryTag ≤ t
    · have hnot : ¬ t < e.deliveryTag := by omega
      constructor
      · simp [List.takeWhile_cons, List.filter_cons, he, ih1]
      · simp only [List.takeWhile_cons, he, decide_True, if_true, List.length_cons,
          List.drop_succ_cons, List.filter_cons, hnot, decide_False, Bool.false_eq_true,
          if_false]
        exact ih2
    · have hlt : t < e.deliveryTag := by omega
      have hall : ∀ b ∈ rest, ¬ b.deliveryTag ≤ t ∧ t < b.deliveryTag := by
        intro b hb
        have := hs.1 b hb
        omega
      have h1 : rest.filter (fun e => decide (e.deliveryTag ≤ t)) = [] := by
        rw [List.filter_eq_nil_iff]
        intro b hb
        simpa using (hall b hb).2
      have h2 : rest.filter (fun e => decide (t < e.deliveryTag)) = rest := by
        rw [List.filter_eq_self]
        intro b hb
        simpa using (hall b hb).2
      simp [List.takeWhile_cons, List.filter_cons, he, hlt, h1, h2]

/-- C19: for a channel whose inflight list is in increasing delivery-tag order and a
`basic.nack` with `multiple` set and tag `T`, when the runtime calls succeed and at least
one inflight entry has tag at most `T`, the handler returns no error, dispatches exactly
one runtime call for every inflight entry with delivery tag at most `T` (a nack when
`requeue` is set, an ack otherwise), in list order, which is tag order, and afterwards the
inflight list consists of exactly the entries with delivery tag above `T` in their
original order; the other fields of the channel are unchanged. -/
theorem C19_nack_multiple_dispatches_prefix {E : Type} (runtime : Nat → RuntimeCall → Option E)
    (ch : serverAMQPv0Channel) (frame : BasicNack)
    (hsorted : ch.inflight.Pairwise (fun a b => a.deliveryTag ≤ b.deliveryTag))
    (hmultiple : frame.Multiple = true)
    (hok : ∀ k c, runtime k c = none)
    (hsome : ∃ e ∈ ch.inflight, e.deliveryTag ≤ frame.DeliveryTag) :
    (handleAMQPv0BasicNack runtime ch frame).result = none ∧
    (handleAMQPv0BasicNack runtime ch frame).calls =
      (ch.inflight.filter fun e => decide (e.deliveryTag ≤ frame.DeliveryTag)).map
        (runtimeCallFor frame) ∧
    (handleAMQPv0BasicNack runtime ch frame).ch =
      { ch with
        inflight := ch.inflight.filter fun e => decide (frame.DeliveryTag < e.deliveryTag) } := by
  obtain ⟨h1, h2⟩ := takeWhile_eq_filter_of_sorted frame.DeliveryTag ch.inflight hsorted
  have hloop := basicNackLoop_ok runtime frame hok ch.inflight 0
  have hpos : (ch.inflight.takeWhile fun e => decide (e.deliveryTag ≤ frame.DeliveryTag)).length
      ≠ 0 := by
    obtain ⟨e, he, hle⟩ := hsome
    rw [h1]
    intro h0
    have hnil := List.length_eq_zero.1 h0
    rw [List.filter_eq_nil_iff] at hnil
    exact hnil e he (by simpa using hle)
  have hout : handleAMQPv0BasicNack runtime ch frame =
      { result := none,
        ch :=
          { ch with
            inflight :=
              List.drop
                (ch.inflight.takeWhile fun e => decide (e.deliveryTag ≤ frame.DeliveryTag)).length
                ch.inflight },
        calls :=
          List.map (runtimeCallFor frame)
            (ch.inflight.takeWhile fun e => decide (e.deliveryTag ≤ frame.DeliveryTag)) } := by
    simp only [handleAMQPv0BasicNack, hmultiple, if_true, hloop, Nat.zero_add, hpos, if_false]
  rw [hout]
  refine ⟨rfl, ?_, ?_⟩
  · show List.map _ _ = _
    rw [h1]
  · show ({ ch with inflight := _ } : serverAMQPv0Channel) = _
    rw [h2]

/-- C19 instance: inflight tags 1, 2, 3, 5 and a `basic.nack` with `multiple` and tag 3:
acks for 1, 2, 3 are dispatched and the entry with tag 5 remains. -/
theorem C19_nack_multiple_dispatches_prefix_witness :
    (handleAMQPv0BasicNack runtimeOk (channelWithTags [1, 2, 3, 5])
        { DeliveryTag := 3, Multiple := true }).result = none ∧
    (handleAMQPv0BasicNack runtimeOk (channelWithTags [1, 2, 3, 5])
        { DeliveryTag := 3, Multiple := true }).calls =
      [RuntimeCall.Ack 0 0 1, RuntimeCall.Ack 0 0 2, RuntimeCall.Ack 0 0 3] ∧
    (handleAMQPv0BasicNack runtimeOk (channelWithTags [1, 2, 3, 5])
        { DeliveryTag := 3, Multiple := true }).ch = channelWithTags [5] :=
  C19_nack_multiple_dispatches_prefix runtimeOk (channelWithTags [1, 2, 3, 5])
    { DeliveryTag := 3, Multiple := true } (by decide) rfl (fun _ _ => rfl)
    ⟨{ deliveryTag := 1, seqNo := 1 }, by decide, by decide⟩

/-- C20 (as stated, refuted): inflight tags `[1]` and a `basic.nack` with `multiple` set and
tag 2. The tag 2 is the tag of no inflight entry, yet the handler returns no error,
dispatches the ack for the entry with tag 1 and empties the inflight list. -/
theorem C20_counterexample :
    (∀ e ∈ (channelWithTags [1]).inflight, e.deliveryTag ≠ 2) ∧
    (handleAMQPv0BasicNack runtimeOk (channelWithTags [1])
        { DeliveryTag := 2, Multiple := true }).result = none ∧
    (handleAMQPv0BasicNack runtimeOk (channelWithTags [1])
        { DeliveryTag := 2, Multiple := true }).calls = [RuntimeCall.Ack 0 0 1] ∧
    (handleAMQPv0BasicNack runtimeOk (channelWithTags [1])
        { DeliveryTag := 2, Multiple := true }).ch.inflight = [] := by
  refine ⟨by decide, rfl, rfl, rfl⟩

/-- C20 (amended): when `multiple` is not set and the frame's delivery tag is the tag of no
inflight entry, or when `multiple` is set and no inflight entry has a delivery tag at most
the frame's tag, `handleAMQPv0BasicNack` returns a ChannelClose on the channel with reply
code PreconditionFailed (406), dispatches no ack or nack and leaves the channel, with its
inflight list, unchanged. -/
theorem C20_unknown_tag_precondition_failed {E : Type} (runtime : Nat → RuntimeCall → Option E)
    (ch : serverAMQPv0Channel) (frame : BasicNack)
    (h : (frame.Multiple = false ∧ ∀ e ∈ ch.inflight, e.deliveryTag ≠ frame.DeliveryTag) ∨
      (frame.Multiple = true ∧ ∀ e ∈ ch.inflight, frame.DeliveryTag < e.deliveryTag)) :
    (∃ text, (handleAMQPv0BasicNack runtime ch frame).result =
      some (HandlerError.channelClose { Channel := ch.id, ReplyCode := 406, ReplyText := text })) ∧
    (handleAMQPv0BasicNack runtime ch frame).calls = [] ∧
    (handleAMQPv0BasicNack runtime ch frame).ch = ch := by
  rcases h with ⟨hm, hno⟩ | ⟨hm, hno⟩
  · have hnone : findFirst (fun entry => decide (entry.deliveryTag = frame.DeliveryTag))
        ch.inflight = none :=
      findFirst_none_iff.2 (fun b hb => by simpa using hno b hb)
    have hout : handleAMQPv0BasicNack runtime ch frame =
        { result := some (.channelClose (makeChannelClose ch PreconditionFailed
            (deliveryTagDoesntExist frame.DeliveryTag))),
          ch := ch, calls := [] } := by
      simp only [handleAMQPv0BasicNack, hm, Bool.false_eq_true, if_false, hnone]
    rw [hout]
    exact ⟨⟨_, rfl⟩, rfl, rfl⟩
  · have hloop : basicNackLoop runtime frame 0 ch.inflight = ([], .ok 0) := by
      cases hl : ch.inflight with
      | nil => rfl
      | cons e rest =>
        have he : ¬ e.deliveryTag ≤ frame.DeliveryTag := by
          have := hno e (by rw [hl]; exact List.mem_cons_self _ _)
          omega
        simp [basicNackLoop, he]
    have hout : handleAMQPv0BasicNack runtime ch frame =
        { result := some (.channelClose (makeChannelClose ch PreconditionFailed
            (deliveryTagDoesntExist frame.DeliveryTag))),
          ch := ch, calls := [] } := by
      simp only [handleAMQPv0BasicNack, hm, if_true, hloop]
    rw [hout]
    exact ⟨⟨_, rfl⟩, rfl, rfl⟩

/-- C20 instance: inflight tags 1 and 2 and a `basic.nack` without `multiple` for tag 7. -/
theorem C20_unknown_tag_precondition_failed_witness :
    (∃ text, (handleAMQPv0BasicNack runtimeOk (channelWithTags [1, 2])
        { DeliveryTag := 7 }).result =
      some (HandlerError.channelClose { Channel := 1, ReplyCode := 406, ReplyText := text })) ∧
    (handleAMQPv0BasicNack runtimeOk (channelWithTags [1, 2]) { DeliveryTag := 7 }).calls = [] ∧
    (handleAMQPv0BasicNack runtimeOk (channelWithTags [1, 2]) { DeliveryTag := 7 }).ch =
      channelWithTags [1, 2] :=
  C20_unknown_tag_precondition_failed runtimeOk (channelWithTags [1, 2]) { DeliveryTag := 7 }
    (Or.inl ⟨rfl, by decide⟩)

/-! ## Leader-only operations -/

/-- C21: in the guard of every leader-only operation, a node that is not leader returns
not-a-leader, without forwarding, for a request with LeaderOnly set; for a request
without it, it returns no-leader-elected when no leader is known, and otherwise (the
leader being reachable) forwards the request with LeaderOnly set to true. Hence, whatever
the cluster, a request is forwarded at most once, two hops always suffice, and a
non-leader that receives a forwarded request answers not-a-leader. -/
theorem C21_leader_only_guard {E : Type} (raftNode : RaftNode) (dial : GoString → Option E)
    (hnot : raftNode.isLeader = false) :
    leaderGuard raftNode dial true = LeaderGuard.fail LeaderGuardError.errNotALeader ∧
    (raftNode.leader = [] →
      leaderGuard raftNode dial false = LeaderGuard.fail LeaderGuardError.errNoLeaderElected) ∧
    (raftNode.leader ≠ [] → dial raftNode.leader = none →
      leaderGuard raftNode dial false = LeaderGuard.forward raftNode.leader true) ∧
    (∀ leaderOnly leader flag,
      leaderGuard raftNode dial leaderOnly = LeaderGuard.forward leader flag →
        leaderOnly = false ∧ flag = true) ∧
    (∀ (cluster : GoString → RaftNode) (dial2 : GoString → GoString → Option E)
        (fuel : Nat) (address : GoString) (leaderOnly : Bool),
      (serveLeaderOnly cluster dial2 (fuel + 2) address leaderOnly).1.length ≤ 1 ∧
      (serveLeaderOnly cluster dial2 (fuel + 2) address leaderOnly).2 ≠
        LeaderOnlyResult.outOfFuel ∧
      (∀ next, (serveLeaderOnly cluster dial2 (fuel + 2) address leaderOnly).1 = [next] →
        (cluster next).isLeader = false →
        (serveLeaderOnly cluster dial2 (fuel + 2) address leaderOnly).2 =
          LeaderOnlyResult.failed LeaderGuardError.errNotALeader)) := by
  refine ⟨?_, ?_, ?_, ?_, ?_⟩
  · simp [leaderGuard, hnot]
  · intro hl
    simp [leaderGuard, hnot, hl]
  · intro hl hd
    simp [leaderGuard, hnot, hl, hd]
  · intro leaderOnly leader flag h
    unfold leaderGuard at h
    simp only [hnot, Bool.not_false, if_true] at h
    cases leaderOnly with
    | true => simp at h
    | false =>
      simp only [Bool.false_eq_true, if_false] at h
      split at h
      · cases h
      · split at h
        · cases h
        · cases h
          exact ⟨rfl, rfl⟩
  · intro cluster dial2 fuel address leaderOnly
    have hsecond : ∀ a : GoString,
        serveLeaderOnly cluster dial2 (fuel + 1) a true =
          ([], if (cluster a).isLeader then LeaderOnlyResult.servedAt a
               else LeaderOnlyResult.failed LeaderGuardError.errNotALeader) := by
      intro a
      cases hl : (cluster a).isLeader <;> simp [serveLeaderOnly, leaderGuard, hl]
    have hflag : ∀ leader flag,
        leaderGuard (cluster address) (dial2 address) leaderOnly =
          LeaderGuard.forward leader flag → flag = true := by
      intro leader flag h
      unfold leaderGuard at h
      split at h
      · split at h
        · cases h
        · split at h
          · cases h
          · split at h
            · cases h
            · cases h
              rfl
      · cases h
    have hstep : serveLeaderOnly cluster dial2 (fuel + 2) address leaderOnly =
        match leaderGuard (cluster address) (dial2 address) leaderOnly with
        | .proceed => ([], LeaderOnlyResult.servedAt address)
        | .fail err => ([], LeaderOnlyResult.failed err)
        | .forward leader leaderOnly' =>
          (leader :: (serveLeaderOnly cluster dial2 (fuel + 1) leader leaderOnly').1,
            (serveLeaderOnly cluster dial2 (fuel + 1) leader leaderOnly').2) := rfl
    rw [hstep]
    cases hg : leaderGuard (cluster address) (dial2 address) leaderOnly with
    | proceed => simp
    | fail err => simp
    | forward leader flag =>
      have hf := hflag leader flag hg
      subst hf
      simp only [hsecond]
      refine ⟨by simp, ?_, ?_⟩
      · split <;> simp
      · intro next hnext hnl
        simp only [List.cons.injEq, and_true] at hnext
        subst hnext
        simp [hnl]

/-- C21 instance: two followers that each name the other as leader. A request sent to
`a` is forwarded once, to `b`, which answers not-a-leader. -/
theorem C21_leader_only_guard_witness :
    (twoFollowers "a".toList).isLeader = false ∧
    serveLeaderOnly twoFollowers dialOk 5 "a".toList false =
      (["b".toList], LeaderOnlyResult.failed LeaderGuardError.errNotALeader) := by
  have h := (C21_leader_only_guard (twoFollowers "a".toList) (dialOk "a".toList) rfl).2.2.2.2
    twoFollowers dialOk 3 "a".toList false
  refine ⟨rfl, ?_⟩
  have hhops : (serveLeaderOnly twoFollowers dialOk 5 "a".toList false).1 = ["b".toList] := by
    decide
  exact Prod.ext hhops (h.2.2 _ hhops (by decide))

/-! ## Primary-node selection -/

theorem selectPrimaryLoop_spec (counts : Nat → Int) (nodes : List ClusterNode) :
    ∀ acc : Nat × Int,
      (selectPrimaryLoop counts nodes acc = acc ∧
        ∀ m ∈ nodes, m.State = ClusterNode_State.ALIVE → acc.2 ≤ counts m.ID) ∨
      (∃ pre n post, nodes = pre ++ n :: post ∧ n.State = ClusterNode_State.ALIVE ∧
        selectPrimaryLoop counts nodes acc = (n.ID, counts n.ID) ∧ counts n.ID < acc.2 ∧
        (∀ m ∈ pre, m.State = ClusterNode_State.ALIVE → counts n.ID < counts m.ID) ∧
        (∀ m ∈ post, m.State = ClusterNode_State.ALIVE → counts n.ID ≤ counts m.ID)) := by
  induction nodes with
  | nil =>
    intro acc
    exact Or.inl ⟨rfl, fun m hm => absurd hm (List.not_mem_nil m)⟩
  | cons x rest ih =>
    intro acc
    obtain ⟨id0, c0⟩ := acc
    by_cases hsel : x.State = ClusterNode_State.ALIVE ∧ counts x.ID < c0
    · have hstep : selectPrimaryLoop counts (x :: rest) (id0, c0) =
          selectPrimaryLoop counts rest (x.ID, counts x.ID) := by
        simp only [selectPrimaryLoop, hsel, and_self, if_true]
      rw [hstep]
      rcases ih (x.ID, counts x.ID) with ⟨heq, hall⟩ | ⟨pre, n, post, hsplit, hal, heq, hlt, hpre, hpost⟩
      · exact Or.inr ⟨[], x, rest, rfl, hsel.1, heq, hsel.2,
          fun m hm => absurd hm (List.not_mem_nil m), hall⟩
      · refine Or.inr ⟨x :: pre, n, post, by rw [hsplit]; rfl, hal, heq, ?_, ?_, hpost⟩
        · exact lt_trans hlt hsel.2
        · intro m hm hma
          rcases List.mem_cons.1 hm with rfl | hm
          · exact hlt
          · exact hpre m hm hma
    · have hstep : selectPrimaryLoop counts (x :: rest) (id0, c0) =
          selectPrimaryLoop counts rest (id0, c0) := by
        simp only [selectPrimaryLoop, hsel, if_false]
      have hx : x.State = ClusterNode_State.ALIVE → c0 ≤ counts x.ID := by
        intro ha
        exact not_lt.1 (fun hlt => hsel ⟨ha, hlt⟩)
      rw [hstep]
      rcases ih (id0, c0) with ⟨heq, hall⟩ | ⟨pre, n, post, hsplit, hal, heq, hlt, hpre, hpost⟩
      · refine Or.inl ⟨heq, fun m hm hma => ?_⟩
        rcases List.mem_cons.1 hm with rfl | hm
        · exact hx hma
        · exact hall m hm hma
      · refine Or.inr ⟨x :: pre, n, post, by rw [hsplit]; rfl, hal, heq, hlt, ?_, hpost⟩
        intro m hm hma
        rcases List.mem_cons.1 hm with rfl | hm
        · exact lt_of_lt_of_le hlt (hx hma)
        · exact hpre m hm hma

theorem offsetSegmentStep_open (openSegments : List ClusterSegment) (counts : Nat → Int)
    (nodes : List ClusterNode) (p : Nat)
    (h : offsetSegmentStep openSegments counts nodes = OffsetSegmentStep.txSegmentOpen p) :
    ∃ pre n post, nodes = pre ++ n :: post ∧ n.ID = p ∧ n.State = ClusterNode_State.ALIVE ∧
      (∀ m ∈ pre, m.State = ClusterNode_State.ALIVE → counts p < counts m.ID) ∧
      (∀ m ∈ post, m.State = ClusterNode_State.ALIVE → counts p ≤ counts m.ID) := by
  unfold offsetSegmentStep at h
  split at h
  · dsimp only at h
    split at h
    · rename_i hpos
      cases h
      rcases selectPrimaryLoop_spec counts nodes (0, MaxInt32) with
        ⟨heq, _⟩ | ⟨pre, n, post, hsplit, hal, heq, _, hpre, hpost⟩
      · rw [heq] at hpos
        exact absurd hpos (by decide)
      · rw [heq]
        exact ⟨pre, n, post, hsplit, rfl, hal, hpre, hpost⟩
    · cases h
  · split at h <;> cases h

/-- C22: when `CreateConsumerGroup` finds no open offset-commit segment for the group, the
primary node it selects is ALIVE and no ALIVE node of the state has strictly fewer
segments than it; when no node is ALIVE no primary is selected and no segment is opened. -/
theorem C22_primary_is_alive_with_fewest_segments (openSegments : List ClusterSegment)
    (counts : Nat → Int) (nodes : List ClusterNode) (hnone : openSegments = []) :
    (∀ p, offsetSegmentStep openSegments counts nodes = OffsetSegmentStep.txSegmentOpen p →
      (∃ n ∈ nodes, n.ID = p ∧ n.State = ClusterNode_State.ALIVE) ∧
      ∀ m ∈ nodes, m.State = ClusterNode_State.ALIVE → ¬ counts m.ID < counts p) ∧
    ((∀ n ∈ nodes, n.State ≠ ClusterNode_State.ALIVE) →
      offsetSegmentStep openSegments counts nodes = OffsetSegmentStep.nothing) := by
  constructor
  · intro p hp
    obtain ⟨pre, n, post, hsplit, hid, hal, hpre, hpost⟩ :=
      offsetSegmentStep_open openSegments counts nodes p hp
    refine ⟨⟨n, by rw [hsplit]; simp, hid, hal⟩, fun m hm hma => ?_⟩
    rw [hsplit] at hm
    simp only [List.mem_append, List.mem_cons] at hm
    rcases hm with hm | rfl | hm
    · exact not_lt.2 (le_of_lt (hpre m hm hma))
    · rw [hid]
      exact lt_irrefl _
    · exact not_lt.2 (hpost m hm hma)
  · intro hdead
    cases hs : offsetSegmentStep openSegments counts nodes with
    | nothing => rfl
    | txSegmentOpen p =>
      obtain ⟨pre, n, post, hsplit, _, hal, _⟩ :=
        offsetSegmentStep_open openSegments counts nodes p hs
      exact absurd hal (hdead n (by rw [hsplit]; simp))
    | panic =>
      subst hnone
      simp [offsetSegmentStep] at hs
      split at hs <;> cases hs

/-- C22 instance: nodes 1 (DEAD, no segment), 2 (ALIVE, 3 segments), 3 (ALIVE, 1 segment):
node 3 is selected. -/
theorem C22_primary_is_alive_with_fewest_segments_witness :
    offsetSegmentStep [] (fun id => if id = 2 then 3 else if id = 3 then 1 else 0)
        [⟨1, [], ClusterNode_State.DEAD⟩, ⟨2, [], ClusterNode_State.ALIVE⟩,
         ⟨3, [], ClusterNode_State.ALIVE⟩] = OffsetSegmentStep.txSegmentOpen 3 ∧
      ∃ n ∈ [(⟨1, [], ClusterNode_State.DEAD⟩ : ClusterNode), ⟨2, [], ClusterNode_State.ALIVE⟩,
          ⟨3, [], ClusterNode_State.ALIVE⟩], n.ID = 3 ∧ n.State = ClusterNode_State.ALIVE :=
  ⟨by decide,
    ((C22_primary_is_alive_with_fewest_segments []
      (fun id => if id = 2 then 3 else if id = 3 then 1 else 0)
      [⟨1, [], ClusterNode_State.DEAD⟩, ⟨2, [], ClusterNode_State.ALIVE⟩,
       ⟨3, [], ClusterNode_State.ALIVE⟩] rfl).1 3 (by decide)).1⟩

/-- C23 (as stated, refuted): with the ALIVE nodes 2 and 1 listed in this order and no
segments on either, the node selected is 2, although node 1 shares the fewest segments and
has the smaller id. -/
theorem C23_counterexample :
    offsetSegmentStep [] noSegments
        [⟨2, [], ClusterNode_State.ALIVE⟩, ⟨1, [], ClusterNode_State.ALIVE⟩] =
      OffsetSegmentStep.txSegmentOpen 2 := by
  decide

/-- C23 (amended): ties are broken by position in `state.Nodes`: the node selected is the
first in list order among the ALIVE nodes with the fewest segments (every ALIVE node
before it has strictly more segments, every ALIVE node after it at least as many); so when
the nodes are listed in increasing id order, it is the one with the smallest node id among
the ALIVE nodes that share the fewest segments. -/
theorem C23_ties_broken_by_list_order (openSegments : List ClusterSegment)
    (counts : Nat → Int) (nodes : List ClusterNode) (p : Nat)
    (h : offsetSegmentStep openSegments counts nodes = OffsetSegmentStep.txSegmentOpen p) :
    (∃ pre n post, nodes = pre ++ n :: post ∧ n.ID = p ∧ n.State = ClusterNode_State.ALIVE ∧
      (∀ m ∈ pre, m.State = ClusterNode_State.ALIVE → counts p < counts m.ID) ∧
      (∀ m ∈ post, m.State = ClusterNode_State.ALIVE → counts p ≤ counts m.ID)) ∧
    (nodes.Pairwise (fun a b => a.ID < b.ID) →
      ∀ m ∈ nodes, m.State = ClusterNode_State.ALIVE → counts m.ID = counts p → p ≤ m.ID) := by
  obtain ⟨pre, n, post, hsplit, hid, hal, hpre, hpost⟩ :=
    offsetSegmentStep_open openSegments counts nodes p h
  refine ⟨⟨pre, n, post, hsplit, hid, hal, hpre, hpost⟩, fun hsorted m hm hma hcount => ?_⟩
  rw [hsplit] at hm hsorted
  simp only [List.mem_append, List.mem_cons] at hm
  rcases hm with hm | rfl | hm
  · exact absurd hcount (ne_of_gt (hpre m hm hma))
  · exact le_of_eq hid.symm
  · have hlt : n.ID < m.ID :=
      List.rel_of_pairwise_cons (List.pairwise_append.1 hsorted).2.1 hm
    rw [← hid]
    exact le_of_lt hlt

/-- C23 instance: ALIVE nodes 1 and 2 in id order, no segments: node 1 is selected. -/
theorem C23_ties_broken_by_list_order_witness :
    offsetSegmentStep [] noSegments
        [⟨1, [], ClusterNode_State.ALIVE⟩, ⟨2, [], ClusterNode_State.ALIVE⟩] =
      OffsetSegmentStep.txSegmentOpen 1 ∧
    (1 : Nat) ≤ (⟨2, [], ClusterNode_State.ALIVE⟩ : ClusterNode).ID :=
  ⟨by decide,
    (C23_ties_broken_by_list_order [] noSegments
      [⟨1, [], ClusterNode_State.ALIVE⟩, ⟨2, [], ClusterNode_State.ALIVE⟩] 1 (by decide)).2
      (by decide) ⟨2, [], ClusterNode_State.ALIVE⟩ (by decide) rfl rfl⟩

/-! ## Opening a segment -/

theorem GetTopic_doOpenSegment {V : Type} (s : ClusterState V) (cmd : OpenSegmentCommand)
    (namespaceName name : GoString) :
    (s.doOpenSegment cmd).GetTopic namespaceName name = s.GetTopic namespaceName name := rfl

theorem FindOpenSegmentsFor_doOpenSegment {V : Type} (s : ClusterState V)
    (cmd : OpenSegmentCommand) (topicName : NamespaceName) :
    (s.doOpenSegment cmd).FindOpenSegmentsFor topicName.Namespace topicName.Name =
      s.FindOpenSegmentsFor topicName.Namespace topicName.Name ++
        if cmd.Topic = topicName then
          [{ ID := cmd.ID, Topic := cmd.Topic, FirstMessageID := cmd.FirstMessageID,
             Nodes := { PrimaryNodeID := cmd.PrimaryNodeID } }]
        else [] := by
  obtain ⟨ns, nm⟩ := topicName
  obtain ⟨id, ⟨cns, cnm⟩, fm, pn⟩ := cmd
  simp only [ClusterState.FindOpenSegmentsFor, ClusterState.doOpenSegment, List.filter_append,
    NamespaceName.mk.injEq]
  congr 1
  by_cases h : cns = ns ∧ cnm = nm
  · simp [List.filter, h]
  · simp [List.filter, h]

theorem doOpenSegment_result_cases {V E : Type} (clusterState : ClusterStateStore V)
    (intn : Nat → Nat) (marshal apply : OpenSegmentCommand → Option E) (state : ClusterState V)
    (nodeID : Nat) (topicName : NamespaceName) (firstMessageID : List Nat) (topic : ClusterTopic)
    (htopic : state.GetTopic topicName.Namespace topicName.Name = some topic)
    (hfind : (state.FindOpenSegmentsFor topicName.Namespace topicName.Name).find?
      (fun segment => decide (segment.Nodes.PrimaryNodeID = nodeID)) = none)
    (hfull : ¬ (topic.Shards > 0 ∧
      (state.FindOpenSegmentsFor topicName.Namespace topicName.Name).length % 2 ^ 32
        ≥ topic.Shards)) :
    Server.doOpenSegment clusterState intn marshal apply state nodeID topicName firstMessageID =
      let next := clusterState.NextSegmentID
      let cmd : OpenSegmentCommand :=
        { ID := next.2, Topic := topicName, FirstMessageID := firstMessageID,
          PrimaryNodeID := nodeID }
      match marshal cmd with
      | some err => { result := .failed err, clusterState := next.1, applyCalls := [] }
      | none =>
        match apply cmd with
        | some err => { result := .failed err, clusterState := next.1, applyCalls := [cmd] }
        | none =>
          { result := .ok { SegmentID := next.2, PrimaryNodeID := nodeID },
            clusterState := next.1, applyCalls := [cmd] } := by
  simp only [Server.doOpenSegment, htopic, hfind, if_neg hfull]

/-- While the number of a topic's open segments fits in 32 bits, `doOpenSegment` keeps the
contract of its comments: for an existing topic it returns the topic's open segment whose
primary is the requesting node when there is one, touching neither the segment counter nor
the log; otherwise, when the shard count `N` is non-zero and the topic has at least `N`
open segments, it returns one of the topic's open segments with that segment's primary,
again without side effect; it takes a new segment id and hands an open command to the log
only when neither holds, and then the command carries the new id, the topic, the first
message id and the requesting node. Hence a state that has, for every topic, at most one
open segment per primary node and at most `N` open segments keeps both bounds after the
command is applied. -/
theorem doOpenSegment_contract_of_lt {V E : Type} (clusterState : ClusterStateStore V)
    (intn : Nat → Nat) (marshal apply : OpenSegmentCommand → Option E) (state : ClusterState V)
    (nodeID : Nat) (topicName : NamespaceName) (firstMessageID : List Nat) (topic : ClusterTopic)
    (htopic : state.GetTopic topicName.Namespace topicName.Name = some topic)
    (hlength : (state.FindOpenSegmentsFor topicName.Namespace topicName.Name).length < 2 ^ 32)
    (hintn : ∀ n, 0 < n → intn n < n) :
    let openSegments := state.FindOpenSegmentsFor topicName.Namespace topicName.Name
    let out : OpenSegmentOutcome V E :=
      Server.doOpenSegment clusterState intn marshal apply state nodeID topicName firstMessageID
    let own := ∃ segment ∈ openSegments, segment.Nodes.PrimaryNodeID = nodeID
    let full := topic.Shards ≠ 0 ∧ topic.Shards ≤ openSegments.length
    let cmd : OpenSegmentCommand :=
      { ID := clusterState.NextSegmentID.2, Topic := topicName,
        FirstMessageID := firstMessageID, PrimaryNodeID := nodeID }
    (own → ∃ segment ∈ openSegments, segment.Nodes.PrimaryNodeID = nodeID ∧
        out.result = .ok { SegmentID := segment.ID, PrimaryNodeID := nodeID } ∧
        out.applyCalls = [] ∧ out.clusterState = clusterState) ∧
    (¬ own → full → ∃ segment ∈ openSegments,
        out.result = .ok { SegmentID := segment.ID,
                           PrimaryNodeID := segment.Nodes.PrimaryNodeID } ∧
        out.applyCalls = [] ∧ out.clusterState = clusterState) ∧
    (¬ own → ¬ full →
        out.clusterState = clusterState.NextSegmentID.1 ∧
        (marshal cmd = none → out.applyCalls = [cmd]) ∧
        (marshal cmd = none → apply cmd = none →
          out.result = .ok { SegmentID := cmd.ID, PrimaryNodeID := nodeID })) ∧
    (∀ c ∈ out.applyCalls, ¬ own ∧ ¬ full ∧ c = cmd) ∧
    (segmentBounds state → ∀ c ∈ out.applyCalls, segmentBounds (state.doOpenSegment c)) := by
  intro openSegments out own full cmd
  have hopen : openSegments = state.FindOpenSegmentsFor topicName.Namespace topicName.Name := rfl
  have hmod : openSegments.length % 2 ^ 32 = openSegments.length := Nat.mod_eq_of_lt hlength
  have hfullIff : full ↔ (topic.Shards > 0 ∧ openSegments.length % 2 ^ 32 ≥ topic.Shards) := by
    simp only [full, Nat.pos_iff_ne_zero, ge_iff_le, hmod]
  -- the three branches of the function
  have hbranch :
      (own ∧ ∃ segment ∈ openSegments, segment.Nodes.PrimaryNodeID = nodeID ∧
        out = { result := .ok { SegmentID := segment.ID, PrimaryNodeID := nodeID },
                clusterState := clusterState, applyCalls := [] }) ∨
      (¬ own ∧ full ∧ ∃ segment ∈ openSegments,
        out = { result := .ok { SegmentID := segment.ID,
                                PrimaryNodeID := segment.Nodes.PrimaryNodeID },
                clusterState := clusterState, applyCalls := [] }) ∨
      (¬ own ∧ ¬ full ∧
        out = match marshal cmd with
          | some err =>
            { result := .failed err, clusterState := clusterState.NextSegmentID.1,
              applyCalls := [] }
          | none =>
            match apply cmd with
            | some err =>
              { result := .failed err, clusterState := clusterState.NextSegmentID.1,
                applyCalls := [cmd] }
            | none =>
              { result := .ok { SegmentID := clusterState.NextSegmentID.2,
                                PrimaryNodeID := nodeID },
                clusterState := clusterState.NextSegmentID.1, applyCalls := [cmd] }) := by
    cases hfind : openSegments.find?
        (fun segment => decide (segment.Nodes.PrimaryNodeID = nodeID)) with
    | some segment =>
      have hmem : segment ∈ openSegments := List.mem_of_find?_eq_some hfind
      have hprim : segment.Nodes.PrimaryNodeID = nodeID := by
        simpa using List.find?_some hfind
      refine Or.inl ⟨⟨segment, hmem, hprim⟩, segment, hmem, hprim, ?_⟩
      rw [hopen] at hfind
      simp only [out, Server.doOpenSegment, htopic, hfind]
    | none =>
      have hnown : ¬ own := by
        rintro ⟨segment, hmem, hprim⟩
        have := List.find?_eq_none.1 hfind segment hmem
        simp [hprim] at this
      rw [hopen] at hfind
      by_cases hfull : full
      · have hcond := hfullIff.1 hfull
        have hlen : 0 < openSegments.length := by
          rcases Nat.eq_zero_or_pos openSegments.length with h0 | hpos
          · rw [h0] at hcond
            simp at hcond
            omega
          · exact hpos
        have hidx := hintn _ hlen
        refine Or.inr (Or.inl ⟨hnown, hfull, openSegments[intn openSegments.length], ?_, ?_⟩)
        · exact List.getElem_mem _
        · rw [hopen] at hcond
          have hget : (state.FindOpenSegmentsFor topicName.Namespace topicName.Name)[
              intn (state.FindOpenSegmentsFor topicName.Namespace topicName.Name).length]? =
              some openSegments[intn openSegments.length] :=
            List.getElem?_eq_getElem hidx
          simp only [out, Server.doOpenSegment, htopic, hfind, if_pos hcond, hget]
      · have hcond : ¬ (topic.Shards > 0 ∧
            (state.FindOpenSegmentsFor topicName.Namespace topicName.Name).length % 2 ^ 32
              ≥ topic.Shards) := fun h => hfull (hfullIff.2 h)
        refine Or.inr (Or.inr ⟨hnown, hfull, ?_⟩)
        exact doOpenSegment_result_cases clusterState intn marshal apply state nodeID topicName
          firstMessageID topic htopic hfind hcond
  -- the commands handed to the log
  have hcalls : ∀ c ∈ out.applyCalls, ¬ own ∧ ¬ full ∧ c = cmd := by
    intro c hc
    rcases hbranch with ⟨_, _, _, _, hout⟩ | ⟨_, _, _, _, hout⟩ | ⟨hnown, hnfull, hout⟩
    · rw [hout] at hc; cases hc
    · rw [hout] at hc; cases hc
    · refine ⟨hnown, hnfull, ?_⟩
      rw [hout] at hc
      cases hm : marshal cmd with
      | some err => rw [hm] at hc; cases hc
      | none =>
        rw [hm] at hc
        cases ha : apply cmd with
        | some err => rw [ha] at hc; simpa using hc
        | none => rw [ha] at hc; simpa using hc
  refine ⟨?_, ?_, ?_, hcalls, ?_⟩
  · intro hown
    rcases hbranch with ⟨_, segment, hmem, hprim, hout⟩ | ⟨hnown, _⟩ | ⟨hnown, _⟩
    · exact ⟨segment, hmem, hprim, by rw [hout], by rw [hout], by rw [hout]⟩
    · exact absurd hown hnown
    · exact absurd hown hnown
  · intro hnown hfull
    rcases hbranch with ⟨hown, _⟩ | ⟨_, _, segment, hmem, hout⟩ | ⟨_, hnfull, _⟩
    · exact absurd hown hnown
    · exact ⟨segment, hmem, by rw [hout], by rw [hout], by rw [hout]⟩
    · exact absurd hfull hnfull
  · intro hnown hnfull
    rcases hbranch with ⟨hown, _⟩ | ⟨_, hfull, _⟩ | ⟨_, _, hout⟩
    · exact absurd hown hnown
    · exact absurd hfull hnfull
    · refine ⟨?_, ?_, ?_⟩
      · rw [hout]
        cases marshal cmd with
        | some err => rfl
        | none => cases apply cmd <;> rfl
      · intro hm
        rw [hout, hm]
        cases apply cmd <;> rfl
      · intro hm ha
        rw [hout, hm, ha]
  · intro hbounds c hc
    obtain ⟨hnown, hnfull, rfl⟩ := hcalls c hc
    intro other
    have hsegs := FindOpenSegmentsFor_doOpenSegment state cmd other
    by_cases hother : topicName = other
    · subst hother
      have hsegs2 : (state.doOpenSegment cmd).FindOpenSegmentsFor topicName.Namespace
          topicName.Name = openSegments ++
            [{ ID := cmd.ID, Topic := cmd.Topic, FirstMessageID := cmd.FirstMessageID,
               Nodes := { PrimaryNodeID := cmd.PrimaryNodeID } }] := by
        rw [hsegs]; simp [cmd, hopen]
      obtain ⟨hnodup, hcount⟩ := hbounds topicName
      constructor
      · simp only [ClusterState.openPrimaries, hsegs2, List.map_append, List.map_cons,
          List.map_nil]
        rw [List.nodup_append]
        refine ⟨hnodup, List.nodup_singleton _, ?_⟩
        intro a ha hb
        rw [List.mem_singleton] at hb
        subst hb
        obtain ⟨segment, hmem, hprim⟩ := List.mem_map.1 ha
        exact hnown ⟨segment, hmem, hprim⟩
      · intro topic2 htopic2 hne
        rw [GetTopic_doOpenSegment, htopic] at htopic2
        cases htopic2
        rw [hsegs2, List.length_append, List.length_singleton]
        have hle := hcount topic htopic hne
        have : ¬ topic.Shards ≤ openSegments.length := fun h => hnfull ⟨hne, h⟩
        omega
    · have hsegs2 : (state.doOpenSegment cmd).FindOpenSegmentsFor other.Namespace other.Name =
          state.FindOpenSegmentsFor other.Namespace other.Name := by
        rw [hsegs]; simp [cmd, hother]
      obtain ⟨hnodup, hcount⟩ := hbounds other
      constructor
      · simpa only [ClusterState.openPrimaries, hsegs2] using hnodup
      · intro topic2 htopic2 hne
        rw [GetTopic_doOpenSegment] at htopic2
        rw [hsegs2]
        exact hcount topic2 htopic2 hne

/-- Topic `n/t` with two shards and one open segment on node 1; node 2 asks, and a second
segment is opened within the bounds. -/
theorem doOpenSegment_contract_of_lt_example :
    (stateNT 2 [segmentNT 1 1]).GetTopic topicNT.Namespace topicNT.Name =
        some { Name := "t".toList, Type_ := .DIRECT, Shards := 2 } ∧
      ((stateNT 2 [segmentNT 1 1]).FindOpenSegmentsFor topicNT.Namespace topicNT.Name).length
        < 2 ^ 32 ∧ (∀ n, 0 < n → intnZero n < n) ∧
      (Server.doOpenSegment (storeWithCounter 5) intnZero noError noError
        (stateNT 2 [segmentNT 1 1]) 2 topicNT []).applyCalls =
          [{ ID := 6, Topic := topicNT, FirstMessageID := [], PrimaryNodeID := 2 }] ∧
      (segmentBounds (stateNT 2 [segmentNT 1 1]) → ∀ c ∈
        (Server.doOpenSegment (storeWithCounter 5) intnZero noError noError
          (stateNT 2 [segmentNT 1 1]) 2 topicNT []).applyCalls,
        segmentBounds ((stateNT 2 [segmentNT 1 1]).doOpenSegment c)) :=
  ⟨rfl, by decide, fun _ h => h, by decide,
   (doOpenSegment_contract_of_lt (storeWithCounter 5) intnZero noError noError
      (stateNT 2 [segmentNT 1 1]) 2 topicNT []
      { Name := "t".toList, Type_ := .DIRECT, Shards := 2 }
      rfl (by decide) (fun _ h => h)).2.2.2.2⟩

/-- C24 fails on the code: the shard test compares `uint32(len(openSegments))`, the count
truncated to 32 bits, with the shard count. Topic `n/t` has shard count 1 and `2 ^ 32`
open segments, all on node 1, so it has at least as many open segments as shards; for
node 2 the truncated count is 0, so none of the existing segments is returned, a new
segment id is taken and an open command is handed to the log. -/
theorem C24_truncated_count_opens_segment :
    (stateNT 1 (List.replicate (2 ^ 32) (segmentNT 1 1))).GetTopic topicNT.Namespace
        topicNT.Name = some { Name := "t".toList, Type_ := .DIRECT, Shards := 1 } ∧
      1 ≤ ((stateNT 1 (List.replicate (2 ^ 32) (segmentNT 1 1))).FindOpenSegmentsFor
        topicNT.Namespace topicNT.Name).length ∧
      (∀ segment ∈ (stateNT 1 (List.replicate (2 ^ 32) (segmentNT 1 1))).FindOpenSegmentsFor
        topicNT.Namespace topicNT.Name, segment.Nodes.PrimaryNodeID ≠ 2) ∧
      (Server.doOpenSegment (storeWithCounter 5) intnZero noError noError
        (stateNT 1 (List.replicate (2 ^ 32) (segmentNT 1 1))) 2 topicNT []).result =
          .ok { SegmentID := 6, PrimaryNodeID := 2 } ∧
      (¬ ∃ segment ∈ (stateNT 1 (List.replicate (2 ^ 32) (segmentNT 1 1))).FindOpenSegmentsFor
          topicNT.Namespace topicNT.Name,
        (Server.doOpenSegment (storeWithCounter 5) intnZero noError noError
          (stateNT 1 (List.replicate (2 ^ 32) (segmentNT 1 1))) 2 topicNT []).result =
            (.ok { SegmentID := segment.ID, PrimaryNodeID := segment.Nodes.PrimaryNodeID } :
              OpenSegmentResult Unit)) ∧
      (Server.doOpenSegment (storeWithCounter 5) intnZero noError noError
        (stateNT 1 (List.replicate (2 ^ 32) (segmentNT 1 1))) 2 topicNT []).applyCalls =
          [{ ID := 6, Topic := topicNT, FirstMessageID := [], PrimaryNodeID := 2 }] := by
  have htopic : (stateNT 1 (List.replicate (2 ^ 32) (segmentNT 1 1))).GetTopic
      topicNT.Namespace topicNT.Name =
        some { Name := "t".toList, Type_ := .DIRECT, Shards := 1 } := rfl
  have hsegs : (stateNT 1 (List.replicate (2 ^ 32) (segmentNT 1 1))).FindOpenSegmentsFor
      topicNT.Namespace topicNT.Name = List.replicate (2 ^ 32) (segmentNT 1 1) := by
    simp only [ClusterState.FindOpenSegmentsFor, stateNT]
    exact List.filter_replicate_of_pos (by decide)
  have hfind : (List.replicate (2 ^ 32) (segmentNT 1 1)).find?
      (fun segment => decide (segment.Nodes.PrimaryNodeID = 2)) = none :=
    List.find?_replicate_of_neg (by decide)
  have hfull : ¬ ((1 : Nat) > 0 ∧ (List.replicate (2 ^ 32) (segmentNT 1 1)).length % 2 ^ 32
      ≥ 1) := by
    rw [List.length_replicate, Nat.mod_self]
    decide
  have hout := doOpenSegment_result_cases (E := Unit) (storeWithCounter 5) intnZero noError
    noError (stateNT 1 (List.replicate (2 ^ 32) (segmentNT 1 1))) 2 topicNT []
    { Name := "t".toList, Type_ := .DIRECT, Shards := 1 } htopic (by rw [hsegs]; exact hfind)
    (by rw [hsegs]; exact hfull)
  refine ⟨htopic, ?_, ?_, ?_, ?_, ?_⟩
  · rw [hsegs, List.length_replicate]
    exact Nat.one_le_two_pow
  · rw [hsegs]
    intro segment hmem
    rw [List.eq_of_mem_replicate hmem]
    decide
  · rw [hout]; rfl
  · rw [hsegs, hout]
    rintro ⟨segment, hmem, heq⟩
    rw [List.eq_of_mem_replicate hmem] at heq
    revert heq
    decide
  · rw [hout]; rfl

/-! ## Rotating a segment -/

/-- C25: when `SegmentRotate` closes an open segment (the transaction is held, the segment
named by the request is open and the requesting node is its primary), the one command it
hands to the log carries the old segment's id, the request's size and hash, and
`ClosedAt = max(now, OpenedAt)`, which is never earlier than `OpenedAt`, whatever the
clock reads; in every other case no close command is handed to the log. -/
theorem C25_close_time_not_before_open {V E : Type} (beginTransaction : Option E)
    (clusterState : ClusterStateStore V) (now : Time)
    (apply : ClusterStateStore V → CloseSegmentCommand → Except E (ClusterStateStore V))
    (barrier : Option E)
    (txOpenSegment : ClusterStateStore V → ClusterState V → Nat → NamespaceName →
      OpenSegmentOutcome V E)
    (request : SegmentRotateRequest) :
    let out := Server.SegmentRotate beginTransaction clusterState now apply barrier
      txOpenSegment request
    (∀ oldSegment, beginTransaction = none →
        clusterState.Current.GetOpenSegment request.OldSegmentID = some oldSegment →
        oldSegment.Nodes.PrimaryNodeID = request.NodeID →
        out.applyCalls =
          [{ ID := oldSegment.ID, DoneNodeID := request.NodeID,
             ClosedAt := max now oldSegment.OpenedAt,
             Size_ := request.OldSize, Sha1 := request.OldSha1 }]) ∧
    (∀ cmd ∈ out.applyCalls, ∃ oldSegment,
        clusterState.Current.GetOpenSegment request.OldSegmentID = some oldSegment ∧
        cmd.ID = oldSegment.ID ∧ cmd.Size_ = request.OldSize ∧ cmd.Sha1 = request.OldSha1 ∧
        cmd.ClosedAt = max now oldSegment.OpenedAt ∧ oldSegment.OpenedAt ≤ cmd.ClosedAt) := by
  intro out
  have hclosed : ∀ oldSegment : ClusterSegment,
      (if Time.Before now oldSegment.OpenedAt then
        ({ ID := oldSegment.ID, DoneNodeID := request.NodeID, ClosedAt := oldSegment.OpenedAt,
           Size_ := request.OldSize, Sha1 := request.OldSha1 } : CloseSegmentCommand)
       else { ID := oldSegment.ID, DoneNodeID := request.NodeID, ClosedAt := now,
              Size_ := request.OldSize, Sha1 := request.OldSha1 }) =
      { ID := oldSegment.ID, DoneNodeID := request.NodeID,
        ClosedAt := max now oldSegment.OpenedAt,
        Size_ := request.OldSize, Sha1 := request.OldSha1 } := by
    intro oldSegment
    by_cases h : now < oldSegment.OpenedAt
    · simp [Time.Before, h, max_eq_right (le_of_lt h)]
    · simp [Time.Before, h, max_eq_left (not_lt.1 h)]
  have hcalls : ∀ oldSegment, beginTransaction = none →
      clusterState.Current.GetOpenSegment request.OldSegmentID = some oldSegment →
      oldSegment.Nodes.PrimaryNodeID = request.NodeID →
      out.applyCalls =
        [{ ID := oldSegment.ID, DoneNodeID := request.NodeID,
           ClosedAt := max now oldSegment.OpenedAt,
           Size_ := request.OldSize, Sha1 := request.OldSha1 }] := by
    intro oldSegment hbegin hopen hprimary
    simp only [out, Server.SegmentRotate, hbegin, hopen, hprimary, ne_eq, not_true_eq_false,
      if_false, hclosed]
    cases apply clusterState _ with
    | error err => rfl
    | ok applied => cases barrier <;> rfl
  refine ⟨hcalls, ?_⟩
  intro cmd hcmd
  cases hbegin : beginTransaction with
  | some err =>
    simp only [out, Server.SegmentRotate, hbegin] at hcmd
    cases hcmd
  | none =>
    cases hopen : clusterState.Current.GetOpenSegment request.OldSegmentID with
    | none =>
      simp only [out, Server.SegmentRotate, hbegin, hopen] at hcmd
      cases hc : clusterState.Current.GetClosedSegment request.OldSegmentID with
      | none => rw [hc] at hcmd; cases hcmd
      | some closedSegment => rw [hc] at hcmd; cases hcmd
    | some oldSegment =>
      by_cases hprimary : oldSegment.Nodes.PrimaryNodeID = request.NodeID
      · rw [hcalls oldSegment hbegin hopen hprimary, List.mem_singleton] at hcmd
        subst hcmd
        exact ⟨oldSegment, rfl, rfl, rfl, rfl, rfl, le_max_right _ _⟩
      · simp only [out, Server.SegmentRotate, hbegin, hopen, ne_eq, hprimary, not_false_eq_true,
          if_true] at hcmd
        cases hcmd

/-- C25, witness: the segment was opened at time 10 and the clock reads 3 when it is
closed. -/
theorem C25_close_time_not_before_open_witness :
    (Server.SegmentRotate none storeOneSegment 3 applyClose none openStep
        { NodeID := 1, OldSegmentID := 1, OldSize := 100, OldSha1 := [7] }).applyCalls =
      [{ ID := 1, DoneNodeID := 1, ClosedAt := 10, Size_ := 100, Sha1 := [7] }] :=
  (C25_close_time_not_before_open none storeOneSegment 3 applyClose none openStep
    { NodeID := 1, OldSegmentID := 1, OldSize := 100, OldSha1 := [7] }).1
    { segmentNT 1 1 with OpenedAt := 10 } rfl rfl rfl

/-- C26 fails on the code: `SegmentRotate` hands the snapshot it read before the close to
the open step. With segment 1 of topic `n/t` open on node 1, node 1 rotates segment 1: the
close is applied (segment 1 is closed in the store afterwards), and the open step, run
on the old snapshot, finds segment 1 still open on node 1 and returns it. The id returned
is `OldSegmentID`, no new id is taken and no open command is handed to the log. -/
theorem C26_rotate_returns_old_segment :
    ∃ opened : OpenSegmentOutcome Nat Unit,
      (Server.SegmentRotate none storeOneSegment 20 applyClose none openStep
        { NodeID := 1, OldSegmentID := 1, OldSize := 100, OldSha1 := [7] }).result =
          .opened opened ∧
      opened.result = .ok { SegmentID := 1, PrimaryNodeID := 1 } ∧
      opened.applyCalls = [] ∧
      opened.clusterState.Current.GetOpenSegment 1 = none ∧
      opened.clusterState.Current.GetClosedSegment 1 =
        some { segmentNT 1 1 with OpenedAt := 10, ClosedAt := 20, Size_ := 100, Sha1 := [7] } ∧
      opened.clusterState.Current.CurrentSegmentID = 1 :=
  ⟨_, rfl, by decide, by decide, by decide, by decide, by decide⟩

/-! ## AMQP 1.0: the idle timeout -/

theorem serveAMQPv1Loop_frames {E : Type} (send : Nat → v1.Frame → Option E) :
    ∀ (events : List v1.Event) (k : Nat), ∀ frame ∈ (serveAMQPv1Loop send events k).2,
      frame = .empty ∨
        (frame = .close { Condition := "shutdown".toList } ∧ v1.Event.closed ∈ events) := by
  intro events
  induction events with
  | nil => intro k frame h; cases h
  | cons event events ih =>
    intro k frame h
    cases event with
    | closed =>
      simp only [serveAMQPv1Loop, forceCloseAMQPv1, List.mem_singleton] at h
      exact Or.inr ⟨h, List.mem_cons_self _ _⟩
    | frame => simp only [serveAMQPv1Loop] at h; cases h
    | heartbeat =>
      simp only [serveAMQPv1Loop] at h
      cases hs : send k .empty with
      | some err =>
        rw [hs] at h
        exact Or.inl (List.mem_singleton.1 h)
      | none =>
        rw [hs] at h
        rcases List.mem_cons.1 h with h | h
        · exact Or.inl h
        · rcases ih (k + 1) frame h with h | ⟨h, hmem⟩
          · exact Or.inl h
          · exact Or.inr ⟨h, List.mem_cons_of_mem _ hmem⟩

theorem serveAMQPv1Loop_heartbeats {E : Type} (send : Nat → v1.Frame → Option E)
    (hsend : ∀ k, send k .empty = none) :
    ∀ (n k : Nat), serveAMQPv1Loop send (List.replicate n .heartbeat) k =
      (.waiting, List.replicate n .empty) := by
  intro n
  induction n with
  | zero => intro k; rfl
  | succ n ih =>
    intro k
    simp only [List.replicate_succ, serveAMQPv1Loop, hsend k, ih (k + 1)]

/-- C27, as stated, fails: the idle timeout 1000 ms is accepted, yet a `Close` is sent. The
server answers with an `Open` carrying 1000, sends a heartbeat at the first tick and, when
the server is shut down, a `Close` with the condition "shutdown". -/
theorem C27_counterexample :
    (1000 : Nat) ≤ 1000 ∧ (1000 : Nat) ≤ 3600000 ∧
      (Server.ServeAMQPv1 "eventter".toList "1".toList (.ok { IdleTimeOut := 1000 }) sendOk
        none none [.heartbeat, .closed]).sendCalls =
        [.open (serverOpenWith "eventter".toList "1".toList 1000), .empty,
         .close { Condition := "shutdown".toList }] ∧
      v1.Frame.close { Condition := "shutdown".toList } ∈
        (Server.ServeAMQPv1 "eventter".toList "1".toList (.ok { IdleTimeOut := 1000 }) sendOk
          none none [.heartbeat, .closed]).sendCalls := by
  decide

/-- C27 (as amended): `ServeAMQPv1` rejects the client's `Open` exactly when its idle timeout
is below 1000 ms or above 3,600,000 ms. Then it sends its own `Open` (idle timeout 60000)
and, the transport having taken it, a `Close` with the condition "client timeout too short"
(respectively "client timeout too long"), and returns without starting the ticker. For
every idle timeout from 1000 to 3,600,000 inclusive it sends an `Open` whose idle timeout
is the client's; every frame it sends after that is an empty frame, or the `Close` with
the condition "shutdown" sent when the server is shut down. So no `Close` at all is sent
unless the server is shut down. -/
theorem C27_idle_timeout_bounds {E : Type} (aboutName aboutVersion : GoString)
    (clientOpen : v1.Open) (send : Nat → v1.Frame → Option E)
    (setReadDeadline setWriteDeadline : Option E) (events : List v1.Event) :
    let out := Server.ServeAMQPv1 aboutName aboutVersion (.ok clientOpen) send
      setReadDeadline setWriteDeadline events
    let serverOpen := serverOpenWith aboutName aboutVersion
    (clientOpen.IdleTimeOut < 1000 →
      out.ticker = none ∧ (∃ err, out.result = .returned err) ∧
      out.sendCalls = .open (serverOpen 60000) ::
        if (send 0 (.open (serverOpen 60000))).isNone then
          [.close { Condition := "client timeout too short".toList }]
        else []) ∧
    (3600000 < clientOpen.IdleTimeOut →
      out.ticker = none ∧ (∃ err, out.result = .returned err) ∧
      out.sendCalls = .open (serverOpen 60000) ::
        if (send 0 (.open (serverOpen 60000))).isNone then
          [.close { Condition := "client timeout too long".toList }]
        else []) ∧
    (1000 ≤ clientOpen.IdleTimeOut → clientOpen.IdleTimeOut ≤ 3600000 →
      (∃ frames, out.sendCalls = .open (serverOpen clientOpen.IdleTimeOut) :: frames ∧
        ∀ frame ∈ frames, frame = .empty ∨
          (frame = .close { Condition := "shutdown".toList } ∧ v1.Event.closed ∈ events)) ∧
      (v1.Event.closed ∉ events → ∀ close, v1.Frame.close close ∉ out.sendCalls)) := by
  intro out serverOpen
  have hframes : 1000 ≤ clientOpen.IdleTimeOut → clientOpen.IdleTimeOut ≤ 3600000 →
      ∃ frames, out.sendCalls = .open (serverOpen clientOpen.IdleTimeOut) :: frames ∧
        ∀ frame ∈ frames, frame = .empty ∨
          (frame = .close { Condition := "shutdown".toList } ∧ v1.Event.closed ∈ events) := by
    intro hlo hhi
    have hnshort : ¬ clientOpen.IdleTimeOut < 1000 := by omega
    have hnlong : ¬ clientOpen.IdleTimeOut > 3600 * 1000 := by omega
    simp only [out, Server.ServeAMQPv1, hnshort, if_false, hnlong, serverOpen, serverOpenWith]
    cases send 0 _ with
    | some err => exact ⟨[], rfl, fun _ h => by cases h⟩
    | none =>
      cases setTimeoutError setReadDeadline _ with
      | some err => exact ⟨[], rfl, fun _ h => by cases h⟩
      | none =>
        cases setTimeoutError setWriteDeadline _ with
        | some err => exact ⟨[], rfl, fun _ h => by cases h⟩
        | none => exact ⟨_, rfl, serveAMQPv1Loop_frames send events 1⟩
  refine ⟨?_, ?_, ?_⟩
  · intro hshort
    cases hs : send 0 (.open (serverOpen 60000)) with
    | some err =>
      simp only [serverOpen, serverOpenWith] at hs
      simp only [out, Server.ServeAMQPv1, hshort, if_true, hs, serverOpen, serverOpenWith,
        Option.isNone_some]
      exact ⟨by trivial, ⟨_, rfl⟩, by trivial⟩
    | none =>
      simp only [serverOpen, serverOpenWith] at hs
      simp only [out, Server.ServeAMQPv1, hshort, if_true, hs, serverOpen, serverOpenWith,
        Option.isNone_none]
      exact ⟨by trivial, ⟨_, rfl⟩, by trivial⟩
  · intro hlong
    have hnshort : ¬ clientOpen.IdleTimeOut < 1000 := by omega
    have hlong2 : clientOpen.IdleTimeOut > 3600 * 1000 := by omega
    cases hs : send 0 (.open (serverOpen 60000)) with
    | some err =>
      simp only [serverOpen, serverOpenWith] at hs
      simp only [out, Server.ServeAMQPv1, hnshort, if_false, hlong2, if_true, hs, serverOpen,
        serverOpenWith, Option.isNone_some]
      exact ⟨by trivial, ⟨_, rfl⟩, by trivial⟩
    | none =>
      simp only [serverOpen, serverOpenWith] at hs
      simp only [out, Server.ServeAMQPv1, hnshort, if_false, hlong2, if_true, hs, serverOpen,
        serverOpenWith, Option.isNone_none]
      exact ⟨by trivial, ⟨_, rfl⟩, by trivial⟩
  · intro hlo hhi
    refine ⟨hframes hlo hhi, ?_⟩
    intro hclosed close hmem
    obtain ⟨frames, hcalls, hall⟩ := hframes hlo hhi
    rw [hcalls] at hmem
    rcases List.mem_cons.1 hmem with h | h
    · cases h
    · rcases hall _ h with h | ⟨_, h⟩
      · cases h
      · exact hclosed h

/-- C27, witness: the client proposes 500 ms and is rejected; the client proposes 1000 ms,
the ticker fires twice and the server is not shut down. -/
theorem C27_idle_timeout_bounds_witness :
    (Server.ServeAMQPv1 "eventter".toList "1".toList (.ok { IdleTimeOut := 500 }) sendOk
        none none []).sendCalls =
      [.open (serverOpenWith "eventter".toList "1".toList 60000),
       .close { Condition := "client timeout too short".toList }] ∧
    ∀ close, v1.Frame.close close ∉
      (Server.ServeAMQPv1 "eventter".toList "1".toList (.ok { IdleTimeOut := 1000 }) sendOk
        none none [.heartbeat, .heartbeat]).sendCalls :=
  ⟨((C27_idle_timeout_bounds "eventter".toList "1".toList { IdleTimeOut := 500 } sendOk
      none none []).1 (by decide)).2.2,
   ((C27_idle_timeout_bounds "eventter".toList "1".toList { IdleTimeOut := 1000 } sendOk
      none none [.heartbeat, .heartbeat]).2.2 (by decide) (by decide)).2 (by decide)⟩

/-- C28, as stated, fails: for the accepted idle timeout 1000 ms the ticker that drives the
heartbeats has the period 1000 ms, not 500 ms; 500 ms is the send timeout. -/
theorem C28_counterexample :
    (Server.ServeAMQPv1 "eventter".toList "1".toList (.ok { IdleTimeOut := 1000 }) sendOk
        none none []).ticker = some (1000 * Millisecond) ∧
      (Server.ServeAMQPv1 "eventter".toList "1".toList (.ok { IdleTimeOut := 1000 }) sendOk
        none none []).ticker ≠ some (1000 / 2 * Millisecond) ∧
      (Server.ServeAMQPv1 "eventter".toList "1".toList (.ok { IdleTimeOut := 1000 }) sendOk
        none none []).sendTimeout = 1000 / 2 * Millisecond := by
  decide

/-- C28 (as amended): for every accepted idle timeout `t` (in ms), once the transport has
taken the server's `Open`, `ServeAMQPv1` sets the receive timeout to `2·t` and the send
timeout to `t/2`, and makes a ticker of period `t`; it sends one empty frame at each tick
of that ticker. -/
theorem C28_timeouts_and_heartbeat {E : Type} (aboutName aboutVersion : GoString)
    (clientOpen : v1.Open) (send : Nat → v1.Frame → Option E)
    (setReadDeadline setWriteDeadline : Option E) (events : List v1.Event)
    (hlo : 1000 ≤ clientOpen.IdleTimeOut) (hhi : clientOpen.IdleTimeOut ≤ 3600000)
    (hopen : send 0 (.open (serverOpenWith aboutName aboutVersion clientOpen.IdleTimeOut)) =
      none) :
    let out := Server.ServeAMQPv1 aboutName aboutVersion (.ok clientOpen) send
      setReadDeadline setWriteDeadline events
    out.receiveTimeout = 2 * ((clientOpen.IdleTimeOut : Int) * Millisecond) ∧
    2 * out.sendTimeout = (clientOpen.IdleTimeOut : Int) * Millisecond ∧
    out.ticker = some ((clientOpen.IdleTimeOut : Int) * Millisecond) ∧
    ((∀ k, send k .empty = none) → ∀ n, events = List.replicate n .heartbeat →
      out.sendCalls =
        .open (serverOpenWith aboutName aboutVersion clientOpen.IdleTimeOut) ::
          List.replicate n .empty) := by
  intro out
  have hnshort : ¬ clientOpen.IdleTimeOut < 1000 := by omega
  have hnlong : ¬ clientOpen.IdleTimeOut > 3600 * 1000 := by omega
  have hread : setTimeoutError setReadDeadline
      ((clientOpen.IdleTimeOut : Int) * Millisecond * 2) = none := by
    have : ¬ (clientOpen.IdleTimeOut : Int) * Millisecond * 2 = 0 := by
      simp only [Millisecond]; omega
    simp only [setTimeoutError, this, if_false]
  have hwrite : setTimeoutError setWriteDeadline
      ((clientOpen.IdleTimeOut : Int) * Millisecond / 2) = none := by
    have : ¬ (clientOpen.IdleTimeOut : Int) * Millisecond / 2 = 0 := by
      simp only [Millisecond]; omega
    simp only [setTimeoutError, this, if_false]
  simp only [serverOpenWith] at hopen
  have hout : out =
      { result := (serveAMQPv1Loop send events 1).1,
        sendCalls := .open (serverOpenWith aboutName aboutVersion clientOpen.IdleTimeOut) ::
          (serveAMQPv1Loop send events 1).2,
        receiveTimeout := (clientOpen.IdleTimeOut : Int) * Millisecond * 2,
        sendTimeout := (clientOpen.IdleTimeOut : Int) * Millisecond / 2,
        ticker := some ((clientOpen.IdleTimeOut : Int) * Millisecond) } := by
    simp only [out, Server.ServeAMQPv1, hnshort, if_false, hnlong, hopen, hread, hwrite,
      serverOpenWith]
  rw [hout]
  refine ⟨?_, ?_, rfl, ?_⟩
  · show (clientOpen.IdleTimeOut : Int) * Millisecond * 2 = _
    ring
  · show 2 * ((clientOpen.IdleTimeOut : Int) * Millisecond / 2) = _
    simp only [Millisecond]; omega
  · intro hsend n hevents
    show _ :: _ = _
    rw [hevents, serveAMQPv1Loop_heartbeats send hsend n 1]

/-- C28, witness: idle timeout 1000 ms and three ticks. -/
theorem C28_timeouts_and_heartbeat_witness :
    (Server.ServeAMQPv1 "eventter".toList "1".toList (.ok { IdleTimeOut := 1000 }) sendOk
        none none [.heartbeat, .heartbeat, .heartbeat]).receiveTimeout = 2 * (1000 * Millisecond) ∧
      (Server.ServeAMQPv1 "eventter".toList "1".toList (.ok { IdleTimeOut := 1000 }) sendOk
        none none [.heartbeat, .heartbeat, .heartbeat]).sendCalls =
        [.open (serverOpenWith "eventter".toList "1".toList 1000), .empty, .empty, .empty] :=
  have h := C28_timeouts_and_heartbeat "eventter".toList "1".toList { IdleTimeOut := 1000 }
    sendOk none none [.heartbeat, .heartbeat, .heartbeat] (by decide) (by decide) rfl
  ⟨h.1, h.2.2.2 (fun _ => rfl) 3 rfl⟩

/-! ## The AMQP 0-9-1 session loop -/

theorem lookup_channelsDelete (channels : List (Nat × serverAMQPv0Channel)) (id key : Nat) :
    (channelsDelete channels id).lookup key = if key = id then none else channels.lookup key := by
  induction channels with
  | nil => simp [channelsDelete]
  | cons entry channels ih =>
    obtain ⟨k, ch⟩ := entry
    simp only [channelsDelete] at ih
    by_cases hk : k = id
    · subst hk
      simp only [channelsDelete, List.filter_cons, ne_eq, not_true_eq_false, decide_False,
        Bool.false_eq_true, if_false, ih, List.lookup_cons]
      by_cases hkey : key = k
      · simp [hkey]
      · have : (key == k) = false := by simpa using hkey
        simp [hkey, this]
    · simp only [channelsDelete, List.filter_cons, ne_eq, hk, not_false_eq_true, decide_True,
        if_true, List.lookup_cons, ih]
      by_cases hkey : key = k
      · subst hkey
        simp [hk]
      · have : (key == k) = false := by simpa using hkey
        simp [this]

theorem lookup_channelsSet (channels : List (Nat × serverAMQPv0Channel)) (id key : Nat)
    (ch : serverAMQPv0Channel) :
    (channelsSet channels id ch).lookup key =
      if key = id then some ch else channels.lookup key := by
  simp only [channelsSet, List.lookup_cons, lookup_channelsDelete]
  by_cases hkey : key = id
  · simp [hkey]
  · have : (key == id) = false := by simpa using hkey
    simp [hkey, this]

theorem forceCloseAMQPv0_loop (send : Nat → v0.Sent → Option GoString) (loop : SessionLoop)
    (replyCode : Nat) (replyText : GoString) :
    (forceCloseAMQPv0 send loop replyCode replyText).loop.channels = loop.channels := rfl

theorem afterHandler_zero (send : Nat → v0.Sent → Option GoString) (loop : SessionLoop)
    (channel : Nat) (handled : serverAMQPv0Channel × Option ChannelHandlerError)
    (hchannel : channel ≠ 0) (hzero : loop.channels.lookup 0 = none) :
    (afterHandler send loop channel handled).loop.channels.lookup 0 = none := by
  have hne : ¬ (0 = channel) := fun h => hchannel h.symm
  obtain ⟨ch, err⟩ := handled
  cases err with
  | none => simp [afterHandler, SessionStep.loop, lookup_channelsSet, hne, hzero]
  | some err =>
    cases err with
    | connectionClose frame =>
      simp [afterHandler, returnSend, SessionLoop.send, SessionStep.loop, lookup_channelsSet,
        hne, hzero]
    | channelClose frame =>
      simp only [afterHandler, SessionLoop.send]
      cases send loop.sendCalls.length (.ChannelClose frame) with
      | none => simp [SessionStep.loop, lookup_channelsSet, hne, hzero]
      | some text =>
        simp [forceCloseAMQPv0, SessionLoop.send, SessionStep.loop, lookup_channelsSet, hne,
          hzero]
    | other text =>
      simp [afterHandler, forceCloseAMQPv0, SessionLoop.send, SessionStep.loop,
        lookup_channelsSet, hne, hzero]

theorem handleFrame_zero {P : Type} (send : Nat → v0.Sent → Option GoString)
    (handleMethod : serverAMQPv0Channel → v0.Method P →
      serverAMQPv0Channel × Option ChannelHandlerError)
    (handleContentHeader handleContentBody :
      serverAMQPv0Channel → P → serverAMQPv0Channel × Option ChannelHandlerError)
    (loop : SessionLoop) (frame : v0.Frame P) (hzero : loop.channels.lookup 0 = none) :
    (handleFrame send handleMethod handleContentHeader handleContentBody loop
      frame).loop.channels.lookup 0 = none := by
  cases frame with
  | method channel method =>
    by_cases hchannel : channel = 0
    · subst hchannel
      cases method with
      | ConnectionClose frame =>
        simp only [handleFrame, if_true]
        split
        · exact hzero
        · exact hzero
      | _ => exact hzero
    · have hne : ¬ (0 = channel) := fun h => hchannel h.symm
      cases method with
      | ChannelOpen =>
        simp only [handleFrame, hchannel, if_false]
        cases loop.channels.lookup channel with
        | some ch => exact hzero
        | none =>
          simp only [SessionLoop.send]
          cases send loop.sendCalls.length (.ChannelOpenOk channel) with
          | none => simp [SessionStep.loop, lookup_channelsSet, hne, hzero]
          | some text =>
            simp [forceCloseAMQPv0, SessionLoop.send, SessionStep.loop, lookup_channelsSet, hne,
              hzero]
      | ChannelClose =>
        simp only [handleFrame, hchannel, if_false]
        cases loop.channels.lookup channel with
        | none => exact hzero
        | some ch =>
          simp only [SessionLoop.send]
          cases send loop.sendCalls.length (.ChannelCloseOk channel) with
          | none => simp [SessionStep.loop, lookup_channelsDelete, hne, hzero]
          | some text =>
            simp [forceCloseAMQPv0, SessionLoop.send, SessionStep.loop, lookup_channelsDelete,
              hne, hzero]
      | ChannelCloseOk =>
        simp only [handleFrame, hchannel, if_false]
        cases loop.channels.lookup channel with
        | none => exact hzero
        | some ch =>
          by_cases hstate : ch.state = closingState
          · simp [hstate, SessionStep.loop, lookup_channelsDelete, hne, hzero]
          · simp only [ne_eq, hstate, not_false_eq_true, if_true]
            exact hzero
      | ConnectionClose frame =>
        simp only [handleFrame, hchannel, if_false]
        cases loop.channels.lookup channel with
        | none => exact hzero
        | some ch => exact afterHandler_zero send loop channel _ hchannel hzero
      | other content =>
        simp only [handleFrame, hchannel, if_false]
        cases loop.channels.lookup channel with
        | none => exact hzero
        | some ch => exact afterHandler_zero send loop channel _ hchannel hzero
  | contentHeader channel content =>
    by_cases hchannel : channel = 0
    · simp only [handleFrame, hchannel, if_true]
      exact hzero
    · simp only [handleFrame, hchannel, if_false]
      cases loop.channels.lookup channel with
      | none => exact hzero
      | some ch => exact afterHandler_zero send loop channel _ hchannel hzero
  | contentBody channel content =>
    by_cases hchannel : channel = 0
    · simp only [handleFrame, hchannel, if_true]
      exact hzero
    · simp only [handleFrame, hchannel, if_false]
      cases loop.channels.lookup channel with
      | none => exact hzero
      | some ch => exact afterHandler_zero send loop channel _ hchannel hzero
  | heartbeat channel =>
    simp only [handleFrame]
    split
    · exact hzero
    · exact hzero
  | unhandled typeName => exact hzero

theorem sessionStep_zero {P : Type} (send : Nat → v0.Sent → Option GoString)
    (handleMethod : serverAMQPv0Channel → v0.Method P →
      serverAMQPv0Channel × Option ChannelHandlerError)
    (handleContentHeader handleContentBody :
      serverAMQPv0Channel → P → serverAMQPv0Channel × Option ChannelHandlerError)
    (loop : SessionLoop) (event : v0.Event P) (hzero : loop.channels.lookup 0 = none) :
    (sessionStep send handleMethod handleContentHeader handleContentBody loop
      event).loop.channels.lookup 0 = none := by
  cases event with
  | closeC => exact hzero
  | heartbeat =>
    simp only [sessionStep, SessionLoop.send]
    cases send loop.sendCalls.length .Heartbeat <;> exact hzero
  | frame frame =>
    exact handleFrame_zero send handleMethod handleContentHeader handleContentBody loop frame
      hzero
  | errc malformed text =>
    cases malformed <;> exact hzero

theorem serveAMQPv0Loop_zero {P : Type} (send : Nat → v0.Sent → Option GoString)
    (handleMethod : serverAMQPv0Channel → v0.Method P →
      serverAMQPv0Channel × Option ChannelHandlerError)
    (handleContentHeader handleContentBody :
      serverAMQPv0Channel → P → serverAMQPv0Channel × Option ChannelHandlerError) :
    ∀ (events : List (v0.Event P)) (loop : SessionLoop), loop.channels.lookup 0 = none →
      (serveAMQPv0Loop send handleMethod handleContentHeader handleContentBody events
        loop).2.channels.lookup 0 = none := by
  intro events
  induction events with
  | nil => intro loop hzero; exact hzero
  | cons event events ih =>
    intro loop hzero
    have hstep := sessionStep_zero send handleMethod handleContentHeader handleContentBody loop
      event hzero
    simp only [serveAMQPv0Loop]
    cases hs : sessionStep send handleMethod handleContentHeader handleContentBody loop event with
    | next loop2 =>
      rw [hs] at hstep
      exact ih loop2 hstep
    | done err loop2 =>
      rw [hs] at hstep
      exact hstep

/-- C29: in the session loop, a `ChannelOpen` on a non-zero channel id that is not open
puts an entry with that id in state READY into the table, leaving the other entries as
they are, and hands a `ChannelOpenOk` for that channel to the transport (when the
transport takes it, that is all and the loop goes on); a `ChannelOpen` on a channel id
that is already open sends a `ConnectionClose` with reply code ChannelError (504) and
ends the session with the table, the existing entry included, unchanged. -/
theorem C29_channel_open {P : Type} (send : Nat → v0.Sent → Option GoString)
    (handleMethod : serverAMQPv0Channel → v0.Method P →
      serverAMQPv0Channel × Option ChannelHandlerError)
    (handleContentHeader handleContentBody :
      serverAMQPv0Channel → P → serverAMQPv0Channel × Option ChannelHandlerError)
    (loop : SessionLoop) (channel : Nat) (hchannel : channel ≠ 0) :
    let step := handleFrame send handleMethod handleContentHeader handleContentBody loop
      (.method channel .ChannelOpen)
    (loop.channels.lookup channel = none →
      step.loop.channels.lookup channel = some { id := channel, state := readyState } ∧
      (∀ other, other ≠ channel →
        step.loop.channels.lookup other = loop.channels.lookup other) ∧
      (∃ rest, step.loop.sendCalls = loop.sendCalls ++ .ChannelOpenOk channel :: rest) ∧
      (send loop.sendCalls.length (.ChannelOpenOk channel) = none →
        step = .next
          { channels := channelsSet loop.channels channel { id := channel, state := readyState },
            sendCalls := loop.sendCalls ++ [.ChannelOpenOk channel] })) ∧
    (∀ ch, loop.channels.lookup channel = some ch →
      step.isDone = true ∧ step.loop.channels = loop.channels ∧
      step.loop.sendCalls = loop.sendCalls ++
        [.ConnectionClose { ReplyCode := 504, ReplyText := "channel already open".toList }]) := by
  intro step
  constructor
  · intro hclosed
    cases hs : send loop.sendCalls.length (.ChannelOpenOk channel) with
    | none =>
      have hstep : step = .next
          { channels := channelsSet loop.channels channel { id := channel, state := readyState },
            sendCalls := loop.sendCalls ++ [.ChannelOpenOk channel] } := by
        simp only [step, handleFrame, hchannel, if_false, hclosed, SessionLoop.send, hs]
      rw [hstep]
      refine ⟨?_, ?_, ⟨[], rfl⟩, fun _ => rfl⟩
      · simp [SessionStep.loop, lookup_channelsSet]
      · intro other hother
        simp [SessionStep.loop, lookup_channelsSet, hother]
    | some text =>
      have hstep : step = .done
          ((send (loop.sendCalls ++ [v0.Sent.ChannelOpenOk channel]).length
            (.ConnectionClose { ReplyCode := InternalError, ReplyText := text })).map
              SessionError.forceCloseFailed)
          { channels := channelsSet loop.channels channel { id := channel, state := readyState },
            sendCalls := (loop.sendCalls ++ [.ChannelOpenOk channel]) ++
              [.ConnectionClose { ReplyCode := InternalError, ReplyText := text }] } := by
        simp only [step, handleFrame, hchannel, if_false, hclosed, SessionLoop.send, hs,
          forceCloseAMQPv0]
      rw [hstep]
      refine ⟨?_, ?_,
        ⟨[.ConnectionClose { ReplyCode := InternalError, ReplyText := text }],
          by simp [SessionStep.loop]⟩,
        fun h => by cases h⟩
      · simp [SessionStep.loop, lookup_channelsSet]
      · intro other hother
        simp [SessionStep.loop, lookup_channelsSet, hother]
  · intro ch hopen
    have hstep : step = .done
        ((send loop.sendCalls.length (.ConnectionClose
          { ReplyCode := ChannelError, ReplyText := "channel already open".toList })).map
            SessionError.forceCloseFailed)
        { loop with
          sendCalls := loop.sendCalls ++ [.ConnectionClose
            { ReplyCode := ChannelError, ReplyText := "channel already open".toList }] } := by
      simp only [step, handleFrame, hchannel, if_false, hopen, forceCloseAMQPv0,
        SessionLoop.send]
    rw [hstep]
    exact ⟨rfl, rfl, rfl⟩

/-- C29, witness: `ChannelOpen` on channel 1 while channel 1 is open. -/
theorem C29_channel_open_witness :
    (1 : Nat) ≠ 0 ∧
      (handleFrame sendOkV0 handleNothing handleNoContent handleNoContent
        { channels := [(1, { id := 1, state := readyState })],
          sendCalls := [.ChannelOpenOk 1] }
        (.method 1 .ChannelOpen)).loop =
        { channels := [(1, { id := 1, state := readyState })],
          sendCalls := [.ChannelOpenOk 1, .ConnectionClose
            { ReplyCode := 504, ReplyText := "channel already open".toList }] } :=
  have h := (C29_channel_open sendOkV0 handleNothing handleNoContent handleNoContent
    { channels := [(1, { id := 1, state := readyState })], sendCalls := [.ChannelOpenOk 1] }
    1 (by decide)).2 { id := 1, state := readyState } rfl
  ⟨by decide, by
    cases hl : (handleFrame sendOkV0 handleNothing handleNoContent handleNoContent
        { channels := [(1, { id := 1, state := readyState })],
          sendCalls := [.ChannelOpenOk 1] }
        (.method 1 .ChannelOpen)).loop with
    | mk channels sendCalls =>
      rw [hl] at h
      simp only at h
      rw [h.2.1, h.2.2]
      rfl⟩

/-- C30: in the session loop, every method frame received on channel 0 other than
`ConnectionClose` makes the server send a `ConnectionClose` with reply code SyntaxError
(502) and return, the table unchanged; a `ConnectionClose` with reply code 0 or 200 is
answered with `ConnectionCloseOk`, and the server returns; and whatever the events, the
handlers and the transport, channel id 0 is never in the channel table. -/
theorem C30_channel_zero {P : Type} (send : Nat → v0.Sent → Option GoString)
    (handleMethod : serverAMQPv0Channel → v0.Method P →
      serverAMQPv0Channel × Option ChannelHandlerError)
    (handleContentHeader handleContentBody :
      serverAMQPv0Channel → P → serverAMQPv0Channel × Option ChannelHandlerError) :
    (∀ (loop : SessionLoop) (method : v0.Method P),
      (∀ frame, method ≠ .ConnectionClose frame) →
      handleFrame send handleMethod handleContentHeader handleContentBody loop
          (.method 0 method) =
        .done
          ((send loop.sendCalls.length (.ConnectionClose
            { ReplyCode := 502, ReplyText := "non-close frame".toList })).map
              SessionError.forceCloseFailed)
          { loop with
            sendCalls := loop.sendCalls ++ [.ConnectionClose
              { ReplyCode := 502, ReplyText := "non-close frame".toList }] }) ∧
    (∀ (loop : SessionLoop) (frame : ConnectionClose),
      frame.ReplyCode = 0 ∨ frame.ReplyCode = 200 →
      handleFrame send handleMethod handleContentHeader handleContentBody loop
          (.method 0 (.ConnectionClose frame)) =
        .done ((send loop.sendCalls.length .ConnectionCloseOk).map SessionError.send)
          { loop with sendCalls := loop.sendCalls ++ [.ConnectionCloseOk] }) ∧
    (∀ events : List (v0.Event P),
      (serveAMQPv0Loop send handleMethod handleContentHeader handleContentBody events
        {}).2.channels.lookup 0 = none) ∧
    (∀ (virtualHost : Except GoString GoString) (heartbeat : Except GoString Duration)
        (events : List (v0.Event P)),
      (Server.ServeAMQPv0 virtualHost heartbeat send (fun _ => handleMethod)
        (fun _ => handleContentHeader) (fun _ => handleContentBody)
        events).2.channels.lookup 0 = none) := by
  refine ⟨?_, ?_, ?_, ?_⟩
  · intro loop method hmethod
    cases method with
    | ConnectionClose frame => exact absurd rfl (hmethod frame)
    | _ => rfl
  · intro loop frame hcode
    have hcond : ¬ (frame.ReplyCode ≠ 0 ∧ frame.ReplyCode ≠ ReplySuccess) := by
      simp only [ReplySuccess]
      omega
    simp only [handleFrame, if_true, hcond, if_false, returnSend, SessionLoop.send]
  · intro events
    exact serveAMQPv0Loop_zero send handleMethod handleContentHeader handleContentBody events
      {} rfl
  · intro virtualHost heartbeat events
    cases virtualHost with
    | error err => rfl
    | ok namespace_ =>
      cases heartbeat with
      | error err => rfl
      | ok heartbeat =>
        exact serveAMQPv0Loop_zero send handleMethod handleContentHeader handleContentBody _
          {} rfl

/-- C30, witness: on a fresh session the client opens channel 1 and then sends a
`ChannelOpen` on channel 0. -/
theorem C30_channel_zero_witness :
    serveAMQPv0Loop sendOkV0 handleNothing handleNoContent handleNoContent
        [.frame (.method 1 .ChannelOpen), .frame (.method 0 .ChannelOpen)] {} =
      (.returned none,
        { channels := [(1, { id := 1, state := readyState })],
          sendCalls := [.ChannelOpenOk 1, .ConnectionClose
            { ReplyCode := 502, ReplyText := "non-close frame".toList }] }) ∧
    handleFrame sendOkV0 handleNothing handleNoContent handleNoContent {}
        (.method 0 .ChannelOpen) =
      .done none
        { sendCalls := [.ConnectionClose
            { ReplyCode := 502, ReplyText := "non-close frame".toList }] } :=
  ⟨by decide,
   (C30_channel_zero sendOkV0 handleNothing handleNoContent handleNoContent).1 {}
     .ChannelOpen (fun _ h => by cases h)⟩

/-! ## `basic.nack` on a single delivery, and on error -/

/-- C34: for a `BasicNack` with `multiple = false` whose delivery tag is in the channel's
inflight list, the runtime call succeeding, the handler returns nil after dispatching
exactly one runtime call, for the first inflight entry with that tag: a `Nack` when
`requeue` is set, an `Ack` otherwise; afterwards the inflight list is the original one
with exactly that entry removed, the other entries in their original order. -/
theorem C34_nack_single_removes_entry {E : Type} (runtime : Nat → RuntimeCall → Option E)
    (ch : serverAMQPv0Channel) (frame : BasicNack) (hsingle : frame.Multiple = false)
    (hknown : ∃ entry ∈ ch.inflight, entry.deliveryTag = frame.DeliveryTag)
    (hruntime : ∀ call, runtime 0 call = none) :
    ∃ before entry after,
      ch.inflight = before ++ entry :: after ∧
      entry.deliveryTag = frame.DeliveryTag ∧
      (∀ earlier ∈ before, earlier.deliveryTag ≠ frame.DeliveryTag) ∧
      (handleAMQPv0BasicNack runtime ch frame).result = none ∧
      (handleAMQPv0BasicNack runtime ch frame).calls =
        [if frame.Requeue then RuntimeCall.Nack entry.nodeID entry.subscriptionID entry.seqNo
         else RuntimeCall.Ack entry.nodeID entry.subscriptionID entry.seqNo] ∧
      (handleAMQPv0BasicNack runtime ch frame).ch = { ch with inflight := before ++ after } := by
  cases hfind : findFirst (fun entry => decide (entry.deliveryTag = frame.DeliveryTag))
      ch.inflight with
  | none =>
    obtain ⟨entry, hmem, htag⟩ := hknown
    have := findFirst_none_iff.1 hfind entry hmem
    simp [htag] at this
  | some found =>
    obtain ⟨entry, i⟩ := found
    obtain ⟨hsplit, _, hentry, hbefore⟩ := findFirst_some hfind
    have hout : handleAMQPv0BasicNack runtime ch frame =
        { result := none,
          ch := { ch with inflight := ch.inflight.take i ++ ch.inflight.drop (i + 1) },
          calls := [runtimeCallFor frame entry] } := by
      simp only [handleAMQPv0BasicNack, hsingle, Bool.false_eq_true, if_false, hfind, hruntime]
    rw [hout]
    refine ⟨ch.inflight.take i, entry, ch.inflight.drop (i + 1), hsplit, ?_, ?_, rfl, rfl, rfl⟩
    · simpa using hentry
    · intro earlier hmem
      simpa using hbefore earlier hmem

/-- C34, witness: tags 1, 2, 3 in flight, `basic.nack` of tag 2 without requeue. -/
theorem C34_nack_single_removes_entry_witness :
    ∃ before entry after,
      (channelWithTags [1, 2, 3]).inflight = before ++ entry :: after ∧
      entry.deliveryTag = 2 ∧
      (handleAMQPv0BasicNack runtimeOk (channelWithTags [1, 2, 3])
        { DeliveryTag := 2 }).calls = [RuntimeCall.Ack entry.nodeID entry.subscriptionID
          entry.seqNo] ∧
      (handleAMQPv0BasicNack runtimeOk (channelWithTags [1, 2, 3]) { DeliveryTag := 2 }).ch =
        { channelWithTags [1, 2, 3] with inflight := before ++ after } := by
  obtain ⟨before, entry, after, h1, h2, _, _, h5, h6⟩ :=
    C34_nack_single_removes_entry runtimeOk (channelWithTags [1, 2, 3]) { DeliveryTag := 2 }
      rfl ⟨{ deliveryTag := 2, seqNo := 2 }, by decide, rfl⟩ (fun _ => rfl)
  exact ⟨before, entry, after, h1, h2, by simpa using h5, h6⟩

theorem basicNackLoop_error {E : Type} (runtime : Nat → RuntimeCall → Option E)
    (frame : BasicNack) :
    ∀ (inflight : List serverAMQPv0ChannelInflight) (i : Nat) (err : HandlerError E),
      (basicNackLoop runtime frame i inflight).2 = .error err →
      ∃ cause, err = .wrap cause (wrapMessage frame) := by
  intro inflight
  induction inflight with
  | nil => intro i err h; simp [basicNackLoop] at h
  | cons entry rest ih =>
    intro i err h
    simp only [basicNackLoop] at h
    split at h
    · cases hr : runtime i (runtimeCallFor frame entry) with
      | some cause =>
        rw [hr] at h
        simp only [Except.error.injEq] at h
        exact ⟨cause, h.symm⟩
      | none =>
        rw [hr] at h
        exact ih (i + 1) err h
    · simp at h

/-- C38: whenever `handleAMQPv0BasicNack` returns an error, the channel, and with it the
inflight list, is exactly what it was before the call; the error is a `ChannelClose` with
reply code PreconditionFailed or a failed runtime call wrapped with "nack failed" or "ack
failed". This holds with `multiple = true` too, where the entries before the failing one
have already been dispatched to the runtime. -/
theorem C38_error_leaves_inflight {E : Type} (runtime : Nat → RuntimeCall → Option E)
    (ch : serverAMQPv0Channel) (frame : BasicNack) (err : HandlerError E)
    (herr : (handleAMQPv0BasicNack runtime ch frame).result = some err) :
    (handleAMQPv0BasicNack runtime ch frame).ch = ch ∧
    (handleAMQPv0BasicNack runtime ch frame).ch.inflight = ch.inflight ∧
    (err = .channelClose (makeChannelClose ch PreconditionFailed
        (deliveryTagDoesntExist frame.DeliveryTag)) ∨
      ∃ cause, err = .wrap cause (wrapMessage frame)) := by
  have hcases : (handleAMQPv0BasicNack runtime ch frame).ch = ch ∧
      (err = .channelClose (makeChannelClose ch PreconditionFailed
          (deliveryTagDoesntExist frame.DeliveryTag)) ∨
        ∃ cause, err = .wrap cause (wrapMessage frame)) := by
    unfold handleAMQPv0BasicNack at herr ⊢
    by_cases hmultiple : frame.Multiple = true
    · simp only [hmultiple, if_true] at herr ⊢
      cases hloop : basicNackLoop runtime frame 0 ch.inflight with
      | mk calls r =>
        cases r with
        | error e =>
          rw [hloop] at herr
          simp only [Option.some.injEq] at herr
          subst herr
          exact ⟨rfl, Or.inr (basicNackLoop_error runtime frame ch.inflight 0 e
            (by rw [hloop]))⟩
        | ok i =>
          rw [hloop] at herr
          by_cases hi : i = 0
          · simp only [hi, if_true, Option.some.injEq] at herr ⊢
            exact ⟨trivial, Or.inl herr.symm⟩
          · simp [hi] at herr
    · simp only [hmultiple, if_false, Bool.false_eq_true] at herr ⊢
      cases hfind : findFirst (fun entry => decide (entry.deliveryTag = frame.DeliveryTag))
          ch.inflight with
      | none =>
        rw [hfind] at herr
        simp only [Option.some.injEq] at herr
        exact ⟨rfl, Or.inl herr.symm⟩
      | some found =>
        obtain ⟨entry, i⟩ := found
        rw [hfind] at herr
        cases hr : runtime 0 (runtimeCallFor frame entry) with
        | some cause =>
          simp only [hr, Option.some.injEq] at herr ⊢
          exact ⟨trivial, Or.inr ⟨cause, herr.symm⟩⟩
        | none => simp [hr] at herr
  exact ⟨hcases.1, by rw [hcases.1], hcases.2⟩

/-- C38, witness: tags 1, 2, 3 in flight, `basic.nack` of everything up to tag 3; the
call for tag 1 succeeds, the call for tag 2 fails, and all three entries are still in
flight. -/
theorem C38_error_leaves_inflight_witness :
    (handleAMQPv0BasicNack runtimeSecondFails (channelWithTags [1, 2, 3])
        { DeliveryTag := 3, Multiple := true }).calls = [.Ack 0 0 1, .Ack 0 0 2] ∧
      (handleAMQPv0BasicNack runtimeSecondFails (channelWithTags [1, 2, 3])
        { DeliveryTag := 3, Multiple := true }).ch.inflight =
        (channelWithTags [1, 2, 3]).inflight :=
  ⟨by decide,
   (C38_error_leaves_inflight runtimeSecondFails (channelWithTags [1, 2, 3])
      { DeliveryTag := 3, Multiple := true } (.wrap () "ack failed".toList) (by rfl)).2.1⟩

/-! ## HEADERS topics without a header map -/

/-- C37: for a HEADERS topic, a message that carries no header map (no `Headers`, or
`Headers` with no `Fields`) matches no consumer group, whatever its bindings are; in
particular not one with a `HeadersAll` binding whose expected map is empty. -/
theorem C37_headers_without_map_never_match {V : Type} (deepEqual : V → V → Bool)
    (message : Message V) (messageTime : Time) (topic : ClusterTopic)
    (consumerGroup : ClusterConsumerGroup V) (htype : topic.Type_ = .HEADERS)
    (hnone : message.Headers = none ∨ message.Headers = some { Fields := none }) :
    messageMatches deepEqual message messageTime topic consumerGroup = some false := by
  unfold messageMatches
  split
  · rfl
  · rw [htype]
    rcases hnone with h | h <;> simp [h]

/-- C37, witness: a message without headers against a group bound to the topic with a
`HeadersAll` binding that expects nothing. -/
theorem C37_headers_without_map_never_match_witness :
    messageMatches natDeepEqual { RoutingKey := [], Headers := none } 20 (topicT .HEADERS)
        (groupWith [{ TopicName := "t".toList, By := .HeadersAll { Fields := some [] } }]) =
      some false ∧
    messageMatches natDeepEqual { RoutingKey := [], Headers := some { Fields := some [] } } 20
        (topicT .HEADERS)
        (groupWith [{ TopicName := "t".toList, By := .HeadersAll { Fields := some [] } }]) =
      some true :=
  ⟨C37_headers_without_map_never_match natDeepEqual { RoutingKey := [], Headers := none } 20
      (topicT .HEADERS)
      (groupWith [{ TopicName := "t".toList, By := .HeadersAll { Fields := some [] } }])
      rfl (Or.inl rfl),
   by decide⟩

/-! ## Consumer-group transitions: missing subjects and repeated creation -/

/-- C35: `doDeleteConsumerGroup` and `doUpdateOffsetCommits` applied to a namespace that
does not exist, or to a group name that does not exist in the namespace, return the input
state itself, so `Do(index, cmd)` with such a command returns and changes nothing but
`Index`. The three consumer-group transition functions return a state on every input. -/
theorem C35_missing_subject_is_noop {V Other : Type}
    (doOther : ClusterState V → Other → ClusterState V) (s : ClusterStateStore V) (index : Nat) :
    (∀ cmd : ClusterCommandConsumerGroupDelete,
      (s.Current.FindNamespace cmd.Namespace = none ∨
        ∃ n i, s.Current.FindNamespace cmd.Namespace = some (n, i) ∧
          n.findConsumerGroup cmd.Name = none) →
      s.Current.doDeleteConsumerGroup cmd = s.Current ∧
      s.Do doOther index (some (.DeleteConsumerGroup cmd)) =
        some { ptr := { s.Current with Index := index } }) ∧
    (∀ cmd : ClusterCommandConsumerGroupOffsetCommitsUpdate,
      (s.Current.FindNamespace cmd.Namespace = none ∨
        ∃ n i, s.Current.FindNamespace cmd.Namespace = some (n, i) ∧
          n.findConsumerGroup cmd.Name = none) →
      s.Current.doUpdateOffsetCommits cmd = s.Current ∧
      s.Do doOther index (some (.UpdateConsumerGroupOffsetCommits cmd)) =
        some { ptr := { s.Current with Index := index } }) := by
  constructor
  · intro cmd hmissing
    have hsame : s.Current.doDeleteConsumerGroup cmd = s.Current := by
      rcases hmissing with hn | ⟨n, i, hn, hg⟩
      · simp only [ClusterState.doDeleteConsumerGroup, hn]
      · simp only [ClusterState.doDeleteConsumerGroup, hn, hg]
    refine ⟨hsame, ?_⟩
    simp only [ClusterStateStore.Current] at hsame
    simp only [ClusterStateStore.Do, hsame, Option.map_some', ClusterStateStore.Current]
  · intro cmd hmissing
    have hsame : s.Current.doUpdateOffsetCommits cmd = s.Current := by
      rcases hmissing with hn | ⟨n, i, hn, hg⟩
      · simp only [ClusterState.doUpdateOffsetCommits, hn]
      · simp only [ClusterState.doUpdateOffsetCommits, hn, hg]
    refine ⟨hsame, ?_⟩
    simp only [ClusterStateStore.Current] at hsame
    simp only [ClusterStateStore.Do, hsame, Option.map_some', ClusterStateStore.Current]

/-- C35, witness: deleting group `h` of namespace `n`, which only holds group `g`, and
updating the offsets of a group of the missing namespace `m`. -/
theorem C35_missing_subject_is_noop_witness :
    stateNG.doDeleteConsumerGroup { Namespace := "n".toList, Name := "h".toList } = stateNG ∧
    stateNG.doUpdateOffsetCommits
      { Namespace := "m".toList, Name := "g".toList, OffsetCommits := [] } = stateNG :=
  have h := C35_missing_subject_is_noop keepState { ptr := stateNG } 7
  ⟨(h.1 { Namespace := "n".toList, Name := "h".toList }
      (Or.inr ⟨_, _, rfl, rfl⟩)).1,
   (h.2 { Namespace := "m".toList, Name := "g".toList, OffsetCommits := [] }
      (Or.inl rfl)).1⟩

theorem take_replace {α : Type} (l : List α) (i : Nat) (x : α) (h : i < l.length) :
    (l.take i ++ x :: l.drop (i + 1)).take i = l.take i ∧
    (l.take i ++ x :: l.drop (i + 1)).drop (i + 1) = l.drop (i + 1) := by
  have hlen : (l.take i).length = i := by rw [List.length_take]; omega
  constructor
  · exact List.take_left' hlen
  · have : l.take i ++ x :: l.drop (i + 1) = (l.take i ++ [x]) ++ l.drop (i + 1) := by simp
    rw [this]
    exact List.drop_left' (by rw [List.length_append, hlen]; rfl)

theorem assignFrom_assignFrom {V : Type} (g : ClusterConsumerGroup V)
    (cmd : ClusterCommandConsumerGroupCreate V) :
    (g.assignFrom cmd).assignFrom cmd = g.assignFrom cmd := by
  by_cases h0 : g.CreatedAt = 0
  · by_cases hc : cmd.ConsumerGroup.CreatedAt = 0
    · simp [ClusterConsumerGroup.assignFrom, Time.IsZero, h0, hc]
    · simp [ClusterConsumerGroup.assignFrom, Time.IsZero, h0, hc]
  · simp [ClusterConsumerGroup.assignFrom, Time.IsZero, h0]

theorem doCreateConsumerGroup_existing {V : Type} (s : ClusterState V)
    (cmd : ClusterCommandConsumerGroupCreate V) (n : ClusterNamespace V) (i : Nat)
    (g : ClusterConsumerGroup V) (j : Nat)
    (hn : s.FindNamespace cmd.Namespace = some (n, i))
    (hg : n.findConsumerGroup cmd.ConsumerGroup.Name = some (g, j)) :
    s.doCreateConsumerGroup cmd =
      { s with
        Namespaces := s.Namespaces.set i
          { n with ConsumerGroups := n.ConsumerGroups.set j (g.assignFrom cmd) } } := by
  have hi := (findFirst_some hn).2.1
  have hj := (findFirst_some hg).2.1
  simp only [ClusterState.doCreateConsumerGroup, hn, hg]
  rw [List.set_eq_take_cons_drop _ hi, List.set_eq_take_cons_drop _ hj]

theorem doCreateConsumerGroup_idempotent {V : Type} (s : ClusterState V)
    (cmd : ClusterCommandConsumerGroupCreate V) :
    (s.doCreateConsumerGroup cmd).doCreateConsumerGroup cmd = s.doCreateConsumerGroup cmd := by
  cases hn : s.FindNamespace cmd.Namespace with
  | none =>
    have hpre := findFirst_none_iff.1 hn
    have hs : s.doCreateConsumerGroup cmd =
        { s with
          Namespaces := s.Namespaces ++
            [{ Name := cmd.Namespace, Topics := [],
               ConsumerGroups :=
                 [(ClusterConsumerGroup.named cmd.ConsumerGroup.Name).assignFrom cmd] }] } := by
      simp only [ClusterState.doCreateConsumerGroup, hn]
    have hn2 : (s.doCreateConsumerGroup cmd).FindNamespace cmd.Namespace =
        some ({ Name := cmd.Namespace, Topics := [],
                ConsumerGroups :=
                  [(ClusterConsumerGroup.named cmd.ConsumerGroup.Name).assignFrom cmd] },
              s.Namespaces.length) := by
      rw [hs]
      exact findFirst_append_cons _ [] _ hpre (by simp)
    have hg2 : ({ Name := cmd.Namespace, Topics := [],
                  ConsumerGroups :=
                    [(ClusterConsumerGroup.named cmd.ConsumerGroup.Name).assignFrom cmd] } :
          ClusterNamespace V).findConsumerGroup cmd.ConsumerGroup.Name =
        some ((ClusterConsumerGroup.named cmd.ConsumerGroup.Name).assignFrom cmd, 0) := by
      simp [ClusterNamespace.findConsumerGroup, findFirst, ClusterConsumerGroup.assignFrom,
        ClusterConsumerGroup.named]
    rw [doCreateConsumerGroup_existing _ cmd _ _ _ _ hn2 hg2, assignFrom_assignFrom]
    rw [hs]
    simp
  | some found =>
    obtain ⟨n, i⟩ := found
    obtain ⟨_, hi, hname, _⟩ := findFirst_some hn
    cases hg : n.findConsumerGroup cmd.ConsumerGroup.Name with
    | none =>
      have hpre := findFirst_none_iff.1 hg
      have hs : s.doCreateConsumerGroup cmd =
          { s with
            Namespaces := s.Namespaces.take i ++
              { n with
                ConsumerGroups := n.ConsumerGroups ++
                  [(ClusterConsumerGroup.named cmd.ConsumerGroup.Name).assignFrom cmd] } ::
                s.Namespaces.drop (i + 1) } := by
        simp only [ClusterState.doCreateConsumerGroup, hn, hg]
      have hn2 : (s.doCreateConsumerGroup cmd).FindNamespace cmd.Namespace =
          some ({ n with
                  ConsumerGroups := n.ConsumerGroups ++
                    [(ClusterConsumerGroup.named cmd.ConsumerGroup.Name).assignFrom cmd] },
                i) := by
        rw [hs]
        exact findFirst_replace hn hname
      have hg2 : ({ n with
                    ConsumerGroups := n.ConsumerGroups ++
                      [(ClusterConsumerGroup.named cmd.ConsumerGroup.Name).assignFrom cmd] } :
            ClusterNamespace V).findConsumerGroup cmd.ConsumerGroup.Name =
          some ((ClusterConsumerGroup.named cmd.ConsumerGroup.Name).assignFrom cmd,
            n.ConsumerGroups.length) :=
        findFirst_append_cons _ [] _ hpre
          (by simp [ClusterConsumerGroup.assignFrom, ClusterConsumerGroup.named])
      rw [doCreateConsumerGroup_existing _ cmd _ _ _ _ hn2 hg2, assignFrom_assignFrom]
      rw [hs]
      have hlen : i < (s.Namespaces.take i ++
          { n with
            ConsumerGroups := n.ConsumerGroups ++
              [(ClusterConsumerGroup.named cmd.ConsumerGroup.Name).assignFrom cmd] } ::
            s.Namespaces.drop (i + 1)).length := by
        simp [List.length_take]; omega
      simp only
      rw [List.set_eq_take_cons_drop _ hlen, (take_replace _ i _ hi).1, (take_replace _ i _ hi).2]
      simp
    | some foundGroup =>
      obtain ⟨g, j⟩ := foundGroup
      obtain ⟨_, hj, hgname, _⟩ := findFirst_some hg
      have hs := doCreateConsumerGroup_existing s cmd n i g j hn hg
      have hn2 : (s.doCreateConsumerGroup cmd).FindNamespace cmd.Namespace =
          some ({ n with ConsumerGroups := n.ConsumerGroups.set j (g.assignFrom cmd) }, i) := by
        rw [hs]
        simp only [ClusterState.FindNamespace]
        rw [List.set_eq_take_cons_drop _ hi]
        exact findFirst_replace hn hname
      have hg2 : ({ n with ConsumerGroups := n.ConsumerGroups.set j (g.assignFrom cmd) } :
            ClusterNamespace V).findConsumerGroup cmd.ConsumerGroup.Name =
          some (g.assignFrom cmd, j) := by
        simp only [ClusterNamespace.findConsumerGroup]
        rw [List.set_eq_take_cons_drop _ hj]
        exact findFirst_replace hg hgname
      rw [doCreateConsumerGroup_existing _ cmd _ _ _ _ hn2 hg2, assignFrom_assignFrom]
      rw [hs]
      simp

/-- C40: `doCreateConsumerGroup` applied to a group that already exists replaces only its
Bindings and Size: the group keeps its name, its OffsetCommits and its position in the
namespace's group list, and its CreatedAt whenever that is non-zero (a zero CreatedAt is
set from the command); the namespace keeps its position; every other group and namespace
is untouched, and the numbers of groups and of namespaces do not change. Applying the same
create command twice yields the same state as applying it once, on every state. -/
theorem C40_create_existing_group {V : Type} (s : ClusterState V)
    (cmd : ClusterCommandConsumerGroupCreate V) :
    (∀ n i g j, s.FindNamespace cmd.Namespace = some (n, i) →
      n.findConsumerGroup cmd.ConsumerGroup.Name = some (g, j) →
      ∃ n' g',
        (s.doCreateConsumerGroup cmd).FindNamespace cmd.Namespace = some (n', i) ∧
        n'.findConsumerGroup cmd.ConsumerGroup.Name = some (g', j) ∧
        g'.Name = g.Name ∧ g'.OffsetCommits = g.OffsetCommits ∧
        g'.Bindings = cmd.ConsumerGroup.Bindings ∧ g'.Size_ = cmd.ConsumerGroup.Size_ ∧
        (g.CreatedAt ≠ 0 → g'.CreatedAt = g.CreatedAt) ∧
        (g.CreatedAt = 0 → g'.CreatedAt = cmd.ConsumerGroup.CreatedAt) ∧
        n'.Name = n.Name ∧ n'.Topics = n.Topics ∧
        n'.ConsumerGroups.length = n.ConsumerGroups.length ∧
        (∀ k, k ≠ j → n'.ConsumerGroups[k]? = n.ConsumerGroups[k]?) ∧
        (s.doCreateConsumerGroup cmd).Namespaces.length = s.Namespaces.length ∧
        (∀ k, k ≠ i → (s.doCreateConsumerGroup cmd).Namespaces[k]? = s.Namespaces[k]?) ∧
        (s.doCreateConsumerGroup cmd).Index = s.Index ∧
        (s.doCreateConsumerGroup cmd).CurrentSegmentID = s.CurrentSegmentID) ∧
    (s.doCreateConsumerGroup cmd).doCreateConsumerGroup cmd = s.doCreateConsumerGroup cmd := by
  refine ⟨?_, doCreateConsumerGroup_idempotent s cmd⟩
  intro n i g j hn hg
  obtain ⟨_, hi, hname, _⟩ := findFirst_some hn
  obtain ⟨_, hj, hgname, _⟩ := findFirst_some hg
  have hs := doCreateConsumerGroup_existing s cmd n i g j hn hg
  refine ⟨{ n with ConsumerGroups := n.ConsumerGroups.set j (g.assignFrom cmd) },
    g.assignFrom cmd, ?_, ?_, rfl, rfl, rfl, rfl, ?_, ?_, rfl, rfl, ?_, ?_, ?_, ?_, ?_, ?_⟩
  · rw [hs]
    simp only [ClusterState.FindNamespace]
    rw [List.set_eq_take_cons_drop _ hi]
    exact findFirst_replace hn hname
  · simp only [ClusterNamespace.findConsumerGroup]
    rw [List.set_eq_take_cons_drop _ hj]
    exact findFirst_replace hg hgname
  · intro hne
    simp [ClusterConsumerGroup.assignFrom, Time.IsZero, hne]
  · intro h0
    simp [ClusterConsumerGroup.assignFrom, Time.IsZero, h0]
  · simp
  · intro k hk
    simp only
    exact List.getElem?_set_ne (fun h => hk h.symm)
  · rw [hs]; simp
  · intro k hk
    rw [hs]
    simp only
    exact List.getElem?_set_ne (fun h => hk h.symm)
  · rw [hs]
  · rw [hs]

/-- C40, witness: the create command for group `g` of namespace `n` applied to the state
that already holds it. -/
theorem C40_create_existing_group_witness :
    (stateNG.doCreateConsumerGroup (createCommand "n".toList "g".toList)).doCreateConsumerGroup
        (createCommand "n".toList "g".toList) =
      stateNG.doCreateConsumerGroup (createCommand "n".toList "g".toList) :=
  (C40_create_existing_group stateNG (createCommand "n".toList "g".toList)).2

/-! ## Termination of `routingKeyMatches` -/

theorem length_drop_succ_lt {s : GoString} {j : Nat} (h : j < s.length) :
    (s.drop (j + 1)).length < s.length := by
  rw [List.length_drop]; omega

theorem loopNext_size (pattern rest routingKey : GoString) (following : MatchPoint) (h : following ∈ loopNext pattern rest routingKey) :
    (following = .call rest routingKey ∨
      ∃ key : GoString, key.length < routingKey.length ∧ following = .iteration pattern key) := by
  simp only [loopNext, List.mem_cons] at h
  rcases h with h | h
  · exact Or.inl h
  · cases hj : indexByte routingKey patternSeparator with
    | none => simp [hj] at h
    | some j =>
      rw [hj] at h
      by_cases hd : routingKey.drop (j + 1) = []
      · simp [hd] at h
      · simp only [hd, if_false, List.mem_singleton] at h
        exact Or.inr ⟨_, length_drop_succ_lt (indexByte_lt hj), h⟩

theorem next_size (point following : MatchPoint) (h : following ∈ point.next) :
    following.size.1 ≤ point.size.1 ∧ following.size.2 ≤ point.size.2 ∧
      (following.size.1 < point.size.1 ∨
        (following.size.1 = point.size.1 ∧ following.size.2 < point.size.2)) := by
  cases point with
  | call pattern routingKey =>
    simp only [MatchPoint.next] at h
    by_cases hp : pattern = []
    · simp [hp] at h
    · simp only [hp, if_false] at h
      cases hi : indexByte pattern patternSeparator with
      | none =>
        rw [hi] at h
        by_cases hw : pattern = patternWildcard
        · simp [hw] at h
        · simp only [hw, if_false] at h
          by_cases hz : pattern = patternZeroOrMore
          · simp only [hz, if_true] at h
            cases hj : indexByte routingKey patternSeparator with
            | none => simp [hj] at h
            | some j =>
              rw [hj] at h
              by_cases hd : routingKey.drop (j + 1) = []
              · simp [hd] at h
              · simp only [hd, if_false, List.mem_singleton] at h
                have := length_drop_succ_lt (indexByte_lt hj)
                subst h
                rw [hz]
                exact ⟨le_refl _, le_of_lt this, Or.inr ⟨rfl, this⟩⟩
          · simp [hz] at h
      | some i =>
        rw [hi] at h
        have hrest : (pattern.drop (i + 1)).length < pattern.length :=
          length_drop_succ_lt (indexByte_lt hi)
        by_cases hw : pattern.take i = patternWildcard
        · simp only [hw, if_true] at h
          cases hj : indexByte routingKey patternSeparator with
          | none =>
            rw [hj] at h
            by_cases hk : routingKey = []
            · simp [hk] at h
            · simp only [hk, if_false, List.mem_singleton] at h
              subst h
              simp only [MatchPoint.size, List.length_nil]
              omega
          | some j =>
            rw [hj] at h
            by_cases hd : routingKey.drop (j + 1) = []
            · simp [hd] at h
            · simp only [hd, if_false, List.mem_singleton] at h
              have := length_drop_succ_lt (indexByte_lt hj)
              subst h
              simp only [MatchPoint.size]
              omega
        · simp only [hw, if_false] at h
          by_cases hz : pattern.take i = patternZeroOrMore
          · simp only [hz, if_true] at h
            rcases loopNext_size _ _ _ _ h with h | ⟨key, hkey, h⟩
            · subst h
              simp only [MatchPoint.size]
              omega
            · subst h
              exact ⟨le_refl _, le_of_lt hkey, Or.inr ⟨rfl, hkey⟩⟩
          · simp only [hz, if_false] at h
            cases hj : indexByte routingKey patternSeparator with
            | none =>
              rw [hj] at h
              by_cases hk : routingKey = pattern.take i
              · simp only [hk, if_true, List.mem_singleton] at h
                subst h
                simp only [MatchPoint.size, List.length_nil]
                omega
              · simp [hk] at h
            | some j =>
              rw [hj] at h
              by_cases ht : routingKey.take j = pattern.take i
              · by_cases hd : routingKey.drop (j + 1) = []
                · simp [ht, hd] at h
                · simp only [ht, ne_eq, not_true_eq_false, if_false, hd,
                    List.mem_singleton] at h
                  have := length_drop_succ_lt (indexByte_lt hj)
                  subst h
                  simp only [MatchPoint.size]
                  omega
              · simp [ht] at h
  | iteration pattern routingKey =>
    simp only [MatchPoint.next] at h
    cases hi : indexByte pattern patternSeparator with
    | none => simp [hi] at h
    | some i =>
      rw [hi] at h
      have hrest : (pattern.drop (i + 1)).length < pattern.length :=
        length_drop_succ_lt (indexByte_lt hi)
      rcases loopNext_size _ _ _ _ h with h | ⟨key, hkey, h⟩
      · subst h
        simp only [MatchPoint.size]
        omega
      · subst h
        exact ⟨le_refl _, le_of_lt hkey, Or.inr ⟨rfl, hkey⟩⟩

theorem loopBody_congr (f g : MatchPoint → Bool) (pattern rest routingKey : GoString)
    (h : ∀ following ∈ loopNext pattern rest routingKey, f following = g following) :
    loopBody f pattern rest routingKey = loopBody g pattern rest routingKey := by
  have hcall : f (.call rest routingKey) = g (.call rest routingKey) :=
    h _ (by simp [loopNext])
  simp only [loopBody, hcall]
  cases hj : indexByte routingKey patternSeparator with
  | none => rfl
  | some j =>
    by_cases hd : routingKey.drop (j + 1) = []
    · simp [hd]
    · have := h (.iteration pattern (routingKey.drop (j + 1))) (by simp [loopNext, hj, hd])
      simp [hd, this]

theorem body_congr (f g : MatchPoint → Bool) (point : MatchPoint)
    (h : ∀ following ∈ point.next, f following = g following) :
    point.body f = point.body g := by
  cases point with
  | call pattern routingKey =>
    simp only [MatchPoint.next] at h
    simp only [MatchPoint.body]
    by_cases hp : pattern = []
    · simp [hp]
    · simp only [hp, if_false] at h ⊢
      cases hi : indexByte pattern patternSeparator with
      | none =>
        rw [hi] at h
        by_cases hw : pattern = patternWildcard
        · simp [hw]
        · simp only [hw, if_false] at h ⊢
          by_cases hz : pattern = patternZeroOrMore
          · simp only [hz, if_true] at h ⊢
            cases hj : indexByte routingKey patternSeparator with
            | none => rfl
            | some j =>
              rw [hj] at h
              by_cases hd : routingKey.drop (j + 1) = []
              · simp [hd]
              · simp only [hd, if_false] at h ⊢
                exact h _ (List.mem_singleton.2 rfl)
          · simp [hz]
      | some i =>
        rw [hi] at h
        by_cases hw : pattern.take i = patternWildcard
        · simp only [hw, if_true] at h ⊢
          cases hj : indexByte routingKey patternSeparator with
          | none =>
            rw [hj] at h
            by_cases hk : routingKey = []
            · simp [hk]
            · simp only [hk, if_false] at h ⊢
              exact h _ (List.mem_singleton.2 rfl)
          | some j =>
            rw [hj] at h
            by_cases hd : routingKey.drop (j + 1) = []
            · simp [hd]
            · simp only [hd, if_false] at h ⊢
              exact h _ (List.mem_singleton.2 rfl)
        · simp only [hw, if_false] at h ⊢
          by_cases hz : pattern.take i = patternZeroOrMore
          · simp only [hz, if_true] at h ⊢
            exact loopBody_congr f g _ _ _ h
          · simp only [hz, if_false] at h ⊢
            cases hj : indexByte routingKey patternSeparator with
            | none =>
              rw [hj] at h
              by_cases hk : routingKey = pattern.take i
              · simp only [hk, if_true] at h
                simp only [hk, decide_True, Bool.true_and]
                exact h _ (List.mem_singleton.2 rfl)
              · simp [hk]
            | some j =>
              rw [hj] at h
              by_cases ht : routingKey.take j = pattern.take i
              · by_cases hd : routingKey.drop (j + 1) = []
                · simp [ht, hd]
                · simp only [ht, ne_eq, not_true_eq_false, if_false, hd] at h ⊢
                  exact h _ (List.mem_singleton.2 rfl)
              · simp [ht]
  | iteration pattern routingKey =>
    simp only [MatchPoint.next] at h
    simp only [MatchPoint.body]
    cases hi : indexByte pattern patternSeparator with
    | none => rfl
    | some i =>
      rw [hi] at h
      exact loopBody_congr f g _ _ _ h

theorem zeroOrMoreLoop_eq_loopBody (pattern : GoString) (i : Nat)
    (hi : indexByte pattern patternSeparator = some i) (routingKey : GoString) :
    zeroOrMoreLoop (pattern.drop (i + 1)) routingKey =
      loopBody MatchPoint.eval pattern (pattern.drop (i + 1)) routingKey := by
  rw [zeroOrMoreLoop]
  simp only [loopBody, MatchPoint.eval, hi]

theorem eval_eq_body (point : MatchPoint) : point.eval = point.body MatchPoint.eval := by
  cases point with
  | call pattern routingKey =>
    simp only [MatchPoint.eval, MatchPoint.body]
    rw [routingKeyMatches]
    by_cases hp : pattern = []
    · simp [hp]
    · simp only [hp, if_false]
      cases hi : indexByte pattern patternSeparator with
      | none => rfl
      | some i =>
        simp only
        by_cases hw : pattern.take i = patternWildcard
        · simp only [hw, if_true]
        · simp only [hw, if_false]
          by_cases hz : pattern.take i = patternZeroOrMore
          · simp only [hz, if_true]
            exact zeroOrMoreLoop_eq_loopBody pattern i hi routingKey
          · simp only [hz, if_false]
  | iteration pattern routingKey =>
    simp only [MatchPoint.eval, MatchPoint.body]
    cases hi : indexByte pattern patternSeparator with
    | none => rfl
    | some i => exact zeroOrMoreLoop_eq_loopBody pattern i hi routingKey

theorem run_eq_eval : ∀ (fuel : Nat) (point : MatchPoint),
    point.size.1 + point.size.2 < fuel → point.run fuel = some point.eval := by
  intro fuel
  induction fuel with
  | zero => intro point h; omega
  | succ fuel ih =>
    intro point hsize
    have hnext : ∀ following ∈ point.next, following.run fuel = some following.eval := by
      intro following hmem
      have := next_size point following hmem
      exact ih following (by omega)
    have hall : point.next.all (fun following => (MatchPoint.run fuel following).isSome) =
        true := by
      rw [List.all_eq_true]
      intro following hmem
      rw [hnext following hmem]
      rfl
    simp only [MatchPoint.run, hall, if_true]
    rw [eval_eq_body point]
    congr 1
    apply body_congr
    intro following hmem
    rw [hnext following hmem]
    rfl

/-- C36: `routingKeyMatches` terminates for every pattern and every routing key. Each
recursive call, and each iteration of the `#` loop after the first, strictly decreases the
pair (pattern length, routing-key length) in lexicographic order, neither component ever
growing; so following calls and iterations is well founded, and an execution bounded to
depth `len(pattern) + len(routingKey) + 1` returns the value of the function. -/
theorem C36_routing_key_matches_terminates :
    (∀ point following : MatchPoint, following ∈ point.next →
      Prod.Lex (· < ·) (· < ·) following.size point.size) ∧
    WellFounded (fun following point : MatchPoint => following ∈ point.next) ∧
    (∀ (pattern routingKey : GoString) (fuel : Nat),
      pattern.length + routingKey.length + 1 ≤ fuel →
      MatchPoint.run fuel (.call pattern routingKey) =
        some (routingKeyMatches pattern routingKey)) := by
  have hlex : ∀ point following : MatchPoint, following ∈ point.next →
      Prod.Lex (· < ·) (· < ·) following.size point.size := by
    intro point following hmem
    obtain ⟨_, _, h | ⟨h1, h2⟩⟩ := next_size point following hmem
    · exact Prod.Lex.left _ _ h
    · rw [Prod.lex_def]
      exact Or.inr ⟨h1, h2⟩
  refine ⟨hlex, ?_, ?_⟩
  · have hwf : WellFounded (Prod.Lex (· < ·) (· < ·) : Nat × Nat → Nat × Nat → Prop) :=
      (Prod.lex Nat.lt_wfRel Nat.lt_wfRel).wf
    exact Subrelation.wf (fun {a b} h => hlex b a h) (InvImage.wf MatchPoint.size hwf)
  · intro pattern routingKey fuel hfuel
    exact run_eq_eval fuel (.call pattern routingKey) (by simp only [MatchPoint.size]; omega)

/-- C36, witness: pattern `a.#.c` against `a.b.c`, bounded to depth 11. -/
theorem C36_routing_key_matches_terminates_witness :
    MatchPoint.run 11 (.call "a.#.c".toList "a.b.c".toList) =
      some (routingKeyMatches "a.#.c".toList "a.b.c".toList) ∧
    MatchPoint.run 11 (.call "a.#.c".toList "a.b.c".toList) = some true :=
  ⟨C36_routing_key_matches_terminates.2.2 "a.#.c".toList "a.b.c".toList 11 (by decide),
   by decide⟩

/-! ## `queue.declare` and `exchange.delete`: declined requests -/

/-- C31: for every `QueueDeclare` frame that is non-durable, or exclusive, or auto-delete,
`handleAMQPv0QueueDeclare` returns a `ConnectionClose` with reply code NotImplemented
(540) and does nothing else: it does not read the cluster state, creates no topic and no
consumer group, waits for nothing and sends no `QueueDeclareOk`. A durable, non-exclusive,
non-auto-delete frame does read the cluster state. -/
theorem C31_queue_declare_not_implemented {V A E : Type} (env : QueueDeclareEnv V A E)
    (state : ClusterState V) (namespaceName : GoString) (ch : serverAMQPv0Channel)
    (frame : QueueDeclare A) :
    (frame.Durable = false ∨ frame.Exclusive = true ∨ frame.AutoDelete = true →
      (∃ text, (handleAMQPv0QueueDeclare env state namespaceName ch frame).result =
        some (.connectionClose { ReplyCode := 540, ReplyText := text })) ∧
      (handleAMQPv0QueueDeclare env state namespaceName ch frame).effects = []) ∧
    (¬ (frame.Durable = false ∨ frame.Exclusive = true ∨ frame.AutoDelete = true) →
      ∃ rest, (handleAMQPv0QueueDeclare env state namespaceName ch frame).effects =
        .current :: rest) := by
  constructor
  · intro hdeclined
    unfold handleAMQPv0QueueDeclare
    by_cases hd : frame.Durable = true
    · by_cases he : frame.Exclusive = true
      · simp only [hd, he, Bool.not_true, Bool.false_eq_true, if_false, if_true]
        exact ⟨⟨_, rfl⟩, trivial⟩
      · have ha : frame.AutoDelete = true := by
          rcases hdeclined with h | h | h
          · rw [hd] at h; cases h
          · exact absurd h he
          · exact h
        simp only [hd, he, ha, Bool.not_true, Bool.false_eq_true, if_false, if_true]
        exact ⟨⟨_, rfl⟩, trivial⟩
    · have hd2 : frame.Durable = false := by simpa using hd
      simp only [hd2, Bool.not_false, if_true]
      exact ⟨⟨_, rfl⟩, trivial⟩
  · intro haccepted
    have hd : frame.Durable = true := by
      by_cases h : frame.Durable = true
      · exact h
      · exact absurd (Or.inl (by simpa using h)) haccepted
    have he : ¬ frame.Exclusive = true := fun h => haccepted (Or.inr (Or.inl h))
    have ha : ¬ frame.AutoDelete = true := fun h => haccepted (Or.inr (Or.inr h))
    unfold handleAMQPv0QueueDeclare
    simp only [hd, he, ha, Bool.not_true, Bool.false_eq_true, if_false]
    cases state.FindNamespace namespaceName with
    | none => exact ⟨[], rfl⟩
    | some found =>
      obtain ⟨namespace_, index⟩ := found
      simp only
      cases namespace_.FindTopic env.defaultExchangeTopicName with
      | none =>
        simp only
        cases env.CreateTopic _ with
        | some err => exact ⟨_, rfl⟩
        | none =>
          simp only
          cases env.structvalueUint32 frame.Arguments "size".toList
              env.defaultConsumerGroupSize with
          | error err => exact ⟨_, rfl⟩
          | ok size =>
            simp only
            split
            · exact ⟨_, rfl⟩
            · split
              · split
                · exact ⟨_, rfl⟩
                · simp only [queueDeclareReply]
                  split <;> exact ⟨_, rfl⟩
              · split
                · exact ⟨_, rfl⟩
                · split
                  · exact ⟨_, rfl⟩
                  · simp only [queueDeclareReply]
                    split <;> exact ⟨_, rfl⟩
      | some topic =>
        simp only
        cases env.structvalueUint32 frame.Arguments "size".toList
            env.defaultConsumerGroupSize with
        | error err => exact ⟨_, rfl⟩
        | ok size =>
          simp only
          split
          · exact ⟨_, rfl⟩
          · split
            · split
              · exact ⟨_, rfl⟩
              · simp only [queueDeclareReply]
                split <;> exact ⟨_, rfl⟩
            · split
              · exact ⟨_, rfl⟩
              · split
                · exact ⟨_, rfl⟩
                · simp only [queueDeclareReply]
                  split <;> exact ⟨_, rfl⟩

/-- C31, witness: a durable but exclusive queue on a state that has the namespace. -/
theorem C31_queue_declare_not_implemented_witness :
    (handleAMQPv0QueueDeclare queueDeclareEnvOk stateNG "n".toList { id := 1 }
        { Queue := "q".toList, Durable := true, Exclusive := true, Arguments := () }).effects =
      [] :=
  ((C31_queue_declare_not_implemented queueDeclareEnvOk stateNG "n".toList { id := 1 }
    { Queue := "q".toList, Durable := true, Exclusive := true, Arguments := () }).1
    (Or.inr (Or.inl rfl))).2

/-- C32: for every `ExchangeDelete` frame whose exchange name is empty or equals the
default exchange's topic name, `handleAMQPv0ExchangeDelete` returns a `ConnectionClose`
with reply code SyntaxError (502) and does nothing else: no `DeleteTopic` request, no read
of the cluster state, nothing sent; this whatever the cluster state, the namespace, the
channel and the if-unused and no-wait flags are. For any other exchange name in an
existing namespace exactly one `DeleteTopic` request, for that name, is issued. -/
theorem C32_default_exchange_not_deleted {V E : Type} (defaultExchangeTopicName : GoString)
    (quote : GoString → GoString) (DeleteTopic : TopicDeleteRequest → Option E)
    (Send : ExchangeDeleteOk → Option E) (state : ClusterState V) (namespaceName : GoString)
    (ch : serverAMQPv0Channel) (frame : ExchangeDelete) :
    (frame.Exchange = [] ∨ frame.Exchange = defaultExchangeTopicName →
      handleAMQPv0ExchangeDelete defaultExchangeTopicName quote DeleteTopic Send state
          namespaceName ch frame =
        { result := some (.connectionClose
            { ReplyCode := 502, ReplyText := "trying to delete default exchange".toList }),
          effects := [] }) ∧
    (¬ (frame.Exchange = [] ∨ frame.Exchange = defaultExchangeTopicName) →
      state.FindNamespace namespaceName ≠ none →
      ∃ rest, (handleAMQPv0ExchangeDelete defaultExchangeTopicName quote DeleteTopic Send state
          namespaceName ch frame).effects =
        .current :: .DeleteTopic { Namespace := namespaceName, Name := frame.Exchange,
                                   IfUnused := frame.IfUnused } :: rest ∧
        ∀ effect ∈ rest, ∀ request, effect ≠ .DeleteTopic request) := by
  constructor
  · intro hdefault
    simp only [handleAMQPv0ExchangeDelete, hdefault, if_true]
    rfl
  · intro hother hnamespace
    unfold handleAMQPv0ExchangeDelete
    simp only [hother, if_false]
    cases hn : state.FindNamespace namespaceName with
    | none => exact absurd hn hnamespace
    | some found =>
      simp only
      cases DeleteTopic _ with
      | some err => exact ⟨[], rfl, fun _ h => by cases h⟩
      | none =>
        simp only
        by_cases hw : frame.NoWait = true
        · simp only [hw, if_true]
          exact ⟨[], rfl, fun _ h => by cases h⟩
        · simp only [hw, if_false, Bool.false_eq_true]
          refine ⟨[.Send { Channel := ch.id }], rfl, ?_⟩
          intro effect h request
          rw [List.mem_singleton.1 h]
          intro heq
          cases heq

/-- C32, witness: deleting the exchange with the empty name, with `if-unused` and
`no-wait` set. -/
theorem C32_default_exchange_not_deleted_witness :
    handleAMQPv0ExchangeDelete "amq.default".toList (fun name => name) deleteTopicOk
        sendDeleteOk stateNG "n".toList { id := 1 }
        { Exchange := [], IfUnused := true, NoWait := true } =
      { result := some (.connectionClose
          { ReplyCode := 502, ReplyText := "trying to delete default exchange".toList }),
        effects := [] } ∧
    (handleAMQPv0ExchangeDelete "amq.default".toList (fun name => name) deleteTopicOk
        sendDeleteOk stateNG "n".toList { id := 1 }
        { Exchange := "e".toList }).effects =
      [.current, .DeleteTopic { Namespace := "n".toList, Name := "e".toList, IfUnused := false },
       .Send { Channel := 1 }] :=
  ⟨(C32_default_exchange_not_deleted "amq.default".toList (fun name => name) deleteTopicOk
      sendDeleteOk stateNG "n".toList { id := 1 }
      { Exchange := [], IfUnused := true, NoWait := true }).1 (Or.inl rfl),
   by decide⟩

/-! ## Receiving an AMQP 1.0 frame -/

theorem mem_FrameKind_all (kind : v1.FrameKind) : kind ∈ v1.FrameKind.all := by
  cases kind <;> decide

theorem receiveBody_malformed_iff {F E : Type} (descriptor : v1.FrameKind → Nat)
    (unmarshalUlong : Nat → List Nat → Except E (Nat × List Nat))
    (unmarshalBuffer : v1.FrameKind → List Nat → Except E (F × List Nat))
    (frameMeta : v1.FrameMeta) (buf : List Nat) :
    receiveBody descriptor unmarshalUlong unmarshalBuffer frameMeta buf =
        .error .ErrMalformedFrame ↔
      (∃ b tail, buf = b :: tail ∧ b ≠ 0) ∨
      (∃ c tail code rest, buf = 0 :: c :: tail ∧ unmarshalUlong c tail = .ok (code, rest) ∧
        ∀ kind, descriptor kind ≠ code) := by
  cases buf with
  | nil => simp [receiveBody]
  | cons b buf =>
    by_cases hb : b = 0
    · subst hb
      cases buf with
      | nil => simp [receiveBody]
      | cons c tail =>
        simp only [receiveBody, ne_eq, not_true_eq_false, if_false]
        cases hu : unmarshalUlong c tail with
        | error err => simp [hu]
        | ok value =>
          obtain ⟨code, rest⟩ := value
          simp only
          cases hfind : v1.FrameKind.all.find? (fun kind => decide (descriptor kind = code)) with
          | none =>
            have hnone : ∀ kind, descriptor kind ≠ code := by
              intro kind
              simpa using List.find?_eq_none.1 hfind kind (mem_FrameKind_all kind)
            simp only [true_iff]
            exact Or.inr ⟨c, tail, code, rest, rfl, hu, hnone⟩
          | some kind =>
            have hkind : descriptor kind = code := by simpa using List.find?_some hfind
            have hne : (match unmarshalBuffer kind rest with
                | .error err => (.error (.wrap "unmarshal failed".toList err) :
                    ReceiveResult F E)
                | .ok (content, buf) =>
                  .frame kind { frameMeta with Payload := buf } content) ≠
                .error .ErrMalformedFrame := by
              cases unmarshalBuffer kind rest with
              | error err => simp
              | ok value => simp
            simp only [hne, false_iff]
            rintro (⟨b, tail2, heq, hb⟩ | ⟨c2, tail2, code2, rest2, heq, hu2, hall⟩)
            · simp only [List.cons.injEq] at heq
              exact hb heq.1.symm
            · simp only [List.cons.injEq, true_and] at heq
              obtain ⟨rfl, rfl⟩ := heq
              rw [hu] at hu2
              simp only [Except.ok.injEq, Prod.mk.injEq] at hu2
              exact hall kind (hkind.trans hu2.1)
    · simp only [receiveBody, ne_eq, hb, not_false_eq_true, if_true, true_iff]
      exact Or.inl ⟨b, buf, rfl, hb⟩

theorem receiveBody_frame {F E : Type} (descriptor : v1.FrameKind → Nat)
    (unmarshalUlong : Nat → List Nat → Except E (Nat × List Nat))
    (unmarshalBuffer : v1.FrameKind → List Nat → Except E (F × List Nat))
    (frameMeta : v1.FrameMeta) (buf : List Nat) (kind : v1.FrameKind)
    (returned : v1.FrameMeta) (content : F)
    (h : receiveBody descriptor unmarshalUlong unmarshalBuffer frameMeta buf =
      .frame kind returned content) :
    returned.Size = frameMeta.Size ∧ returned.DataOffset = frameMeta.DataOffset ∧
      returned.Type_ = frameMeta.Type_ ∧ returned.Channel = frameMeta.Channel := by
  cases buf with
  | nil => simp [receiveBody] at h
  | cons b buf =>
    by_cases hb : b = 0
    · subst hb
      cases buf with
      | nil => simp [receiveBody] at h
      | cons c tail =>
        simp only [receiveBody, ne_eq, not_true_eq_false, if_false] at h
        cases hu : unmarshalUlong c tail with
        | error err => simp [hu] at h
        | ok value =>
          obtain ⟨code, rest⟩ := value
          rw [hu] at h
          simp only at h
          cases hfind : v1.FrameKind.all.find? (fun kind => decide (descriptor kind = code)) with
          | none => simp [hfind] at h
          | some found =>
            rw [hfind] at h
            simp only at h
            cases hb : unmarshalBuffer found rest with
            | error err => simp [hb] at h
            | ok value =>
              rw [hb] at h
              simp only [ReceiveResult.frame.injEq] at h
              obtain ⟨_, hmeta, _⟩ := h
              subst hmeta
              exact ⟨rfl, rfl, rfl, rfl⟩
    · simp [receiveBody, hb] at h

theorem receiveBody_not_tooBig {F E : Type} (descriptor : v1.FrameKind → Nat)
    (unmarshalUlong : Nat → List Nat → Except E (Nat × List Nat))
    (unmarshalBuffer : v1.FrameKind → List Nat → Except E (F × List Nat))
    (frameMeta : v1.FrameMeta) (buf : List Nat) :
    receiveBody descriptor unmarshalUlong unmarshalBuffer frameMeta buf ≠
      .error .ErrFrameTooBig := by
  cases buf with
  | nil => simp [receiveBody]
  | cons b buf =>
    by_cases hb : b = 0
    · subst hb
      cases buf with
      | nil => simp [receiveBody]
      | cons c tail =>
        simp only [receiveBody, ne_eq, not_true_eq_false, if_false]
        cases unmarshalUlong c tail with
        | error err => simp
        | ok value =>
          obtain ⟨code, rest⟩ := value
          simp only
          cases v1.FrameKind.all.find? (fun kind => decide (descriptor kind = code)) with
          | none => simp
          | some found =>
            simp only
            cases unmarshalBuffer found rest with
            | error err => simp
            | ok value => simp
    · simp [receiveBody, hb]

theorem grow_length (t : v1.Transport) (dataSize : Nat) :
    dataSize ≤ (t.grow dataSize).data.length ∧ (t.grow dataSize).frameMax = t.frameMax := by
  unfold v1.Transport.grow
  split
  · exact ⟨by rw [List.length_replicate], rfl⟩
  · have := Nat.mod_le t.data.length (2 ^ 32)
    exact ⟨by omega, rfl⟩

/-- The outcome of `receiveFrame` once the size check has passed and the data has been
read: by the frame type, a rejection, a panic, or the body handed to the decoder. -/
theorem receiveFrame_read {F E : Type} (descriptor : v1.FrameKind → Nat)
    (unmarshalUlong : Nat → List Nat → Except E (Nat × List Nat))
    (unmarshalBuffer : v1.FrameKind → List Nat → Except E (F × List Nat))
    (t : v1.Transport) (frameMeta : v1.FrameMeta) (stream : List Nat)
    (hsize : ¬ frameMeta.Size > t.frameMax) (hread : sub32 frameMeta.Size 8 ≤ stream.length) :
    ∃ after : v1.Transport,
      receiveFrame descriptor unmarshalUlong unmarshalBuffer t frameMeta stream =
        if frameMeta.Type_ = 0 ∨ frameMeta.Type_ = 1 then
          if after.data.length < sub32 (sub32 frameMeta.Size 8)
              (sub32 (4 * frameMeta.DataOffset % 2 ^ 32) 8) then
            { result := .panic, transport := after,
              stream := stream.drop (sub32 frameMeta.Size 8) }
          else
            { result := receiveBody descriptor unmarshalUlong unmarshalBuffer frameMeta
                (after.data.take (sub32 (sub32 frameMeta.Size 8)
                  (sub32 (4 * frameMeta.DataOffset % 2 ^ 32) 8))),
              transport := after,
              stream := stream.drop (sub32 frameMeta.Size 8),
              buffer := some (after.data.take (sub32 (sub32 frameMeta.Size 8)
                (sub32 (4 * frameMeta.DataOffset % 2 ^ 32) 8))) }
        else
          { result := .error .ErrMalformedFrame, transport := after,
            stream := stream.drop (sub32 frameMeta.Size 8) } := by
  have hrf : readFull stream (sub32 frameMeta.Size 8) =
      .ok (stream.take (sub32 frameMeta.Size 8), stream.drop (sub32 frameMeta.Size 8)) := by
    simp only [readFull, hread, if_true]
  have hlen : ¬ (t.grow (sub32 frameMeta.Size 8)).data.length < sub32 frameMeta.Size 8 :=
    not_lt.2 (grow_length t _).1
  refine ⟨{ t.grow (sub32 frameMeta.Size 8) with
            data := stream.take (sub32 frameMeta.Size 8) ++
              (t.grow (sub32 frameMeta.Size 8)).data.drop (sub32 frameMeta.Size 8) }, ?_⟩
  unfold receiveFrame
  rw [if_neg hsize]
  simp only [if_neg hlen, hrf]

theorem receiveFrame_unread {F E : Type} (descriptor : v1.FrameKind → Nat)
    (unmarshalUlong : Nat → List Nat → Except E (Nat × List Nat))
    (unmarshalBuffer : v1.FrameKind → List Nat → Except E (F × List Nat))
    (t : v1.Transport) (frameMeta : v1.FrameMeta) (stream : List Nat)
    (hsize : ¬ frameMeta.Size > t.frameMax)
    (hread : ¬ sub32 frameMeta.Size 8 ≤ stream.length) :
    ∃ (err : ReadError) (after : v1.Transport),
      receiveFrame descriptor unmarshalUlong unmarshalBuffer t frameMeta stream =
        { result := .error (.wrapRead "read frame content failed".toList err),
          transport := after, stream := [] } := by
  have hlen : ¬ (t.grow (sub32 frameMeta.Size 8)).data.length < sub32 frameMeta.Size 8 :=
    not_lt.2 (grow_length t _).1
  unfold receiveFrame
  rw [if_neg hsize]
  by_cases hnil : stream = []
  · have hrf : readFull stream (sub32 frameMeta.Size 8) = .error .EOF := by
      unfold readFull
      rw [if_neg hread, if_pos hnil]
    simp only [if_neg hlen, hrf]
    exact ⟨_, _, rfl⟩
  · have hrf : readFull stream (sub32 frameMeta.Size 8) = .error .ErrUnexpectedEOF := by
      unfold readFull
      rw [if_neg hread, if_neg hnil]
    simp only [if_neg hlen, hrf]
    exact ⟨_, _, rfl⟩

theorem receiveFrame_tooBig {F E : Type} (descriptor : v1.FrameKind → Nat)
    (unmarshalUlong : Nat → List Nat → Except E (Nat × List Nat))
    (unmarshalBuffer : v1.FrameKind → List Nat → Except E (F × List Nat))
    (t : v1.Transport) (frameMeta : v1.FrameMeta) (stream : List Nat)
    (hsize : frameMeta.Size > t.frameMax) :
    receiveFrame descriptor unmarshalUlong unmarshalBuffer t frameMeta stream =
      { result := .error .ErrFrameTooBig, transport := t, stream := stream } := by
  unfold receiveFrame
  rw [if_pos hsize]

theorem decodeFrameMeta_header (b0 b1 b2 b3 b4 b5 b6 b7 : Nat) (tail : List Nat)
    (hbytes : ∀ b ∈ [b0, b1, b2, b3, b4, b5, b6, b7], b < 256) :
    decodeFrameMeta ([b0, b1, b2, b3, b4, b5, b6, b7] ++ tail) =
      { Size := b0 * 2 ^ 24 + b1 * 2 ^ 16 + b2 * 2 ^ 8 + b3, DataOffset := b4, Type_ := b5,
        Channel := b6 * 2 ^ 8 + b7 } := by
  have h0 : b0 % 256 = b0 := Nat.mod_eq_of_lt (hbytes b0 (by simp))
  have h1 : b1 % 256 = b1 := Nat.mod_eq_of_lt (hbytes b1 (by simp))
  have h2 : b2 % 256 = b2 := Nat.mod_eq_of_lt (hbytes b2 (by simp))
  have h3 : b3 % 256 = b3 := Nat.mod_eq_of_lt (hbytes b3 (by simp))
  have h4 : b4 % 256 = b4 := Nat.mod_eq_of_lt (hbytes b4 (by simp))
  have h5 : b5 % 256 = b5 := Nat.mod_eq_of_lt (hbytes b5 (by simp))
  have h6 : b6 % 256 = b6 := Nat.mod_eq_of_lt (hbytes b6 (by simp))
  have h7 : b7 % 256 = b7 := Nat.mod_eq_of_lt (hbytes b7 (by simp))
  simp [decodeFrameMeta, bigEndianUint32, bigEndianUint16, h0, h1, h2, h3, h4, h5, h6, h7]

theorem Receive_header {F E : Type} (descriptor : v1.FrameKind → Nat)
    (unmarshalUlong : Nat → List Nat → Except E (Nat × List Nat))
    (unmarshalBuffer : v1.FrameKind → List Nat → Except E (F × List Nat))
    (setReadDeadline : Option E) (t : v1.Transport) (b0 b1 b2 b3 b4 b5 b6 b7 : Nat)
    (rest : List Nat) (hbytes : ∀ b ∈ [b0, b1, b2, b3, b4, b5, b6, b7], b < 256)
    (hdata : 8 ≤ t.data.length) (hdeadline : t.receiveTimeout ≠ 0 → setReadDeadline = none) :
    t.Receive descriptor unmarshalUlong unmarshalBuffer setReadDeadline
        (b0 :: b1 :: b2 :: b3 :: b4 :: b5 :: b6 :: b7 :: rest) =
      receiveFrame descriptor unmarshalUlong unmarshalBuffer
        { t with data := [b0, b1, b2, b3, b4, b5, b6, b7] ++ t.data.drop 8 }
        { Size := b0 * 2 ^ 24 + b1 * 2 ^ 16 + b2 * 2 ^ 8 + b3, DataOffset := b4, Type_ := b5,
          Channel := b6 * 2 ^ 8 + b7 } rest := by
  have hd : (if t.receiveTimeout ≠ 0 then setReadDeadline else none) = none := by
    by_cases h : t.receiveTimeout ≠ 0
    · rw [if_pos h]; exact hdeadline h
    · rw [if_neg h]
  have hlen : ¬ t.data.length < 8 := by omega
  have hrf : readFull (b0 :: b1 :: b2 :: b3 :: b4 :: b5 :: b6 :: b7 :: rest) 8 =
      .ok ([b0, b1, b2, b3, b4, b5, b6, b7], rest) := by
    simp [readFull]
  unfold v1.Transport.Receive
  rw [hd]
  simp only [if_neg hlen, hrf]
  rw [decodeFrameMeta_header b0 b1 b2 b3 b4 b5 b6 b7 _ hbytes]

/-- C33: `Transport.Receive` decodes the 8 header bytes as size = big-endian u32 of bytes
0..3, doff = byte 4, type = byte 5, channel = big-endian u16 of bytes 6..7, and a frame it
returns carries these. It returns `ErrFrameTooBig` exactly when the size exceeds the frame
maximum. It returns `ErrMalformedFrame` when, the frame data having been read, the type
byte is neither 0x00 nor 0x01; when the body handed to the decoder does not start with the
0x00 descriptor constructor; and when the descriptor code read is none of the fourteen
descriptors of the frame kinds; and in no other case. -/
theorem C33_receive_header_and_errors {F E : Type} (descriptor : v1.FrameKind → Nat)
    (unmarshalUlong : Nat → List Nat → Except E (Nat × List Nat))
    (unmarshalBuffer : v1.FrameKind → List Nat → Except E (F × List Nat))
    (setReadDeadline : Option E) (t : v1.Transport) (b0 b1 b2 b3 b4 b5 b6 b7 : Nat)
    (rest : List Nat) (hbytes : ∀ b ∈ [b0, b1, b2, b3, b4, b5, b6, b7], b < 256)
    (hdata : 8 ≤ t.data.length) (hdeadline : t.receiveTimeout ≠ 0 → setReadDeadline = none) :
    let out := t.Receive descriptor unmarshalUlong unmarshalBuffer setReadDeadline
      (b0 :: b1 :: b2 :: b3 :: b4 :: b5 :: b6 :: b7 :: rest)
    let size := b0 * 2 ^ 24 + b1 * 2 ^ 16 + b2 * 2 ^ 8 + b3
    (∀ kind frameMeta content, out.result = .frame kind frameMeta content →
      frameMeta.Size = size ∧ frameMeta.DataOffset = b4 ∧ frameMeta.Type_ = b5 ∧
        frameMeta.Channel = b6 * 2 ^ 8 + b7) ∧
    (out.result = .error .ErrFrameTooBig ↔ size > t.frameMax) ∧
    (size ≤ t.frameMax → sub32 size 8 ≤ rest.length → b5 ≠ 0 → b5 ≠ 1 →
      out.result = .error .ErrMalformedFrame) ∧
    (∀ b tail, out.buffer = some (b :: tail) → b ≠ 0 →
      out.result = .error .ErrMalformedFrame) ∧
    (∀ c tail code after, out.buffer = some (0 :: c :: tail) →
      unmarshalUlong c tail = .ok (code, after) → (∀ kind, descriptor kind ≠ code) →
      out.result = .error .ErrMalformedFrame) ∧
    (out.result = .error .ErrMalformedFrame →
      (b5 ≠ 0 ∧ b5 ≠ 1) ∨
      (∃ b tail, out.buffer = some (b :: tail) ∧ b ≠ 0) ∨
      (∃ c tail code after, out.buffer = some (0 :: c :: tail) ∧
        unmarshalUlong c tail = .ok (code, after) ∧ ∀ kind, descriptor kind ≠ code)) := by
  intro out size
  have hout : out = receiveFrame descriptor unmarshalUlong unmarshalBuffer
      { t with data := [b0, b1, b2, b3, b4, b5, b6, b7] ++ t.data.drop 8 }
      { Size := size, DataOffset := b4, Type_ := b5, Channel := b6 * 2 ^ 8 + b7 } rest :=
    Receive_header descriptor unmarshalUlong unmarshalBuffer setReadDeadline t b0 b1 b2 b3 b4
      b5 b6 b7 rest hbytes hdata hdeadline
  -- the four shapes of the outcome
  have hshape :
      (size > t.frameMax ∧ out.result = .error .ErrFrameTooBig ∧ out.buffer = none) ∨
      (¬ size > t.frameMax ∧ ¬ sub32 size 8 ≤ rest.length ∧ out.buffer = none ∧
        ∃ err, out.result = .error (.wrapRead "read frame content failed".toList err)) ∨
      (¬ size > t.frameMax ∧ sub32 size 8 ≤ rest.length ∧ ¬ (b5 = 0 ∨ b5 = 1) ∧
        out.result = .error .ErrMalformedFrame ∧ out.buffer = none) ∨
      (¬ size > t.frameMax ∧ sub32 size 8 ≤ rest.length ∧ (b5 = 0 ∨ b5 = 1) ∧
        ((out.result = .panic ∧ out.buffer = none) ∨
          ∃ buf, out.buffer = some buf ∧
            out.result = receiveBody descriptor unmarshalUlong unmarshalBuffer
              { Size := size, DataOffset := b4, Type_ := b5, Channel := b6 * 2 ^ 8 + b7 }
              buf)) := by
    by_cases hsize : size > t.frameMax
    · have htoo := receiveFrame_tooBig descriptor unmarshalUlong unmarshalBuffer
        { t with data := [b0, b1, b2, b3, b4, b5, b6, b7] ++ t.data.drop 8 }
        { Size := size, DataOffset := b4, Type_ := b5, Channel := b6 * 2 ^ 8 + b7 } rest hsize
      rw [← hout] at htoo
      exact Or.inl ⟨hsize, by rw [htoo], by rw [htoo]⟩
    · by_cases hread : sub32 size 8 ≤ rest.length
      · obtain ⟨after, hafter⟩ := receiveFrame_read descriptor unmarshalUlong unmarshalBuffer
          { t with data := [b0, b1, b2, b3, b4, b5, b6, b7] ++ t.data.drop 8 }
          { Size := size, DataOffset := b4, Type_ := b5, Channel := b6 * 2 ^ 8 + b7 } rest
          hsize hread
        rw [← hout] at hafter
        by_cases htype : b5 = 0 ∨ b5 = 1
        · refine Or.inr (Or.inr (Or.inr ⟨hsize, hread, htype, ?_⟩))
          rw [if_pos htype] at hafter
          split at hafter
          · exact Or.inl ⟨by rw [hafter], by rw [hafter]⟩
          · exact Or.inr ⟨_, by rw [hafter], by rw [hafter]⟩
        · refine Or.inr (Or.inr (Or.inl ⟨hsize, hread, htype, ?_, ?_⟩))
          · rw [hafter, if_neg htype]
          · rw [hafter, if_neg htype]
      · obtain ⟨err, after, hafter⟩ := receiveFrame_unread descriptor unmarshalUlong
          unmarshalBuffer
          { t with data := [b0, b1, b2, b3, b4, b5, b6, b7] ++ t.data.drop 8 }
          { Size := size, DataOffset := b4, Type_ := b5, Channel := b6 * 2 ^ 8 + b7 } rest
          hsize hread
        rw [← hout] at hafter
        exact Or.inr (Or.inl ⟨hsize, hread, by rw [hafter], err, by rw [hafter]⟩)
  refine ⟨?_, ?_, ?_, ?_, ?_, ?_⟩
  · intro kind frameMeta content hframe
    rcases hshape with ⟨_, h, _⟩ | ⟨_, _, _, err, h⟩ | ⟨_, _, _, h, _⟩ |
      ⟨_, _, _, ⟨h, _⟩ | ⟨buf, _, h⟩⟩
    · rw [h] at hframe; cases hframe
    · rw [h] at hframe; cases hframe
    · rw [h] at hframe; cases hframe
    · rw [h] at hframe; cases hframe
    · rw [h] at hframe
      exact receiveBody_frame descriptor unmarshalUlong unmarshalBuffer _ buf kind frameMeta
        content hframe
  · constructor
    · intro htoo
      rcases hshape with ⟨hsize, _, _⟩ | ⟨_, _, _, err, h⟩ | ⟨_, _, _, h, _⟩ |
        ⟨_, _, _, ⟨h, _⟩ | ⟨buf, _, h⟩⟩
      · exact hsize
      · rw [h] at htoo; cases htoo
      · rw [h] at htoo; cases htoo
      · rw [h] at htoo; cases htoo
      · rw [h] at htoo
        exact absurd htoo (receiveBody_not_tooBig descriptor unmarshalUlong unmarshalBuffer
          _ buf)
    · intro hsize
      rcases hshape with ⟨_, h, _⟩ | ⟨hn, _⟩ | ⟨hn, _⟩ | ⟨hn, _⟩
      · exact h
      · exact absurd hsize hn
      · exact absurd hsize hn
      · exact absurd hsize hn
  · intro hsize hread h0 h1
    rcases hshape with ⟨hbig, _⟩ | ⟨_, hn, _⟩ | ⟨_, _, _, h, _⟩ | ⟨_, _, htype, _⟩
    · omega
    · exact absurd hread hn
    · exact h
    · rcases htype with h | h
      · exact absurd h h0
      · exact absurd h h1
  · intro b tail hbuf hb
    rcases hshape with ⟨_, _, h⟩ | ⟨_, _, h, _⟩ | ⟨_, _, _, _, h⟩ |
      ⟨_, _, _, ⟨_, h⟩ | ⟨buf, hb2, h⟩⟩
    · rw [h] at hbuf; cases hbuf
    · rw [h] at hbuf; cases hbuf
    · rw [h] at hbuf; cases hbuf
    · rw [h] at hbuf; cases hbuf
    · rw [hb2] at hbuf
      cases hbuf
      rw [h]
      exact (receiveBody_malformed_iff descriptor unmarshalUlong unmarshalBuffer _ _).2
        (Or.inl ⟨b, tail, rfl, hb⟩)
  · intro c tail code after hbuf hu hall
    rcases hshape with ⟨_, _, h⟩ | ⟨_, _, h, _⟩ | ⟨_, _, _, _, h⟩ |
      ⟨_, _, _, ⟨_, h⟩ | ⟨buf, hb2, h⟩⟩
    · rw [h] at hbuf; cases hbuf
    · rw [h] at hbuf; cases hbuf
    · rw [h] at hbuf; cases hbuf
    · rw [h] at hbuf; cases hbuf
    · rw [hb2] at hbuf
      cases hbuf
      rw [h]
      exact (receiveBody_malformed_iff descriptor unmarshalUlong unmarshalBuffer _ _).2
        (Or.inr ⟨c, tail, code, after, rfl, hu, hall⟩)
  · intro hmal
    rcases hshape with ⟨_, h, _⟩ | ⟨_, _, _, err, h⟩ | ⟨_, _, htype, _, _⟩ |
      ⟨_, _, _, ⟨h, _⟩ | ⟨buf, hb2, h⟩⟩
    · rw [h] at hmal; cases hmal
    · rw [h] at hmal; cases hmal
    · exact Or.inl ⟨fun h => htype (Or.inl h), fun h => htype (Or.inr h)⟩
    · rw [h] at hmal; cases hmal
    · rw [h] at hmal
      rcases (receiveBody_malformed_iff descriptor unmarshalUlong unmarshalBuffer _ _).1 hmal
        with ⟨b, tail, rfl, hb⟩ | ⟨c, tail, code, after, rfl, hu, hall⟩
      · exact Or.inr (Or.inl ⟨b, tail, hb2, hb⟩)
      · exact Or.inr (Or.inr ⟨c, tail, code, after, hb2, hu, hall⟩)

/-- C33, witness: a frame of 12 bytes on channel 1 whose descriptor code 99 is not one of
the fourteen. -/
theorem C33_receive_header_and_errors_witness :
    (staleTransport.Receive sampleDescriptor sampleUnmarshalUlong sampleUnmarshalBuffer none
        [0, 0, 0, 12, 2, 0, 0, 1, 0, 83, 99, 9]).result = .error .ErrMalformedFrame ∧
    (staleTransport.Receive sampleDescriptor sampleUnmarshalUlong sampleUnmarshalBuffer none
        [0, 0, 0, 12, 2, 0, 0, 1, 0, 83, 16, 9]).result =
      .frame .Open { Size := 12, DataOffset := 2, Type_ := 0, Channel := 1 } [9] :=
  ⟨(C33_receive_header_and_errors sampleDescriptor sampleUnmarshalUlong sampleUnmarshalBuffer
      none staleTransport 0 0 0 12 2 0 0 1 [0, 83, 99, 9] (by decide) (by decide)
      (fun _ => rfl)).2.2.2.2.1 83 [99, 9] 99 [9] (by decide) rfl
      (by intro kind; cases kind <;> decide),
   by decide⟩

theorem grow_length_of_lt (t : v1.Transport) (dataSize : Nat)
    (h : t.data.length % 2 ^ 32 < dataSize) : (t.grow dataSize).data.length = dataSize := by
  unfold v1.Transport.grow
  rw [if_pos h]
  exact List.length_replicate _ _

theorem receiveFrame_eof {F E : Type} (descriptor : v1.FrameKind → Nat)
    (unmarshalUlong : Nat → List Nat → Except E (Nat × List Nat))
    (unmarshalBuffer : v1.FrameKind → List Nat → Except E (F × List Nat))
    (t : v1.Transport) (frameMeta : v1.FrameMeta) (hsize : ¬ frameMeta.Size > t.frameMax)
    (hpos : ¬ sub32 frameMeta.Size 8 ≤ ([] : List Nat).length) :
    receiveFrame descriptor unmarshalUlong unmarshalBuffer t frameMeta [] =
      { result := .error (.wrapRead "read frame content failed".toList .EOF),
        transport :=
          { t.grow (sub32 frameMeta.Size 8) with
            data := [] ++ (t.grow (sub32 frameMeta.Size 8)).data.drop ([] : List Nat).length },
        stream := [] } := by
  have hlen : ¬ (t.grow (sub32 frameMeta.Size 8)).data.length < sub32 frameMeta.Size 8 :=
    not_lt.2 (grow_length t _).1
  have hrf : readFull [] (sub32 frameMeta.Size 8) = .error .EOF := by
    unfold readFull
    rw [if_neg hpos, if_pos rfl]
  unfold receiveFrame
  rw [if_neg hsize]
  simp only [if_neg hlen, hrf]

/-- C39 fails on the code: `Receive` checks the size of a frame against the frame maximum
only. With the header `00 00 00 00 02 00 00 00` (size 0) the data length `size - 8` wraps
to 4294967288, a buffer of that length is made and the read is attempted. With size 16
and doff 0 the body length wraps to 16 although 8 bytes were read, and the body handed to
the decoder, and decoded as an `Open` frame, ends with 8 bytes left in the buffer from
earlier frames. With size 8 and doff 3 the body length wraps to 4294967292 and the slice
expression panics. -/
theorem C39_receive_proceeds_on_short_frames :
    ((staleTransport.Receive sampleDescriptor sampleUnmarshalUlong sampleUnmarshalBuffer none
        [0, 0, 0, 0, 2, 0, 0, 0]).result =
        .error (.wrapRead "read frame content failed".toList .EOF) ∧
      (staleTransport.Receive sampleDescriptor sampleUnmarshalUlong sampleUnmarshalBuffer none
        [0, 0, 0, 0, 2, 0, 0, 0]).transport.data.length = 4294967288 ∧
      sub32 0 8 = 4294967288) ∧
    ((staleTransport.Receive sampleDescriptor sampleUnmarshalUlong sampleUnmarshalBuffer none
        [0, 0, 0, 16, 0, 0, 0, 0, 0, 83, 16, 1, 2, 3, 4, 5]).buffer =
        some [0, 83, 16, 1, 2, 3, 4, 5, 7, 7, 7, 7, 7, 7, 7, 7] ∧
      (staleTransport.Receive sampleDescriptor sampleUnmarshalUlong sampleUnmarshalBuffer none
        [0, 0, 0, 16, 0, 0, 0, 0, 0, 83, 16, 1, 2, 3, 4, 5]).result =
        .frame .Open { Size := 16, DataOffset := 0, Type_ := 0, Channel := 0 }
          [1, 2, 3, 4, 5, 7, 7, 7, 7, 7, 7, 7, 7] ∧
      sub32 (sub32 16 8) (sub32 (4 * 0 % 2 ^ 32) 8) = 16) ∧
    ((staleTransport.Receive sampleDescriptor sampleUnmarshalUlong sampleUnmarshalBuffer none
        [0, 0, 0, 8, 3, 0, 0, 0]).result = .panic ∧
      sub32 (sub32 8 8) (sub32 (4 * 3 % 2 ^ 32) 8) = 4294967292) := by
  refine ⟨?_, ⟨by decide, by decide, by decide⟩, ⟨by decide, by decide⟩⟩
  have hheader := Receive_header sampleDescriptor sampleUnmarshalUlong sampleUnmarshalBuffer
    none staleTransport 0 0 0 0 2 0 0 0 [] (by decide) (by decide) (fun _ => rfl)
  have hwrap : sub32 (0 * 2 ^ 24 + 0 * 2 ^ 16 + 0 * 2 ^ 8 + 0) 8 = 4294967288 := by decide
  have heof := receiveFrame_eof sampleDescriptor sampleUnmarshalUlong sampleUnmarshalBuffer
    { staleTransport with data := [0, 0, 0, 0, 2, 0, 0, 0] ++ staleTransport.data.drop 8 }
    { Size := 0 * 2 ^ 24 + 0 * 2 ^ 16 + 0 * 2 ^ 8 + 0, DataOffset := 2, Type_ := 0,
      Channel := 0 * 2 ^ 8 + 0 }
    (by decide) (by rw [hwrap]; decide)
  rw [← hheader] at heof
  rw [heof]
  refine ⟨rfl, ?_, by decide⟩
  show (List.drop 0 (v1.Transport.grow _ _).data).length = 4294967288
  rw [List.drop_zero, hwrap]
  exact grow_length_of_lt _ _ (by decide)

end Eventter
